import Mathlib

/-!
Synopsys DesignWare USB OTG device controller (hw/usb_synopsys.c)

A shallow embedding of the register model of `hw/usb_synopsys.c` and proofs of
properties of its interrupt aggregation, endpoint update step, register
dispatch and FIFO layout helpers.

Conventions of the embedding

* `uint32_t` registers are natural numbers; the C operators that can leave the
  32-bit range are written with an explicit truncation (`not32`, `% 2 ^ 32`).
* The fixed-size arrays `in_eps`, `out_eps`, `dptxfsiz` and `fifos` are
  functions of the index; the source only indexes them under its own guards.
* Everything outside the file (interrupt line, guest memory, tunnel transport,
  `hw_error`) is kept in `Machine`/`Outcome` next to the controller state.
-/

namespace UsbSynopsys

/-! ## Constants of the source -/

def USB_NUM_ENDPOINTS : Nat := 8
def USB_NUM_FIFOS : Nat := 16

def GRSTCTL : Nat := 0x10
def GHWCFG1 : Nat := 0x44
def GHWCFG2 : Nat := 0x48
def GHWCFG3 : Nat := 0x4C
def GHWCFG4 : Nat := 0x50
def USB_INREGS : Nat := 0x900
def USB_OUTREGS : Nat := 0xB00
def USB_EPREGS_SIZE : Nat := 0x200

def GRSTCTL_AHBIDLE : Nat := 1 <<< 31
def GRSTCTL_CORESOFTRESET : Nat := 0x1

def GINTMSK_INEP : Nat := 1 <<< 18
def GINTMSK_OEP : Nat := 1 <<< 19

def DAINT_OUT_SHIFT : Nat := 16
def DAINT_IN_SHIFT : Nat := 0

def DEPTSIZ_XFERSIZ_MASK : Nat := 0x1FFFF

def USB_EPCON_ENABLE : Nat := 1 <<< 31
def USB_EPCON_DISABLE : Nat := 1 <<< 30
def USB_EPCON_SETNAK : Nat := 1 <<< 27
def USB_EPCON_TXFNUM_MASK : Nat := 0xf
def USB_EPCON_TXFNUM_SHIFT : Nat := 22
def USB_EPCON_NAKSTS : Nat := 1 <<< 17

def USB_EPINT_INEPNakEff : Nat := 0x40
def USB_EPINT_EPDisbld : Nat := 0x2
def USB_EPINT_XferCompl : Nat := 0x1

/-- The value of `sizeof(_state->fifos)`, the array `uint8_t fifos[0x100 * (USB_NUM_FIFOS+1)]`. -/
def FIFOS_SIZE : Nat := 0x100 * (USB_NUM_FIFOS + 1)

/-! ## Machine integers -/

/-- The C operator `~` on a `uint32_t` operand (also the value an `int` constant
complemented with `~` takes once it meets a `uint32_t` in `&`). -/
def not32 (x : Nat) : Nat := 0xFFFFFFFF - x % 0x100000000

/-- Modelled from the spec: the typedef `target_phys_addr_t` of the `dma_address`
and `dma_buffer` fields is declared in the emulator headers, outside this file.
The spec gives the register space as "All registers are 32-bit", so guest
physical addresses are taken 32 bits wide. -/
def TARGET_PHYS_ADDR_BITS : Nat := 32

/-- The width of the host type `size_t`. Every `size_t` value of the source is
either masked to 17 bits or truncated to an address right after it is computed,
so a 32-bit host gives the same register values. -/
def SIZE_T_BITS : Nat := 64

/-- The C expression `a - b` on `size_t` operands (wraps around). -/
def size_t_sub (a b : Nat) : Nat :=
  (a % 2 ^ SIZE_T_BITS + 2 ^ SIZE_T_BITS - b % 2 ^ SIZE_T_BITS) % 2 ^ SIZE_T_BITS

/-! ## Data model -/

/-- The C struct `synopsys_usb_ep_state`. -/
structure synopsys_usb_ep_state where
  control : Nat
  tx_size : Nat
  fifo : Nat
  interrupt_status : Nat
  dma_address : Nat
  dma_buffer : Nat

/-- The register fields of the C struct `synopsys_usb_state`. -/
structure synopsys_usb_state where
  ghwcfg1 : Nat
  ghwcfg2 : Nat
  ghwcfg3 : Nat
  ghwcfg4 : Nat
  grxfsiz : Nat
  gnptxfsiz : Nat
  grstctl : Nat
  gintmsk : Nat
  gintsts : Nat
  dptxfsiz : Nat → Nat
  dcfg : Nat
  dsts : Nat
  daintmsk : Nat
  daintsts : Nat
  in_eps : Nat → synopsys_usb_ep_state
  out_eps : Nat → synopsys_usb_ep_state
  fifos : Nat → Nat

/-- A call the controller makes to one of its collaborators. A buffer argument
is recorded as its byte offset inside `fifos`. -/
inductive ext_call where
  | cpu_physical_memory_read (addr off len : Nat)
  | cpu_physical_memory_write (addr off len : Nat)
  | tcp_usb_send (ep off len : Nat)
  | tcp_usb_recv (ep off len : Nat)
  deriving DecidableEq

/-- The controller state together with what it drives: the level of the
interrupt line (`qemu_irq_raise` / `qemu_irq_lower`), guest physical memory,
and the calls issued so far, newest first. -/
structure Machine where
  state : synopsys_usb_state
  irq : Bool
  mem : Nat → Nat
  calls : List ext_call

/-- Modelled from the spec: `hw_error` is defined by the emulator, outside this
file; the spec calls every such error "fatal (process-terminating)". A run
either returns normally or stops inside `hw_error`; the machine carried by
`hw_error` is the one at the moment of the call, so that what was written
before the abort can be stated. -/
inductive Outcome where
  | ok (m : Machine)
  | hw_error (m : Machine)

/-- The machine an outcome carries. -/
def Outcome.machine : Outcome → Machine
  | .ok m => m
  | .hw_error m => m

/-- Whether the run stopped in `hw_error`. -/
def Outcome.fatal : Outcome → Bool
  | .ok _ => false
  | .hw_error _ => true

/-- Assignment to `_state->in_eps[i]`. -/
def set_in_ep (s : synopsys_usb_state) (i : Nat) (e : synopsys_usb_ep_state) :
    synopsys_usb_state :=
  { s with in_eps := fun j => if j = i then e else s.in_eps j }

/-- Assignment to `_state->out_eps[i]`. -/
def set_out_ep (s : synopsys_usb_state) (i : Nat) (e : synopsys_usb_ep_state) :
    synopsys_usb_state :=
  { s with out_eps := fun j => if j = i then e else s.out_eps j }

/-- Modelled from the spec: the guest memory collaborator `read(addr, length)`,
called as `cpu_physical_memory_read(addr, &fifos[off], len)`: the bytes at
`addr, addr+1, ...` land in `fifos[off .. off+len)`. -/
def cpu_physical_memory_read (mem : Nat → Nat) (addr : Nat) (buf : Nat → Nat)
    (off len : Nat) : Nat → Nat :=
  fun k => if off ≤ k ∧ k < off + len then mem (addr + (k - off)) else buf k

/-- Modelled from the spec: the guest memory collaborator `write(addr, bytes)`,
called as `cpu_physical_memory_write(addr, fifos, len)`: the first `len` bytes
of the buffer land at `addr, addr+1, ...`. -/
def cpu_physical_memory_write (mem : Nat → Nat) (addr : Nat) (buf : Nat → Nat)
    (len : Nat) : Nat → Nat :=
  fun a => if addr ≤ a ∧ a < addr + len then buf (a - addr) else mem a

/-- Modelled from the spec: the transport stores the bytes it received in the buffer
handed to `tcp_usb_recv`, which is the FIFO buffer, before it calls the completion;
`buf` is the content of the FIFO buffer at that moment. -/
def tcp_usb_fill (m : Machine) (buf : Nat → Nat) : Machine :=
  { m with state := { m.state with fifos := buf } }

/-! ## FIFO layout -/

def synopsys_usb_tx_fifo_start (_state : synopsys_usb_state) (_fifo : Nat) : Nat :=
  if _fifo = 0 then _state.gnptxfsiz >>> 16
  else _state.dptxfsiz (_fifo - 1) >>> 16

def synopsys_usb_tx_fifo_size (_state : synopsys_usb_state) (_fifo : Nat) : Nat :=
  if _fifo = 0 then _state.gnptxfsiz &&& 0xFFFF
  else _state.dptxfsiz (_fifo - 1) &&& 0xFFFF

/-! ## Interrupt aggregation -/

/-- One iteration of the `for` loop of `synopsys_usb_update_irq`. The second
branch sets `GINTMSK_OEP`, as the source does. -/
def update_irq_body (s : synopsys_usb_state) (i : Nat) : synopsys_usb_state :=
  let s1 :=
    if (s.out_eps i).interrupt_status ≠ 0 then
      let t := { s with daintsts := s.daintsts ||| (1 <<< (i + DAINT_OUT_SHIFT)) }
      if t.daintmsk &&& (1 <<< (i + DAINT_OUT_SHIFT)) ≠ 0 then
        { t with gintsts := t.gintsts ||| GINTMSK_OEP }
      else t
    else s
  if (s1.in_eps i).interrupt_status ≠ 0 then
    let t := { s1 with daintsts := s1.daintsts ||| (1 <<< (i + DAINT_IN_SHIFT)) }
    if t.daintmsk &&& (1 <<< (i + DAINT_IN_SHIFT)) ≠ 0 then
      { t with gintsts := t.gintsts ||| GINTMSK_OEP }
    else t
  else s1

/-- The loop `for(i = 0; i < n; i++)` of `synopsys_usb_update_irq`. -/
def update_irq_loop (n : Nat) (s : synopsys_usb_state) : synopsys_usb_state :=
  (List.range n).foldl update_irq_body s

/-- The field `irq` becomes true for `qemu_irq_raise` and false for `qemu_irq_lower`. -/
def synopsys_usb_update_irq (m : Machine) : Machine :=
  let s0 := { m.state with
    daintsts := 0,
    gintsts := m.state.gintsts &&& not32 (GINTMSK_OEP ||| GINTMSK_INEP) }
  let s := update_irq_loop USB_NUM_ENDPOINTS s0
  { m with state := s, irq := if s.gintmsk &&& s.gintsts ≠ 0 then true else false }

/-! ## Endpoint update and transfer steps -/

/-- The source function takes `_state` too and does not use it. -/
def synopsys_usb_update_ep (_ep : synopsys_usb_ep_state) : synopsys_usb_ep_state :=
  let e1 :=
    if _ep.control &&& USB_EPCON_SETNAK ≠ 0 then
      { _ep with
        control := (_ep.control ||| USB_EPCON_NAKSTS) &&& not32 USB_EPCON_SETNAK,
        interrupt_status := _ep.interrupt_status ||| USB_EPINT_INEPNakEff }
    else _ep
  if e1.control &&& USB_EPCON_DISABLE ≠ 0 then
    { e1 with
      interrupt_status := e1.interrupt_status ||| USB_EPINT_EPDisbld,
      control := e1.control &&& not32 (USB_EPCON_DISABLE ||| USB_EPCON_ENABLE) }
  else e1

/-- The completion callback of an IN transfer. The source declares `_ep` as `uint8_t`
and `_amt` as `size_t`; the callers in the source pass an endpoint number below 8. -/
def synopsys_usb_in_ep_done (m : Machine) (_ep _amt : Nat) : Machine :=
  let eps := m.state.in_eps _ep
  let sz := eps.tx_size &&& DEPTSIZ_XFERSIZ_MASK
  let eps1 := { eps with
    tx_size := (eps.tx_size &&& not32 DEPTSIZ_XFERSIZ_MASK)
      ||| (size_t_sub sz _amt &&& DEPTSIZ_XFERSIZ_MASK),
    control := eps.control &&& not32 USB_EPCON_ENABLE,
    interrupt_status := eps.interrupt_status ||| USB_EPINT_XferCompl }
  synopsys_usb_update_irq { m with state := set_in_ep m.state _ep eps1 }

/-- The block guarded by `if(eps->dma_address)` in `synopsys_usb_update_in_ep`: `amtDone`
bytes of guest memory are read into the FIFO window at `txfs` and the address advances. -/
def in_ep_dma (m1 : Machine) (_ep txfs amtDone : Nat) : Machine :=
  let eps := m1.state.in_eps _ep
  if eps.dma_address ≠ 0 then
    let eps1 := { eps with
      dma_address := (eps.dma_address + amtDone) % 2 ^ TARGET_PHYS_ADDR_BITS }
    let s1 := set_in_ep m1.state _ep eps1
    { m1 with
      state := { s1 with
        fifos := cpu_physical_memory_read m1.mem eps.dma_address m1.state.fifos txfs amtDone },
      calls := .cpu_physical_memory_read eps.dma_address txfs amtDone :: m1.calls }
  else m1

/-- The argument `okay` is what the transport probe `tcp_usb_okay` returns at
its call site (true for nonzero). -/
def synopsys_usb_update_in_ep (m : Machine) (okay : Bool) (_ep : Nat) : Outcome :=
  let eps := synopsys_usb_update_ep (m.state.in_eps _ep)
  let m1 := { m with state := set_in_ep m.state _ep eps }
  if eps.control &&& USB_EPCON_ENABLE ≠ 0 then
    let sz := eps.tx_size &&& DEPTSIZ_XFERSIZ_MASK
    if eps.fifo ≥ USB_NUM_FIFOS then .hw_error m1
    else
      let txfz := synopsys_usb_tx_fifo_size m1.state eps.fifo
      let amtDone := if sz > txfz then txfz else sz
      let txfs := synopsys_usb_tx_fifo_start m1.state eps.fifo
      if txfs + txfz > FIFOS_SIZE then .hw_error m1
      else
        let m2 := in_ep_dma m1 _ep txfs amtDone
        if !okay then
          .ok { m2 with calls := .tcp_usb_send _ep txfs amtDone :: m2.calls }
        else
          .ok (synopsys_usb_in_ep_done m2 _ep amtDone)
  else .ok m1

/-- The completion callback of an OUT transfer. The guest memory write copies `_amt`
bytes from the base of `fifos`. -/
def synopsys_usb_out_ep_done (m : Machine) (_ep _amt : Nat) : Machine :=
  let eps := m.state.out_eps _ep
  let sz := eps.tx_size &&& DEPTSIZ_XFERSIZ_MASK
  let m1 :=
    if eps.dma_address ≠ 0 then
      { m with
        state := set_out_ep m.state _ep
          { eps with dma_address := (eps.dma_address + _amt) % 2 ^ TARGET_PHYS_ADDR_BITS },
        mem := cpu_physical_memory_write m.mem eps.dma_address m.state.fifos _amt,
        calls := .cpu_physical_memory_write eps.dma_address 0 _amt :: m.calls }
    else m
  let eps1 := m1.state.out_eps _ep
  let eps2 := { eps1 with
    tx_size := (eps1.tx_size &&& not32 DEPTSIZ_XFERSIZ_MASK)
      ||| (size_t_sub sz _amt &&& DEPTSIZ_XFERSIZ_MASK),
    control := eps1.control &&& not32 USB_EPCON_ENABLE,
    interrupt_status := eps1.interrupt_status ||| USB_EPINT_XferCompl }
  synopsys_usb_update_irq { m1 with state := set_out_ep m1.state _ep eps2 }

/-- The argument `okay` is what the transport probe `tcp_usb_okay` returns at
its call site (true for nonzero). -/
def synopsys_usb_update_out_ep (m : Machine) (okay : Bool) (_ep : Nat) : Outcome :=
  let eps := synopsys_usb_update_ep (m.state.out_eps _ep)
  let m1 := { m with state := set_out_ep m.state _ep eps }
  if eps.control &&& USB_EPCON_ENABLE ≠ 0 then
    if okay then .ok m1
    else
      let sz := eps.tx_size &&& DEPTSIZ_XFERSIZ_MASK
      let rxfz := m1.state.grxfsiz
      let amtDone := if sz > rxfz then rxfz else sz
      if rxfz > FIFOS_SIZE then .hw_error m1
      else .ok { m1 with calls := .tcp_usb_recv _ep 0 amtDone :: m1.calls }
  else .ok m1

/-! ## Register dispatch -/

def synopsys_usb_in_ep_write (m : Machine) (okay : Bool) (_ep _addr _val : Nat) : Outcome :=
  if _ep ≥ USB_NUM_ENDPOINTS then .hw_error m
  else if _addr = 0x00 then
    synopsys_usb_update_in_ep
      { m with state := set_in_ep m.state _ep { (m.state.in_eps _ep) with control := _val } }
      okay _ep
  else if _addr = 0x08 then
    let eps := m.state.in_eps _ep
    let eps1 := { eps with interrupt_status := eps.interrupt_status &&& not32 _val }
    .ok (synopsys_usb_update_irq { m with state := set_in_ep m.state _ep eps1 })
  else if _addr = 0x10 then
    .ok { m with state := set_in_ep m.state _ep { (m.state.in_eps _ep) with tx_size := _val } }
  else if _addr = 0x14 then
    .ok { m with state := set_in_ep m.state _ep { (m.state.in_eps _ep) with dma_address := _val } }
  else if _addr = 0x1C then
    .ok { m with state := set_in_ep m.state _ep { (m.state.in_eps _ep) with dma_buffer := _val } }
  else .hw_error m

def synopsys_usb_out_ep_write (m : Machine) (okay : Bool) (_ep _addr _val : Nat) : Outcome :=
  if _ep ≥ USB_NUM_ENDPOINTS then .hw_error m
  else if _addr = 0x00 then
    synopsys_usb_update_out_ep
      { m with state := set_out_ep m.state _ep { (m.state.out_eps _ep) with control := _val } }
      okay _ep
  else if _addr = 0x08 then
    let eps := m.state.out_eps _ep
    let eps1 := { eps with interrupt_status := eps.interrupt_status &&& not32 _val }
    .ok (synopsys_usb_update_irq { m with state := set_out_ep m.state _ep eps1 })
  else if _addr = 0x10 then
    .ok { m with state := set_out_ep m.state _ep { (m.state.out_eps _ep) with tx_size := _val } }
  else if _addr = 0x14 then
    .ok { m with state := set_out_ep m.state _ep { (m.state.out_eps _ep) with dma_address := _val } }
  else if _addr = 0x1C then
    .ok { m with state := set_out_ep m.state _ep { (m.state.out_eps _ep) with dma_buffer := _val } }
  else .hw_error m

/-- The `switch` of the source, its `case` ranges written as comparisons. -/
def synopsys_usb_write (m : Machine) (okay : Bool) (_addr _val : Nat) : Outcome :=
  if _addr = GRSTCTL then
    if _val &&& GRSTCTL_CORESOFTRESET ≠ 0 then
      .ok { m with state := { m.state with
        grstctl := (m.state.grstctl &&& not32 GRSTCTL_CORESOFTRESET) ||| GRSTCTL_AHBIDLE } }
    else if _val = 0 then
      .ok { m with state := { m.state with grstctl := _val } }
    else .ok m
  else if USB_INREGS ≤ _addr ∧ _addr ≤ USB_INREGS + USB_EPREGS_SIZE - 4 then
    synopsys_usb_in_ep_write m okay ((_addr - USB_INREGS) >>> 5)
      ((_addr - USB_INREGS) &&& 0x1f) _val
  else if USB_OUTREGS ≤ _addr ∧ _addr ≤ USB_OUTREGS + USB_EPREGS_SIZE - 4 then
    synopsys_usb_out_ep_write m okay ((_addr - USB_OUTREGS) >>> 5)
      ((_addr - USB_OUTREGS) &&& 0x1f) _val
  else .ok m

def synopsys_usb_initial_reset (m : Machine) : Machine :=
  synopsys_usb_update_irq { m with state := { m.state with
    ghwcfg1 := 0,
    ghwcfg2 := 0x7a8f60d0,
    ghwcfg3 := 0x082000e8,
    ghwcfg4 := 0x01f08024,
    gintmsk := 0,
    daintmsk := 0 } }

/-! ## Predicates and concrete machines used in the statements -/

/-- An endpoint pair `i` contributes to the summary: it has a pending status
whose `DAINTMSK` bit is set, in either direction. -/
def masked_pending (s : synopsys_usb_state) (i : Nat) : Prop :=
  ((s.out_eps i).interrupt_status ≠ 0 ∧ s.daintmsk.testBit (i + 16) = true) ∨
  ((s.in_eps i).interrupt_status ≠ 0 ∧ s.daintmsk.testBit i = true)

instance (s : synopsys_usb_state) (i : Nat) : Decidable (masked_pending s i) := by
  unfold masked_pending; infer_instance

/-- An endpoint register set with every field zero. -/
def ep_zero : synopsys_usb_ep_state :=
  { control := 0, tx_size := 0, fifo := 0, interrupt_status := 0, dma_address := 0,
    dma_buffer := 0 }

/-- A controller state with every register zero. -/
def state_zero : synopsys_usb_state :=
  { ghwcfg1 := 0, ghwcfg2 := 0, ghwcfg3 := 0, ghwcfg4 := 0, grxfsiz := 0, gnptxfsiz := 0,
    grstctl := 0, gintmsk := 0, gintsts := 0, dptxfsiz := fun _ => 0, dcfg := 0, dsts := 0,
    daintmsk := 0, daintsts := 0, in_eps := fun _ => ep_zero, out_eps := fun _ => ep_zero,
    fifos := fun _ => 0 }

/-- A machine with every register zero, the line low, zeroed guest memory and no call made. -/
def machine_zero : Machine :=
  { state := state_zero, irq := false, mem := fun _ => 0, calls := [] }

/-- The state of the failing input of claim C1: IN endpoint 0 has a pending status and
its DAINTMSK bit is set; nothing else is set. -/
def c1_machine : Machine :=
  { machine_zero with state := { state_zero with
      daintmsk := 1,
      in_eps := fun j => if j = 0 then { ep_zero with interrupt_status := 1 } else ep_zero } }

/-- The machine right after `_state->in_eps[ep].control = v`. -/
def in_control_written (m : Machine) (ep v : Nat) : Machine :=
  let eps := m.state.in_eps ep
  { m with state := set_in_ep m.state ep { eps with control := v } }

/-- The machine after the common update step ran on IN endpoint `ep`. -/
def in_ep_updated (m : Machine) (ep : Nat) : Machine :=
  { m with state := set_in_ep m.state ep (synopsys_usb_update_ep (m.state.in_eps ep)) }

/-- The machine right after `_state->out_eps[ep].control = v`. -/
def out_control_written (m : Machine) (ep v : Nat) : Machine :=
  let eps := m.state.out_eps ep
  { m with state := set_out_ep m.state ep { eps with control := v } }

/-- The machine after the common update step ran on OUT endpoint `ep`. -/
def out_ep_updated (m : Machine) (ep : Nat) : Machine :=
  { m with state := set_out_ep m.state ep (synopsys_usb_update_ep (m.state.out_eps ep)) }

/-- The scenario of an OUT transfer: the guest writes `v` to the control register of OUT
endpoint `ep` while the probe returns `okay`, the transport fills the FIFO buffer with
`buf` and then calls the completion with `amt` bytes. -/
def out_write_then_done (m : Machine) (okay : Bool) (ep v : Nat) (buf : Nat → Nat)
    (amt : Nat) : Machine :=
  synopsys_usb_out_ep_done
    (tcp_usb_fill (synopsys_usb_write m okay (USB_OUTREGS + 32 * ep + 0x00) v).machine buf)
    ep amt

/-- IN endpoint 3 and OUT endpoint 3 have status bits 0x43 pending. -/
def c4_machine : Machine :=
  { machine_zero with state := { state_zero with
      in_eps := fun j => if j = 3 then { ep_zero with interrupt_status := 0x43 } else ep_zero,
      out_eps := fun j => if j = 3 then { ep_zero with interrupt_status := 0x43 } else ep_zero } }

/-- The non-periodic TX FIFO is `(start=0x200, size=0x1C0)` and IN endpoint 0 has a byte
count of 0x200, more than the FIFO holds. -/
def c5_machine : Machine :=
  { machine_zero with state := { state_zero with
      gnptxfsiz := 0x020001C0,
      in_eps := fun j => if j = 0 then { ep_zero with tx_size := 0x200 } else ep_zero } }

/-- The scenario of the spec: receive-FIFO size 0x1C0, non-periodic TX FIFO
`(start=0x200, size=0x1C0)`, OUT endpoint 0 with byte count 0x40 and DMA address 0x1000,
the OUT endpoint 0 bit of DAINTMSK and bit 19 of GINTMSK set. -/
def c6_machine : Machine :=
  { machine_zero with state := { state_zero with
      grxfsiz := 0x1C0,
      gnptxfsiz := 0x020001C0,
      daintmsk := 0x10000,
      gintmsk := 0x80000,
      out_eps := fun j =>
        if j = 0 then { ep_zero with tx_size := 0x40, dma_address := 0x1000 } else ep_zero } }

/-- The bytes the transport delivers in the scenario of `c6_machine`. -/
def c6_buf : Nat → Nat := fun k => (k + 1) % 256

/-- An endpoint whose control register holds only `SETNAK`. -/
def c7_ep : synopsys_usb_ep_state := { ep_zero with control := 0x08000000 }

/-- The last periodic FIFO register, `dptxfsiz[15]`, holds `(start=0x0F00, size=0x100)`. -/
def c10_state : synopsys_usb_state :=
  { state_zero with dptxfsiz := fun k => if k = 15 then 0x0F000100 else 0 }

/-- IN endpoint 2 and OUT endpoint 2 are set up for a transfer: byte count 0x80 and DMA
address 0x2000, with the FIFO registers of the reference device. -/
def c11_machine : Machine :=
  { machine_zero with state := { state_zero with
      grxfsiz := 0x1C0,
      gnptxfsiz := 0x020001C0,
      in_eps := fun j =>
        if j = 2 then { ep_zero with tx_size := 0x80, dma_address := 0x2000 } else ep_zero,
      out_eps := fun j =>
        if j = 2 then { ep_zero with tx_size := 0x80, dma_address := 0x2000 } else ep_zero } }

/-- The aggregate registers are current: DAINTSTS and the two summary bits of GINTSTS
(18 and 19) hold what `synopsys_usb_update_irq` would compute from the state. -/
def aggregates_current (m : Machine) : Prop :=
  m.state.daintsts = (synopsys_usb_update_irq m).state.daintsts ∧
  m.state.gintsts.testBit 18 = (synopsys_usb_update_irq m).state.gintsts.testBit 18 ∧
  m.state.gintsts.testBit 19 = (synopsys_usb_update_irq m).state.gintsts.testBit 19

instance (m : Machine) : Decidable (aggregates_current m) := by
  unfold aggregates_current; infer_instance

/-- The machine right after `synopsys_usb_initial_reset` on a zeroed device. -/
def c12_machine : Machine := synopsys_usb_initial_reset machine_zero

/-- IN endpoint 0 has byte count 0x200 and FIFO field 0; FIFO 0 is `(0x200, 0x1C0)` and
periodic FIFO 1, register `dptxfsiz[0]`, is `(0x400, 0x100)`. -/
def c13_machine : Machine :=
  { machine_zero with state := { state_zero with
      gnptxfsiz := 0x020001C0,
      dptxfsiz := fun k => if k = 0 then 0x04000100 else 0,
      in_eps := fun j => if j = 0 then { ep_zero with tx_size := 0x200 } else ep_zero } }

/-- The value of the local `txfs` of `synopsys_usb_update_in_ep`: the start of the FIFO
the `fifo` field of IN endpoint `ep` selects. -/
def in_ep_txfs (m : Machine) (ep : Nat) : Nat :=
  synopsys_usb_tx_fifo_start m.state (m.state.in_eps ep).fifo

/-- The value of the local `txfz` of `synopsys_usb_update_in_ep`: the size of that FIFO. -/
def in_ep_txfz (m : Machine) (ep : Nat) : Nat :=
  synopsys_usb_tx_fifo_size m.state (m.state.in_eps ep).fifo

/-- The value of the local `amtDone` of `synopsys_usb_update_in_ep`:
`min(byte-count, FIFO size)`. -/
def in_ep_amount (m : Machine) (ep : Nat) : Nat :=
  min ((m.state.in_eps ep).tx_size &&& DEPTSIZ_XFERSIZ_MASK) (in_ep_txfz m ep)

/-- The machine of the IN step right before the transport probe: the common update step
and the DMA block have run. -/
def in_ep_staged (m : Machine) (ep : Nat) : Machine :=
  in_ep_dma (in_ep_updated m ep) ep (in_ep_txfs m ep) (in_ep_amount m ep)

/-- The value of the local `amtDone` of `synopsys_usb_update_out_ep`:
`min(byte-count, receive-FIFO size)`. -/
def out_ep_amount (m : Machine) (ep : Nat) : Nat :=
  min ((m.state.out_eps ep).tx_size &&& DEPTSIZ_XFERSIZ_MASK) m.state.grxfsiz

/-- The machine with one more call recorded. -/
def record_call (m : Machine) (c : ext_call) : Machine :=
  { m with calls := c :: m.calls }

/-- IN endpoint 1 and OUT endpoint 1 have byte count 0x40 left, in a `tx_size` whose
packet-count field (bits 19 and up) holds 1. -/
def c15_machine : Machine :=
  { machine_zero with state := { state_zero with
      in_eps := fun j => if j = 1 then { ep_zero with tx_size := 0x80040 } else ep_zero,
      out_eps := fun j => if j = 1 then { ep_zero with tx_size := 0x80040 } else ep_zero } }

/-- The bytes a call touches in the FIFO buffer lie inside it: the window
`[off, off + len)` ends at or before `sizeof(fifos)`. -/
def call_in_bounds : ext_call → Prop
  | .cpu_physical_memory_read _ off len => off + len ≤ FIFOS_SIZE
  | .cpu_physical_memory_write _ off len => off + len ≤ FIFOS_SIZE
  | .tcp_usb_send _ off len => off + len ≤ FIFOS_SIZE
  | .tcp_usb_recv _ off len => off + len ≤ FIFOS_SIZE

/-- IN endpoint 0 and OUT endpoint 0 are set up with byte count 0x200 and DMA address
0x3000; the FIFO registers are those of the reference device. -/
def c16_machine : Machine :=
  { machine_zero with state := { state_zero with
      grxfsiz := 0x1C0,
      gnptxfsiz := 0x020001C0,
      in_eps := fun j =>
        if j = 0 then
          { ep_zero with control := 0x80000000, tx_size := 0x200, dma_address := 0x3000 }
        else ep_zero,
      out_eps := fun j =>
        if j = 0 then
          { ep_zero with control := 0x80000000, tx_size := 0x200, dma_address := 0x3000 }
        else ep_zero } }

/-- The machine `m` with DAINTSTS replaced by `d` and the two summary bits of GINTSTS
(18 and 19) replaced by those of `x`; every other bit and register is that of `m`. -/
def with_aggregates (m : Machine) (d x : Nat) : Machine :=
  { m with state := { m.state with
      daintsts := d,
      gintsts := (m.state.gintsts &&& not32 (GINTMSK_OEP ||| GINTMSK_INEP))
        ||| (x &&& (GINTMSK_OEP ||| GINTMSK_INEP)) } }

/-- IN endpoint 4 is set up with byte count 0x100 and DMA address 0x4000 on FIFO 0,
which is `(0x200, 0x1C0)`; its DAINTMSK bit and GINTMSK bit 19 are set, and guest memory
holds a byte pattern. -/
def c18_machine : Machine :=
  { machine_zero with
    mem := fun a => a % 256,
    state := { state_zero with
      gnptxfsiz := 0x020001C0,
      daintmsk := 0x10,
      gintmsk := 0x80000,
      in_eps := fun j =>
        if j = 4 then { ep_zero with tx_size := 0x100, dma_address := 0x4000 }
        else ep_zero } }

/-- IN endpoint 5 and OUT endpoint 5 are set up with byte count 0x300 and DMA address
0x5000; the FIFO registers are those of the reference device. -/
def c19_machine : Machine :=
  { machine_zero with state := { state_zero with
      grxfsiz := 0x1C0,
      gnptxfsiz := 0x020001C0,
      in_eps := fun j =>
        if j = 5 then { ep_zero with tx_size := 0x300, dma_address := 0x5000 } else ep_zero,
      out_eps := fun j =>
        if j = 5 then { ep_zero with tx_size := 0x300, dma_address := 0x5000 } else ep_zero } }

/-- The machines the device can be in: after `synopsys_usb_initial_reset` (run by
`synopsys_usb_init` and as the reset handler, on whatever the state holds), and after
any register write that returns, any IN completion, and any OUT completion, for which
the transport has filled the FIFO buffer. -/
inductive Reachable : Machine → Prop where
  | reset (m : Machine) : Reachable (synopsys_usb_initial_reset m)
  | write (m r : Machine) (okay : Bool) (_addr _val : Nat) :
      Reachable m → synopsys_usb_write m okay _addr _val = .ok r → Reachable r
  | in_done (m : Machine) (_ep _amt : Nat) :
      Reachable m → Reachable (synopsys_usb_in_ep_done m _ep _amt)
  | out_done (m : Machine) (buf : Nat → Nat) (_ep _amt : Nat) :
      Reachable m → Reachable (synopsys_usb_out_ep_done (tcp_usb_fill m buf) _ep _amt)

/-- Nothing is signalled: both mask registers are 0, the two summary bits of GINTSTS are
clear and the interrupt line is low. -/
def irq_quiet (m : Machine) : Prop :=
  m.state.gintmsk = 0 ∧ m.state.daintmsk = 0 ∧ m.state.gintsts.testBit 18 = false ∧
  m.state.gintsts.testBit 19 = false ∧ m.irq = false

/-- What a step from `m` to `r` may do to the interrupt registers: the masks are kept,
and GINTSTS and the line are either kept or are those `synopsys_usb_update_irq` computes
on a machine with the same masks. -/
def irq_step (m r : Machine) : Prop :=
  r.state.gintmsk = m.state.gintmsk ∧ r.state.daintmsk = m.state.daintmsk ∧
  ((r.state.gintsts = m.state.gintsts ∧ r.irq = m.irq) ∨
    ∃ x, r = synopsys_usb_update_irq x ∧ x.state.gintmsk = m.state.gintmsk ∧
      x.state.daintmsk = m.state.daintmsk)

/-- The machine after reset and a write of `ENABLE` to the control register of IN
endpoint 0 that completed in-line. -/
def c20_machine : Machine :=
  (synopsys_usb_write (synopsys_usb_initial_reset machine_zero) true (USB_INREGS + 0x00)
    0x80000000).machine

/-! ## Bit-level facts -/

theorem testBit_not32 (x i : Nat) :
    (not32 x).testBit i = (decide (i < 32) && !x.testBit i) := by
  unfold not32
  have h : x % 0x100000000 < 2 ^ 32 := Nat.mod_lt _ (by norm_num)
  have e : 0xFFFFFFFF - x % 0x100000000 = 2 ^ 32 - (x % 0x100000000 + 1) := by omega
  rw [e, Nat.testBit_two_pow_sub_succ h]
  have e2 : (0x100000000 : Nat) = 2 ^ 32 := by norm_num
  rw [e2, Nat.testBit_mod_two_pow]
  by_cases hi : i < 32 <;> simp [hi]

theorem testBit_one_shiftLeft (k b : Nat) : (1 <<< k).testBit b = decide (k = b) := by
  rw [Nat.one_shiftLeft, Nat.testBit_two_pow]

theorem and_one_shiftLeft_ne_zero (x k : Nat) : x &&& (1 <<< k) ≠ 0 ↔ x.testBit k = true := by
  constructor
  · intro h
    obtain ⟨i, hi⟩ := Nat.ne_zero_implies_bit_true h
    rw [Nat.testBit_and, testBit_one_shiftLeft] at hi
    simp only [Bool.and_eq_true, decide_eq_true_eq] at hi
    rw [hi.2]; exact hi.1
  · intro h h0
    have : (x &&& (1 <<< k)).testBit k = true := by
      rw [Nat.testBit_and, testBit_one_shiftLeft]; simp [h]
    rw [h0] at this
    simp at this

/-! ## The aggregation loop -/

theorem update_irq_body_daintsts (s : synopsys_usb_state) (i : Nat) :
    (update_irq_body s i).daintsts =
      (s.daintsts ||| (if (s.out_eps i).interrupt_status ≠ 0 then 1 <<< (i + 16) else 0))
        ||| (if (s.in_eps i).interrupt_status ≠ 0 then 1 <<< i else 0) := by
  unfold update_irq_body
  simp only [DAINT_OUT_SHIFT, DAINT_IN_SHIFT]
  split_ifs <;> simp

theorem update_irq_body_frame (s : synopsys_usb_state) (i : Nat) :
    (update_irq_body s i).in_eps = s.in_eps ∧ (update_irq_body s i).out_eps = s.out_eps ∧
    (update_irq_body s i).daintmsk = s.daintmsk ∧ (update_irq_body s i).gintmsk = s.gintmsk ∧
    (update_irq_body s i).grstctl = s.grstctl ∧ (update_irq_body s i).grxfsiz = s.grxfsiz ∧
    (update_irq_body s i).gnptxfsiz = s.gnptxfsiz ∧ (update_irq_body s i).dptxfsiz = s.dptxfsiz ∧
    (update_irq_body s i).fifos = s.fifos ∧ (update_irq_body s i).dcfg = s.dcfg ∧
    (update_irq_body s i).dsts = s.dsts ∧ (update_irq_body s i).ghwcfg1 = s.ghwcfg1 ∧
    (update_irq_body s i).ghwcfg2 = s.ghwcfg2 ∧ (update_irq_body s i).ghwcfg3 = s.ghwcfg3 ∧
    (update_irq_body s i).ghwcfg4 = s.ghwcfg4 := by
  unfold update_irq_body
  dsimp only
  split_ifs <;> simp

theorem update_irq_body_gintsts (s : synopsys_usb_state) (i : Nat) :
    (update_irq_body s i).gintsts =
      s.gintsts ||| (if masked_pending s i then GINTMSK_OEP else 0) := by
  unfold update_irq_body masked_pending
  simp only [DAINT_OUT_SHIFT, DAINT_IN_SHIFT, and_one_shiftLeft_ne_zero, Nat.add_zero]
  split_ifs <;> simp_all [Nat.or_assoc]

theorem update_irq_loop_succ (n : Nat) (s : synopsys_usb_state) :
    update_irq_loop (n + 1) s = update_irq_body (update_irq_loop n s) n := by
  simp [update_irq_loop, List.range_succ, List.foldl_append]

theorem update_irq_loop_frame (n : Nat) (s : synopsys_usb_state) :
    (update_irq_loop n s).in_eps = s.in_eps ∧ (update_irq_loop n s).out_eps = s.out_eps ∧
    (update_irq_loop n s).daintmsk = s.daintmsk ∧ (update_irq_loop n s).gintmsk = s.gintmsk ∧
    (update_irq_loop n s).grstctl = s.grstctl ∧ (update_irq_loop n s).grxfsiz = s.grxfsiz ∧
    (update_irq_loop n s).gnptxfsiz = s.gnptxfsiz ∧ (update_irq_loop n s).dptxfsiz = s.dptxfsiz ∧
    (update_irq_loop n s).fifos = s.fifos ∧ (update_irq_loop n s).dcfg = s.dcfg ∧
    (update_irq_loop n s).dsts = s.dsts ∧ (update_irq_loop n s).ghwcfg1 = s.ghwcfg1 ∧
    (update_irq_loop n s).ghwcfg2 = s.ghwcfg2 ∧ (update_irq_loop n s).ghwcfg3 = s.ghwcfg3 ∧
    (update_irq_loop n s).ghwcfg4 = s.ghwcfg4 := by
  induction n with
  | zero => simp [update_irq_loop]
  | succ n ih =>
    rw [update_irq_loop_succ]
    obtain ⟨h1, h2, h3, h4, h5, h6, h7, h8, h9, h10, h11, h12, h13, h14, h15⟩ :=
      update_irq_body_frame (update_irq_loop n s) n
    obtain ⟨i1, i2, i3, i4, i5, i6, i7, i8, i9, i10, i11, i12, i13, i14, i15⟩ := ih
    exact ⟨h1.trans i1, h2.trans i2, h3.trans i3, h4.trans i4, h5.trans i5, h6.trans i6,
      h7.trans i7, h8.trans i8, h9.trans i9, h10.trans i10, h11.trans i11, h12.trans i12,
      h13.trans i13, h14.trans i14, h15.trans i15⟩

theorem masked_pending_congr (s t : synopsys_usb_state) (i : Nat)
    (h1 : t.in_eps = s.in_eps) (h2 : t.out_eps = s.out_eps) (h3 : t.daintmsk = s.daintmsk) :
    masked_pending t i ↔ masked_pending s i := by
  unfold masked_pending; rw [h1, h2, h3]

theorem update_irq_loop_daintsts (n : Nat) (s : synopsys_usb_state) (b : Nat) :
    (update_irq_loop n s).daintsts.testBit b = true ↔
      s.daintsts.testBit b = true ∨
      (b < n ∧ (s.in_eps b).interrupt_status ≠ 0) ∨
      (16 ≤ b ∧ b < 16 + n ∧ (s.out_eps (b - 16)).interrupt_status ≠ 0) := by
  induction n with
  | zero =>
    simp only [update_irq_loop, List.range_zero, List.foldl_nil]
    constructor
    · intro h; exact Or.inl h
    · rintro (h | ⟨h, -⟩ | ⟨h1, h2, -⟩)
      · exact h
      · omega
      · omega
  | succ n ih =>
    rw [update_irq_loop_succ, update_irq_body_daintsts]
    obtain ⟨i1, i2, -⟩ := update_irq_loop_frame n s
    rw [i1, i2]
    simp only [Nat.testBit_or, Bool.or_eq_true, ih]
    constructor
    · rintro ((h | h) | h)
      · rcases h with h | ⟨h1, h2⟩ | ⟨h1, h2, h3⟩
        · exact Or.inl h
        · exact Or.inr (Or.inl ⟨by omega, h2⟩)
        · exact Or.inr (Or.inr ⟨h1, by omega, h3⟩)
      · split_ifs at h with ho
        · rw [testBit_one_shiftLeft, decide_eq_true_eq] at h
          subst h
          exact Or.inr (Or.inr ⟨by omega, by omega, by simpa using ho⟩)
        · simp at h
      · split_ifs at h with hi
        · rw [testBit_one_shiftLeft, decide_eq_true_eq] at h
          subst h
          exact Or.inr (Or.inl ⟨by omega, hi⟩)
        · simp at h
    · rintro (h | ⟨h1, h2⟩ | ⟨h1, h2, h3⟩)
      · exact Or.inl (Or.inl (Or.inl h))
      · by_cases hb : b = n
        · subst hb
          exact Or.inr (by rw [if_pos h2, testBit_one_shiftLeft]; simp)
        · exact Or.inl (Or.inl (Or.inr (Or.inl ⟨by omega, h2⟩)))
      · by_cases hb : b = n + 16
        · subst hb
          refine Or.inl (Or.inr ?_)
          rw [if_pos (by simpa using h3), testBit_one_shiftLeft]; simp
        · exact Or.inl (Or.inl (Or.inr (Or.inr ⟨h1, by omega, h3⟩)))

theorem update_irq_loop_gintsts (n : Nat) (s : synopsys_usb_state) (b : Nat) :
    (update_irq_loop n s).gintsts.testBit b = true ↔
      s.gintsts.testBit b = true ∨ (b = 19 ∧ ∃ i, i < n ∧ masked_pending s i) := by
  induction n with
  | zero => simp [update_irq_loop]
  | succ n ih =>
    rw [update_irq_loop_succ, update_irq_body_gintsts]
    obtain ⟨i1, i2, i3, -⟩ := update_irq_loop_frame n s
    rw [if_congr (masked_pending_congr s _ n i1 i2 i3) rfl rfl]
    simp only [Nat.testBit_or, Bool.or_eq_true, ih]
    constructor
    · rintro ((h | ⟨h1, i, h2, h3⟩) | h)
      · exact Or.inl h
      · exact Or.inr ⟨h1, i, by omega, h3⟩
      · split_ifs at h with hp
        · rw [GINTMSK_OEP, testBit_one_shiftLeft, decide_eq_true_eq] at h
          exact Or.inr ⟨h.symm, n, by omega, hp⟩
        · simp at h
    · rintro (h | ⟨h1, i, h2, h3⟩)
      · exact Or.inl (Or.inl h)
      · by_cases hi : i = n
        · subst hi
          refine Or.inr ?_
          rw [if_pos h3, GINTMSK_OEP, testBit_one_shiftLeft, h1]; simp
        · exact Or.inl (Or.inr ⟨h1, i, by omega, h3⟩)

/-! ## Interrupt aggregation as a whole -/

/-- The state `synopsys_usb_update_irq` starts its loop from. -/
theorem update_irq_state (m : Machine) :
    (synopsys_usb_update_irq m).state =
      update_irq_loop USB_NUM_ENDPOINTS { m.state with
        daintsts := 0,
        gintsts := m.state.gintsts &&& not32 (GINTMSK_OEP ||| GINTMSK_INEP) } := by
  unfold synopsys_usb_update_irq
  dsimp only

theorem update_irq_irq (m : Machine) :
    (synopsys_usb_update_irq m).irq =
      decide ((synopsys_usb_update_irq m).state.gintmsk &&&
        (synopsys_usb_update_irq m).state.gintsts ≠ 0) := by
  unfold synopsys_usb_update_irq
  dsimp only
  split_ifs with h <;> simp [h]

theorem update_irq_env (m : Machine) :
    (synopsys_usb_update_irq m).mem = m.mem ∧ (synopsys_usb_update_irq m).calls = m.calls := by
  unfold synopsys_usb_update_irq
  dsimp only
  exact ⟨rfl, rfl⟩

theorem update_irq_frame (m : Machine) :
    (synopsys_usb_update_irq m).state.in_eps = m.state.in_eps ∧
    (synopsys_usb_update_irq m).state.out_eps = m.state.out_eps ∧
    (synopsys_usb_update_irq m).state.daintmsk = m.state.daintmsk ∧
    (synopsys_usb_update_irq m).state.gintmsk = m.state.gintmsk ∧
    (synopsys_usb_update_irq m).state.grstctl = m.state.grstctl ∧
    (synopsys_usb_update_irq m).state.grxfsiz = m.state.grxfsiz ∧
    (synopsys_usb_update_irq m).state.gnptxfsiz = m.state.gnptxfsiz ∧
    (synopsys_usb_update_irq m).state.dptxfsiz = m.state.dptxfsiz ∧
    (synopsys_usb_update_irq m).state.fifos = m.state.fifos ∧
    (synopsys_usb_update_irq m).state.dcfg = m.state.dcfg ∧
    (synopsys_usb_update_irq m).state.dsts = m.state.dsts ∧
    (synopsys_usb_update_irq m).state.ghwcfg1 = m.state.ghwcfg1 ∧
    (synopsys_usb_update_irq m).state.ghwcfg2 = m.state.ghwcfg2 ∧
    (synopsys_usb_update_irq m).state.ghwcfg3 = m.state.ghwcfg3 ∧
    (synopsys_usb_update_irq m).state.ghwcfg4 = m.state.ghwcfg4 := by
  rw [update_irq_state]
  exact update_irq_loop_frame _ _

theorem update_irq_daintsts (m : Machine) (b : Nat) :
    (synopsys_usb_update_irq m).state.daintsts.testBit b = true ↔
      (b < 8 ∧ (m.state.in_eps b).interrupt_status ≠ 0) ∨
      (16 ≤ b ∧ b < 24 ∧ (m.state.out_eps (b - 16)).interrupt_status ≠ 0) := by
  rw [update_irq_state, update_irq_loop_daintsts]
  simp [USB_NUM_ENDPOINTS]

theorem update_irq_gintsts (m : Machine) (b : Nat) :
    (synopsys_usb_update_irq m).state.gintsts.testBit b = true ↔
      (m.state.gintsts.testBit b = true ∧ b < 32 ∧ b ≠ 18 ∧ b ≠ 19) ∨
      (b = 19 ∧ ∃ i, i < 8 ∧ masked_pending m.state i) := by
  rw [update_irq_state, update_irq_loop_gintsts]
  have hm : ∀ i, masked_pending { m.state with
        daintsts := 0,
        gintsts := m.state.gintsts &&& not32 (GINTMSK_OEP ||| GINTMSK_INEP) } i ↔
      masked_pending m.state i := fun i => Iff.rfl
  simp only [hm, USB_NUM_ENDPOINTS, Nat.testBit_and, testBit_not32, Nat.testBit_or,
    GINTMSK_OEP, GINTMSK_INEP, testBit_one_shiftLeft, Bool.and_eq_true, decide_eq_true_eq,
    Bool.not_eq_true', Bool.or_eq_false_iff, decide_eq_false_iff_not]
  constructor
  · rintro (⟨h1, h2, h3, h4⟩ | h)
    · exact Or.inl ⟨h1, h2, fun e => h4 e.symm, fun e => h3 e.symm⟩
    · exact Or.inr h
  · rintro (⟨h1, h2, h3, h4⟩ | h)
    · exact Or.inl ⟨h1, h2, fun e => h4 e.symm, fun e => h3 e.symm⟩
    · exact Or.inr h

/-- After `synopsys_usb_update_irq` the IN summary bit (bit 18) of GINTSTS is clear,
whatever the endpoint state. -/
theorem update_irq_inep_clear (m : Machine) :
    (synopsys_usb_update_irq m).state.gintsts.testBit 18 = false := by
  have h := update_irq_gintsts m 18
  simp at h
  simpa using h

/-! ## Register dispatch and FIFO packing -/

theorem decode_ep_addr (ep off : Nat) (h : off < 32) :
    (32 * ep + off) >>> 5 = ep ∧ (32 * ep + off) &&& 0x1f = off := by
  constructor
  · rw [Nat.shiftRight_eq_div_pow]; omega
  · have e : (0x1f : Nat) = 2 ^ 5 - 1 := by norm_num
    rw [e, Nat.and_pow_two_sub_one_eq_mod]; omega

/-- A write inside the IN endpoint block reaches `synopsys_usb_in_ep_write` with the
endpoint number and the 5-bit sub-offset. -/
theorem write_in_dispatch (m : Machine) (okay : Bool) (ep off v : Nat) (hoff : off < 32)
    (hle : 32 * ep + off ≤ 0x1FC) :
    synopsys_usb_write m okay (USB_INREGS + 32 * ep + off) v =
      synopsys_usb_in_ep_write m okay ep off v := by
  obtain ⟨d1, d2⟩ := decode_ep_addr ep off hoff
  have ha : USB_INREGS + 32 * ep + off - USB_INREGS = 32 * ep + off := by omega
  unfold synopsys_usb_write
  rw [if_neg (by simp only [USB_INREGS, GRSTCTL]; omega),
    if_pos (by simp only [USB_INREGS, USB_EPREGS_SIZE]; omega), ha, d1, d2]

/-- A write inside the OUT endpoint block reaches `synopsys_usb_out_ep_write` with the
endpoint number and the 5-bit sub-offset. -/
theorem write_out_dispatch (m : Machine) (okay : Bool) (ep off v : Nat) (hoff : off < 32)
    (hle : 32 * ep + off ≤ 0x1FC) :
    synopsys_usb_write m okay (USB_OUTREGS + 32 * ep + off) v =
      synopsys_usb_out_ep_write m okay ep off v := by
  obtain ⟨d1, d2⟩ := decode_ep_addr ep off hoff
  have ha : USB_OUTREGS + 32 * ep + off - USB_OUTREGS = 32 * ep + off := by omega
  unfold synopsys_usb_write
  rw [if_neg (by simp only [USB_OUTREGS, GRSTCTL]; omega),
    if_neg (by simp only [USB_OUTREGS, USB_INREGS, USB_EPREGS_SIZE]; omega),
    if_pos (by simp only [USB_OUTREGS, USB_EPREGS_SIZE]; omega), ha, d1, d2]

theorem pack_unpack (s n : Nat) (hn : n < 2 ^ 16) :
    ((s <<< 16) ||| n) >>> 16 = s ∧ ((s <<< 16) ||| n) &&& 0xFFFF = n := by
  have e : (0xFFFF : Nat) = 2 ^ 16 - 1 := by norm_num
  have k : (s <<< 16) ||| n = 2 ^ 16 * s + n := by
    rw [Nat.shiftLeft_eq, Nat.mul_comm, Nat.mul_add_lt_is_or hn]
  rw [k, Nat.shiftRight_eq_div_pow, e, Nat.and_pow_two_sub_one_eq_mod]
  constructor <;> omega

/-! ## Endpoint steps -/

theorem testBit_xfersiz_mask (i : Nat) :
    (DEPTSIZ_XFERSIZ_MASK).testBit i = decide (i < 17) := by
  have e : DEPTSIZ_XFERSIZ_MASK = 2 ^ 17 - 1 := by norm_num [DEPTSIZ_XFERSIZ_MASK]
  rw [e, Nat.testBit_two_pow_sub_one]

/-- The byte-count field of the value a completion handler stores in `tx_size`. -/
theorem tx_size_low (tx x : Nat) :
    ((tx &&& not32 DEPTSIZ_XFERSIZ_MASK) ||| (x &&& DEPTSIZ_XFERSIZ_MASK))
      &&& DEPTSIZ_XFERSIZ_MASK = x % 2 ^ 17 := by
  apply Nat.eq_of_testBit_eq
  intro i
  simp only [Nat.testBit_and, Nat.testBit_or, testBit_not32, testBit_xfersiz_mask,
    Nat.testBit_mod_two_pow]
  by_cases h : i < 17 <;> simp [h]

/-- The bits above the byte-count field of the value a completion handler stores. -/
theorem tx_size_high (tx x : Nat) (h : tx < 2 ^ 32) :
    ((tx &&& not32 DEPTSIZ_XFERSIZ_MASK) ||| (x &&& DEPTSIZ_XFERSIZ_MASK)) >>> 17 =
      tx >>> 17 := by
  apply Nat.eq_of_testBit_eq
  intro i
  simp only [Nat.testBit_shiftRight, Nat.testBit_and, Nat.testBit_or, testBit_not32,
    testBit_xfersiz_mask]
  by_cases h32 : 17 + i < 32
  · simp [h32]
  · have : tx.testBit (17 + i) = false :=
      Nat.testBit_lt_two_pow (Nat.lt_of_lt_of_le h (Nat.pow_le_pow_right (by norm_num) (by omega)))
    simp [this]

theorem size_t_sub_of_le (a b : Nat) (hb : b ≤ a) (ha : a < 2 ^ 64) : size_t_sub a b = a - b := by
  unfold size_t_sub
  simp only [SIZE_T_BITS]
  have hb' : b < 2 ^ 64 := by omega
  rw [Nat.mod_eq_of_lt ha, Nat.mod_eq_of_lt hb']
  omega

theorem xfersiz_lt (tx : Nat) : tx &&& DEPTSIZ_XFERSIZ_MASK < 2 ^ 17 := by
  apply Nat.and_lt_two_pow
  norm_num [DEPTSIZ_XFERSIZ_MASK]

theorem update_ep_frame (e : synopsys_usb_ep_state) :
    (synopsys_usb_update_ep e).tx_size = e.tx_size ∧
    (synopsys_usb_update_ep e).fifo = e.fifo ∧
    (synopsys_usb_update_ep e).dma_address = e.dma_address ∧
    (synopsys_usb_update_ep e).dma_buffer = e.dma_buffer := by
  unfold synopsys_usb_update_ep
  dsimp only
  split_ifs <;> exact ⟨rfl, rfl, rfl, rfl⟩

/-- With `ENABLE` set and `DISABLE` clear, the common update step keeps both so. -/
theorem update_ep_keeps_enable (e : synopsys_usb_ep_state)
    (h31 : e.control.testBit 31 = true) (h30 : e.control.testBit 30 = false) :
    (synopsys_usb_update_ep e).control.testBit 31 = true ∧
    (synopsys_usb_update_ep e).control.testBit 30 = false := by
  have k : ∀ c : Nat, c.testBit 30 = false → c &&& USB_EPCON_DISABLE = 0 := by
    intro c hc
    by_contra hne
    rw [USB_EPCON_DISABLE] at hne
    rw [(and_one_shiftLeft_ne_zero c 30).mp hne] at hc
    exact Bool.noConfusion hc
  unfold synopsys_usb_update_ep
  dsimp only
  by_cases hs : e.control &&& USB_EPCON_SETNAK ≠ 0
  · have c30 : ((e.control ||| USB_EPCON_NAKSTS) &&& not32 USB_EPCON_SETNAK).testBit 30 = false := by
      simp only [Nat.testBit_and, Nat.testBit_or, testBit_not32, USB_EPCON_NAKSTS,
        USB_EPCON_SETNAK, testBit_one_shiftLeft, h30]
      simp
    rw [if_pos hs]
    dsimp only
    rw [if_neg (by rw [k _ c30]; simp)]
    dsimp only
    refine ⟨?_, c30⟩
    simp only [Nat.testBit_and, Nat.testBit_or, testBit_not32, USB_EPCON_NAKSTS,
      USB_EPCON_SETNAK, testBit_one_shiftLeft, h31]
    simp
  · rw [if_neg hs, if_neg (by rw [k _ h30]; simp)]
    exact ⟨h31, h30⟩

theorem in_ep_dma_ep (m : Machine) (ep txfs amt : Nat) :
    ((in_ep_dma m ep txfs amt).state.in_eps ep).tx_size = (m.state.in_eps ep).tx_size ∧
    ((in_ep_dma m ep txfs amt).state.in_eps ep).control = (m.state.in_eps ep).control ∧
    ((in_ep_dma m ep txfs amt).state.in_eps ep).interrupt_status =
      (m.state.in_eps ep).interrupt_status := by
  unfold in_ep_dma
  dsimp only
  split_ifs
  · simp [set_in_ep]
  · exact ⟨rfl, rfl, rfl⟩

theorem in_ep_done_ep (m : Machine) (ep amt : Nat) :
    ((synopsys_usb_in_ep_done m ep amt).state.in_eps ep).tx_size =
      ((m.state.in_eps ep).tx_size &&& not32 DEPTSIZ_XFERSIZ_MASK) |||
        (size_t_sub ((m.state.in_eps ep).tx_size &&& DEPTSIZ_XFERSIZ_MASK) amt
          &&& DEPTSIZ_XFERSIZ_MASK) ∧
    ((synopsys_usb_in_ep_done m ep amt).state.in_eps ep).control =
      (m.state.in_eps ep).control &&& not32 USB_EPCON_ENABLE ∧
    ((synopsys_usb_in_ep_done m ep amt).state.in_eps ep).interrupt_status =
      (m.state.in_eps ep).interrupt_status ||| USB_EPINT_XferCompl := by
  unfold synopsys_usb_in_ep_done
  dsimp only
  rw [(update_irq_frame _).1]
  simp [set_in_ep]

theorem tx_fifo_set_in_ep (s : synopsys_usb_state) (ep f : Nat) (e : synopsys_usb_ep_state) :
    synopsys_usb_tx_fifo_size (set_in_ep s ep e) f = synopsys_usb_tx_fifo_size s f ∧
    synopsys_usb_tx_fifo_start (set_in_ep s ep e) f = synopsys_usb_tx_fifo_start s f :=
  ⟨rfl, rfl⟩

/-- What `synopsys_usb_update_in_ep` does once `ENABLE` survives the common update step
and both guards pass: the DMA block and then either the in-line completion
(probe true) or a `tcp_usb_send` (probe false), with the amount
`min(byte-count, FIFO size)`. -/
theorem update_in_ep_enabled (m : Machine) (okay : Bool) (ep : Nat)
    (hE : (synopsys_usb_update_ep (m.state.in_eps ep)).control.testBit 31 = true)
    (hfifo : (m.state.in_eps ep).fifo < USB_NUM_FIFOS)
    (hwin : synopsys_usb_tx_fifo_start m.state (m.state.in_eps ep).fifo +
      synopsys_usb_tx_fifo_size m.state (m.state.in_eps ep).fifo ≤ FIFOS_SIZE) :
    synopsys_usb_update_in_ep m okay ep =
      if okay = true then
        .ok (synopsys_usb_in_ep_done
          (in_ep_dma (in_ep_updated m ep) ep
            (synopsys_usb_tx_fifo_start m.state (m.state.in_eps ep).fifo)
            (min ((m.state.in_eps ep).tx_size &&& DEPTSIZ_XFERSIZ_MASK)
              (synopsys_usb_tx_fifo_size m.state (m.state.in_eps ep).fifo)))
          ep
          (min ((m.state.in_eps ep).tx_size &&& DEPTSIZ_XFERSIZ_MASK)
            (synopsys_usb_tx_fifo_size m.state (m.state.in_eps ep).fifo)))
      else
        .ok { (in_ep_dma (in_ep_updated m ep) ep
            (synopsys_usb_tx_fifo_start m.state (m.state.in_eps ep).fifo)
            (min ((m.state.in_eps ep).tx_size &&& DEPTSIZ_XFERSIZ_MASK)
              (synopsys_usb_tx_fifo_size m.state (m.state.in_eps ep).fifo))) with
          calls := .tcp_usb_send ep
            (synopsys_usb_tx_fifo_start m.state (m.state.in_eps ep).fifo)
            (min ((m.state.in_eps ep).tx_size &&& DEPTSIZ_XFERSIZ_MASK)
              (synopsys_usb_tx_fifo_size m.state (m.state.in_eps ep).fifo)) ::
            (in_ep_dma (in_ep_updated m ep) ep
              (synopsys_usb_tx_fifo_start m.state (m.state.in_eps ep).fifo)
              (min ((m.state.in_eps ep).tx_size &&& DEPTSIZ_XFERSIZ_MASK)
                (synopsys_usb_tx_fifo_size m.state (m.state.in_eps ep).fifo))).calls } := by
  obtain ⟨f1, f2, -, -⟩ := update_ep_frame (m.state.in_eps ep)
  have hE' : (synopsys_usb_update_ep (m.state.in_eps ep)).control &&& USB_EPCON_ENABLE ≠ 0 := by
    rw [USB_EPCON_ENABLE, and_one_shiftLeft_ne_zero]; exact hE
  have hmin : ∀ a b : Nat, (if a > b then b else a) = min a b := by
    intro a b
    split_ifs with h
    · exact (Nat.min_eq_right (Nat.le_of_lt h)).symm
    · exact (Nat.min_eq_left (Nat.le_of_not_lt h)).symm
  unfold synopsys_usb_update_in_ep
  simp only [hE', f1, f2, ne_eq, not_false_eq_true, if_true, (tx_fifo_set_in_ep _ _ _ _).1,
    (tx_fifo_set_in_ep _ _ _ _).2, hmin, in_ep_updated]
  rw [if_neg (by omega), if_neg (by omega)]
  cases okay <;> simp


theorem in_control_written_ep (m : Machine) (ep v : Nat) :
    ((in_control_written m ep v).state.in_eps ep).control = v ∧
    ((in_control_written m ep v).state.in_eps ep).tx_size = (m.state.in_eps ep).tx_size ∧
    ((in_control_written m ep v).state.in_eps ep).fifo = (m.state.in_eps ep).fifo ∧
    ((in_control_written m ep v).state.in_eps ep).interrupt_status =
      (m.state.in_eps ep).interrupt_status ∧
    ((in_control_written m ep v).state.in_eps ep).dma_address =
      (m.state.in_eps ep).dma_address ∧
    (∀ f, synopsys_usb_tx_fifo_size (in_control_written m ep v).state f =
      synopsys_usb_tx_fifo_size m.state f) ∧
    (∀ f, synopsys_usb_tx_fifo_start (in_control_written m ep v).state f =
      synopsys_usb_tx_fifo_start m.state f) := by
  simp [in_control_written, set_in_ep, synopsys_usb_tx_fifo_size, synopsys_usb_tx_fifo_start]

theorem in_ep_updated_ep (m : Machine) (ep : Nat) :
    (in_ep_updated m ep).state.in_eps ep = synopsys_usb_update_ep (m.state.in_eps ep) := by
  simp [in_ep_updated, set_in_ep]

theorem write_in_control (m : Machine) (okay : Bool) (ep v : Nat) (hep : ep < 8) :
    synopsys_usb_write m okay (USB_INREGS + 32 * ep + 0x00) v =
      synopsys_usb_update_in_ep (in_control_written m ep v) okay ep := by
  have h8 : ¬ ep ≥ USB_NUM_ENDPOINTS := by simp only [USB_NUM_ENDPOINTS]; omega
  rw [write_in_dispatch m okay ep 0x00 v (by omega) (by omega)]
  unfold synopsys_usb_in_ep_write
  rw [if_neg h8, if_pos rfl]
  rfl

theorem update_out_ep_enabled (m : Machine) (okay : Bool) (ep : Nat)
    (hE : (synopsys_usb_update_ep (m.state.out_eps ep)).control.testBit 31 = true) :
    synopsys_usb_update_out_ep m okay ep =
      if okay = true then .ok (out_ep_updated m ep)
      else if m.state.grxfsiz > FIFOS_SIZE then .hw_error (out_ep_updated m ep)
      else .ok { (out_ep_updated m ep) with
        calls := .tcp_usb_recv ep 0
          (min ((m.state.out_eps ep).tx_size &&& DEPTSIZ_XFERSIZ_MASK) m.state.grxfsiz) ::
            m.calls } := by
  obtain ⟨f1, -, -, -⟩ := update_ep_frame (m.state.out_eps ep)
  have hE' : (synopsys_usb_update_ep (m.state.out_eps ep)).control &&& USB_EPCON_ENABLE ≠ 0 := by
    rw [USB_EPCON_ENABLE, and_one_shiftLeft_ne_zero]; exact hE
  have hmin : ∀ a b : Nat, (if a > b then b else a) = min a b := by
    intro a b
    split_ifs with h
    · exact (Nat.min_eq_right (Nat.le_of_lt h)).symm
    · exact (Nat.min_eq_left (Nat.le_of_not_lt h)).symm
  unfold synopsys_usb_update_out_ep
  simp only [hE', f1, ne_eq, not_false_eq_true, if_true, hmin, out_ep_updated]
  cases okay
  · simp only [Bool.false_eq_true, if_false]
    rfl
  · simp only [if_true]

theorem out_control_written_ep (m : Machine) (ep v : Nat) :
    ((out_control_written m ep v).state.out_eps ep).control = v ∧
    ((out_control_written m ep v).state.out_eps ep).tx_size = (m.state.out_eps ep).tx_size ∧
    ((out_control_written m ep v).state.out_eps ep).interrupt_status =
      (m.state.out_eps ep).interrupt_status ∧
    ((out_control_written m ep v).state.out_eps ep).dma_address =
      (m.state.out_eps ep).dma_address ∧
    (out_control_written m ep v).state.grxfsiz = m.state.grxfsiz ∧
    (out_control_written m ep v).state.daintmsk = m.state.daintmsk ∧
    (out_control_written m ep v).state.gintmsk = m.state.gintmsk ∧
    (out_control_written m ep v).calls = m.calls ∧
    (out_control_written m ep v).mem = m.mem := by
  simp [out_control_written, set_out_ep]

theorem out_ep_updated_ep (m : Machine) (ep : Nat) :
    (out_ep_updated m ep).state.out_eps ep = synopsys_usb_update_ep (m.state.out_eps ep) := by
  simp [out_ep_updated, set_out_ep]

theorem write_out_control (m : Machine) (okay : Bool) (ep v : Nat) (hep : ep < 8) :
    synopsys_usb_write m okay (USB_OUTREGS + 32 * ep + 0x00) v =
      synopsys_usb_update_out_ep (out_control_written m ep v) okay ep := by
  have h8 : ¬ ep ≥ USB_NUM_ENDPOINTS := by simp only [USB_NUM_ENDPOINTS]; omega
  rw [write_out_dispatch m okay ep 0x00 v (by omega) (by omega)]
  unfold synopsys_usb_out_ep_write
  rw [if_neg h8, if_pos rfl]
  rfl

/-- The registers of OUT endpoint `ep`, guest memory and the mask registers after the
completion handler `synopsys_usb_out_ep_done`. -/
theorem out_ep_done_ep (m : Machine) (ep amt : Nat) :
    ((synopsys_usb_out_ep_done m ep amt).state.out_eps ep).tx_size =
      ((m.state.out_eps ep).tx_size &&& not32 DEPTSIZ_XFERSIZ_MASK) |||
        (size_t_sub ((m.state.out_eps ep).tx_size &&& DEPTSIZ_XFERSIZ_MASK) amt
          &&& DEPTSIZ_XFERSIZ_MASK) ∧
    ((synopsys_usb_out_ep_done m ep amt).state.out_eps ep).control =
      (m.state.out_eps ep).control &&& not32 USB_EPCON_ENABLE ∧
    ((synopsys_usb_out_ep_done m ep amt).state.out_eps ep).interrupt_status =
      (m.state.out_eps ep).interrupt_status ||| USB_EPINT_XferCompl ∧
    ((synopsys_usb_out_ep_done m ep amt).state.out_eps ep).dma_address =
      (if (m.state.out_eps ep).dma_address ≠ 0 then
        ((m.state.out_eps ep).dma_address + amt) % 2 ^ TARGET_PHYS_ADDR_BITS
      else (m.state.out_eps ep).dma_address) ∧
    (synopsys_usb_out_ep_done m ep amt).mem =
      (if (m.state.out_eps ep).dma_address ≠ 0 then
        cpu_physical_memory_write m.mem (m.state.out_eps ep).dma_address m.state.fifos amt
      else m.mem) ∧
    (synopsys_usb_out_ep_done m ep amt).state.daintmsk = m.state.daintmsk ∧
    (synopsys_usb_out_ep_done m ep amt).state.gintmsk = m.state.gintmsk := by
  unfold synopsys_usb_out_ep_done
  dsimp only
  rw [(update_irq_frame _).2.1, (update_irq_frame _).2.2.1,
    (update_irq_frame _).2.2.2.1, (update_irq_env _).1]
  by_cases hA : (m.state.out_eps ep).dma_address ≠ 0
  · simp only [hA, ne_eq, not_false_eq_true, if_true, set_out_ep]
    simp
  · simp only [hA, if_false, set_out_ep]
    simp

/-- An OUT endpoint with a pending status whose DAINTMSK bit is set raises the line when
GINTMSK has bit 19 set. -/
theorem update_irq_raises_out (m : Machine) (ep : Nat) (hep : ep < 8)
    (hp : (m.state.out_eps ep).interrupt_status ≠ 0)
    (hd : m.state.daintmsk.testBit (ep + 16) = true)
    (hg : m.state.gintmsk.testBit 19 = true) :
    (synopsys_usb_update_irq m).irq = true := by
  have h19 : (synopsys_usb_update_irq m).state.gintsts.testBit 19 = true :=
    (update_irq_gintsts m 19).mpr (Or.inr ⟨rfl, ep, hep, Or.inl ⟨hp, hd⟩⟩)
  rw [update_irq_irq, decide_eq_true_eq, (update_irq_frame m).2.2.2.1]
  intro h0
  have : (m.state.gintmsk &&& (synopsys_usb_update_irq m).state.gintsts).testBit 19 = true := by
    rw [Nat.testBit_and, hg, h19]; rfl
  rw [h0] at this
  simp at this


theorem or_xfercompl_ne_zero (x : Nat) : x ||| USB_EPINT_XferCompl ≠ 0 := by
  intro h
  have : (x ||| USB_EPINT_XferCompl).testBit 0 = true := by
    have c : (USB_EPINT_XferCompl).testBit 0 = true := by decide
    rw [Nat.testBit_or, c, Bool.or_true]
  rw [h] at this
  simp at this

/-- The OUT completion handler raises the line when the DAINTMSK bit of the endpoint and
GINTMSK bit 19 are set. -/
theorem out_ep_done_irq (m : Machine) (ep amt : Nat) (hep : ep < 8)
    (hd : m.state.daintmsk.testBit (ep + 16) = true)
    (hg : m.state.gintmsk.testBit 19 = true) :
    (synopsys_usb_out_ep_done m ep amt).irq = true := by
  unfold synopsys_usb_out_ep_done
  dsimp only
  apply update_irq_raises_out _ ep hep
  · simp only [set_out_ep, if_true]
    exact or_xfercompl_ne_zero _
  · by_cases hA : (m.state.out_eps ep).dma_address ≠ 0
    · simp only [hA, ne_eq, not_false_eq_true, if_true, set_out_ep]; exact hd
    · simp only [hA, if_false, set_out_ep]; exact hd
  · by_cases hA : (m.state.out_eps ep).dma_address ≠ 0
    · simp only [hA, ne_eq, not_false_eq_true, if_true, set_out_ep]; exact hg
    · simp only [hA, if_false, set_out_ep]; exact hg

/-! ## Control writes that start no transfer -/

/-- With `DISABLE` set, the common update step raises the endpoint-disabled bit and
leaves `ENABLE` and `DISABLE` clear. -/
theorem update_ep_disable (e : synopsys_usb_ep_state) (h30 : e.control.testBit 30 = true) :
    (synopsys_usb_update_ep e).control.testBit 31 = false ∧
    (synopsys_usb_update_ep e).control.testBit 30 = false ∧
    (synopsys_usb_update_ep e).interrupt_status.testBit 1 = true := by
  have c1 : (USB_EPINT_EPDisbld).testBit 1 = true := by decide
  unfold synopsys_usb_update_ep
  dsimp only
  by_cases hs : e.control &&& USB_EPCON_SETNAK ≠ 0
  · have hd : ((e.control ||| USB_EPCON_NAKSTS) &&& not32 USB_EPCON_SETNAK)
        &&& USB_EPCON_DISABLE ≠ 0 := by
      rw [USB_EPCON_DISABLE, and_one_shiftLeft_ne_zero]
      simp only [Nat.testBit_and, Nat.testBit_or, testBit_not32, USB_EPCON_NAKSTS,
        USB_EPCON_SETNAK, testBit_one_shiftLeft, h30]
      simp
    rw [if_pos hs]
    dsimp only
    rw [if_pos hd]
    dsimp only
    simp only [Nat.testBit_and, Nat.testBit_or, testBit_not32, USB_EPCON_NAKSTS,
      USB_EPCON_SETNAK, USB_EPCON_DISABLE, USB_EPCON_ENABLE, testBit_one_shiftLeft, c1]
    simp
  · have hd : e.control &&& USB_EPCON_DISABLE ≠ 0 := by
      rw [USB_EPCON_DISABLE, and_one_shiftLeft_ne_zero]; exact h30
    rw [if_neg hs, if_pos hd]
    dsimp only
    simp only [Nat.testBit_and, Nat.testBit_or, testBit_not32, USB_EPCON_DISABLE,
      USB_EPCON_ENABLE, testBit_one_shiftLeft, c1]
    simp

/-- Once the common update step leaves `ENABLE` clear, the IN step ends there. -/
theorem update_in_ep_not_enabled (m : Machine) (okay : Bool) (ep : Nat)
    (hE : (synopsys_usb_update_ep (m.state.in_eps ep)).control.testBit 31 = false) :
    synopsys_usb_update_in_ep m okay ep = .ok (in_ep_updated m ep) := by
  have hE' : ¬ ((synopsys_usb_update_ep (m.state.in_eps ep)).control &&& USB_EPCON_ENABLE ≠ 0) := by
    rw [USB_EPCON_ENABLE, and_one_shiftLeft_ne_zero, hE]; simp
  unfold synopsys_usb_update_in_ep
  dsimp only
  rw [if_neg hE']
  rfl

/-- Once the common update step leaves `ENABLE` clear, the OUT step ends there. -/
theorem update_out_ep_not_enabled (m : Machine) (okay : Bool) (ep : Nat)
    (hE : (synopsys_usb_update_ep (m.state.out_eps ep)).control.testBit 31 = false) :
    synopsys_usb_update_out_ep m okay ep = .ok (out_ep_updated m ep) := by
  have hE' : ¬ ((synopsys_usb_update_ep (m.state.out_eps ep)).control &&& USB_EPCON_ENABLE ≠ 0) := by
    rw [USB_EPCON_ENABLE, and_one_shiftLeft_ne_zero, hE]; simp
  unfold synopsys_usb_update_out_ep
  dsimp only
  rw [if_neg hE']
  rfl

/-- The calls the DMA block of the IN step adds. -/
theorem in_ep_dma_calls (m : Machine) (ep txfs amt : Nat) :
    (in_ep_dma m ep txfs amt).calls =
      if (m.state.in_eps ep).dma_address ≠ 0 then
        .cpu_physical_memory_read (m.state.in_eps ep).dma_address txfs amt :: m.calls
      else m.calls := by
  unfold in_ep_dma
  dsimp only
  split_ifs <;> rfl

/-! ## The paths of the two transfer steps -/

/-- When `ENABLE` survives the common update step and a guard fails, the IN step stops in
`hw_error` right after the common update step, whatever the probe returns. -/
theorem update_in_ep_guard_fails (m : Machine) (okay : Bool) (ep : Nat)
    (hE : (synopsys_usb_update_ep (m.state.in_eps ep)).control.testBit 31 = true)
    (hbad : ¬ ((m.state.in_eps ep).fifo < USB_NUM_FIFOS ∧
      in_ep_txfs m ep + in_ep_txfz m ep ≤ FIFOS_SIZE)) :
    synopsys_usb_update_in_ep m okay ep = .hw_error (in_ep_updated m ep) := by
  obtain ⟨-, f2, -, -⟩ := update_ep_frame (m.state.in_eps ep)
  have hE' : (synopsys_usb_update_ep (m.state.in_eps ep)).control &&& USB_EPCON_ENABLE ≠ 0 := by
    rw [USB_EPCON_ENABLE, and_one_shiftLeft_ne_zero]; exact hE
  unfold synopsys_usb_update_in_ep
  simp only [hE', f2, ne_eq, not_false_eq_true, if_true, (tx_fifo_set_in_ep _ _ _ _).1,
    (tx_fifo_set_in_ep _ _ _ _).2]
  by_cases hf : (m.state.in_eps ep).fifo ≥ USB_NUM_FIFOS
  · rw [if_pos hf]; rfl
  · rw [if_neg hf, if_pos]
    · rfl
    · unfold in_ep_txfs in_ep_txfz at hbad
      omega

/-- The four ways `synopsys_usb_update_in_ep` ends. -/
theorem update_in_ep_cases (m : Machine) (okay : Bool) (ep : Nat) :
    ((synopsys_usb_update_ep (m.state.in_eps ep)).control.testBit 31 = false ∧
      synopsys_usb_update_in_ep m okay ep = .ok (in_ep_updated m ep)) ∨
    ((synopsys_usb_update_ep (m.state.in_eps ep)).control.testBit 31 = true ∧
      ¬ ((m.state.in_eps ep).fifo < USB_NUM_FIFOS ∧
        in_ep_txfs m ep + in_ep_txfz m ep ≤ FIFOS_SIZE) ∧
      synopsys_usb_update_in_ep m okay ep = .hw_error (in_ep_updated m ep)) ∨
    ((synopsys_usb_update_ep (m.state.in_eps ep)).control.testBit 31 = true ∧
      (m.state.in_eps ep).fifo < USB_NUM_FIFOS ∧
      in_ep_txfs m ep + in_ep_txfz m ep ≤ FIFOS_SIZE ∧ okay = false ∧
      synopsys_usb_update_in_ep m okay ep =
        .ok (record_call (in_ep_staged m ep)
          (.tcp_usb_send ep (in_ep_txfs m ep) (in_ep_amount m ep)))) ∨
    ((synopsys_usb_update_ep (m.state.in_eps ep)).control.testBit 31 = true ∧
      (m.state.in_eps ep).fifo < USB_NUM_FIFOS ∧
      in_ep_txfs m ep + in_ep_txfz m ep ≤ FIFOS_SIZE ∧ okay = true ∧
      synopsys_usb_update_in_ep m okay ep =
        .ok (synopsys_usb_in_ep_done (in_ep_staged m ep) ep (in_ep_amount m ep))) := by
  rcases Bool.eq_false_or_eq_true
    ((synopsys_usb_update_ep (m.state.in_eps ep)).control.testBit 31) with hE | hE
  · by_cases hg : (m.state.in_eps ep).fifo < USB_NUM_FIFOS ∧
        in_ep_txfs m ep + in_ep_txfz m ep ≤ FIFOS_SIZE
    · have hrun := update_in_ep_enabled m okay ep hE hg.1 hg.2
      cases okay
      · exact Or.inr (Or.inr (Or.inl ⟨hE, hg.1, hg.2, rfl, hrun⟩))
      · exact Or.inr (Or.inr (Or.inr ⟨hE, hg.1, hg.2, rfl, hrun⟩))
    · exact Or.inr (Or.inl ⟨hE, hg, update_in_ep_guard_fails m okay ep hE hg⟩)
  · exact Or.inl ⟨hE, update_in_ep_not_enabled m okay ep hE⟩

/-- The four ways `synopsys_usb_update_out_ep` ends. -/
theorem update_out_ep_cases (m : Machine) (okay : Bool) (ep : Nat) :
    ((synopsys_usb_update_ep (m.state.out_eps ep)).control.testBit 31 = false ∧
      synopsys_usb_update_out_ep m okay ep = .ok (out_ep_updated m ep)) ∨
    ((synopsys_usb_update_ep (m.state.out_eps ep)).control.testBit 31 = true ∧
      okay = true ∧
      synopsys_usb_update_out_ep m okay ep = .ok (out_ep_updated m ep)) ∨
    ((synopsys_usb_update_ep (m.state.out_eps ep)).control.testBit 31 = true ∧
      okay = false ∧ m.state.grxfsiz > FIFOS_SIZE ∧
      synopsys_usb_update_out_ep m okay ep = .hw_error (out_ep_updated m ep)) ∨
    ((synopsys_usb_update_ep (m.state.out_eps ep)).control.testBit 31 = true ∧
      okay = false ∧ m.state.grxfsiz ≤ FIFOS_SIZE ∧
      synopsys_usb_update_out_ep m okay ep =
        .ok (record_call (out_ep_updated m ep)
          (.tcp_usb_recv ep 0 (out_ep_amount m ep)))) := by
  rcases Bool.eq_false_or_eq_true
    ((synopsys_usb_update_ep (m.state.out_eps ep)).control.testBit 31) with hE | hE
  · have hrun := update_out_ep_enabled m okay ep hE
    cases okay
    · rw [if_neg Bool.false_ne_true] at hrun
      by_cases hg : m.state.grxfsiz > FIFOS_SIZE
      · rw [if_pos hg] at hrun
        exact Or.inr (Or.inr (Or.inl ⟨hE, rfl, hg, hrun⟩))
      · rw [if_neg hg] at hrun
        exact Or.inr (Or.inr (Or.inr ⟨hE, rfl, by omega, hrun⟩))
    · rw [if_pos rfl] at hrun
      exact Or.inr (Or.inl ⟨hE, rfl, hrun⟩)
  · exact Or.inl ⟨hE, update_out_ep_not_enabled m okay ep hE⟩

/-! ## Bits of `control` across a control write -/

/-- With `SETNAK` clear, the common update step keeps bit 17 of `control`. -/
theorem update_ep_naksts_kept (e : synopsys_usb_ep_state) (h27 : e.control.testBit 27 = false) :
    (synopsys_usb_update_ep e).control.testBit 17 = e.control.testBit 17 := by
  have hs : ¬ (e.control &&& USB_EPCON_SETNAK ≠ 0) := by
    rw [USB_EPCON_SETNAK, and_one_shiftLeft_ne_zero, h27]; simp
  unfold synopsys_usb_update_ep
  dsimp only
  rw [if_neg hs]
  split_ifs
  · simp only [Nat.testBit_and, testBit_not32, Nat.testBit_or, USB_EPCON_DISABLE,
      USB_EPCON_ENABLE, testBit_one_shiftLeft]
    simp
  · rfl

/-- The transfer part of the IN step changes no bit of `control` below bit 31. -/
theorem update_in_ep_control_low (m : Machine) (okay : Bool) (ep b : Nat) (hb : b < 31) :
    ((synopsys_usb_update_in_ep m okay ep).machine.state.in_eps ep).control.testBit b =
      (synopsys_usb_update_ep (m.state.in_eps ep)).control.testBit b := by
  have hset : ((in_ep_updated m ep).state.in_eps ep).control =
      (synopsys_usb_update_ep (m.state.in_eps ep)).control := by rw [in_ep_updated_ep]
  have hdma : ((in_ep_staged m ep).state.in_eps ep).control =
      (synopsys_usb_update_ep (m.state.in_eps ep)).control := by
    unfold in_ep_staged
    rw [(in_ep_dma_ep _ ep _ _).2.1, hset]
  rcases update_in_ep_cases m okay ep with ⟨-, h⟩ | ⟨-, -, h⟩ | ⟨-, -, -, -, h⟩ | ⟨-, -, -, -, h⟩
  · rw [h]; exact congrArg (fun c => Nat.testBit c b) hset
  · rw [h]; exact congrArg (fun c => Nat.testBit c b) hset
  · rw [h]; exact congrArg (fun c => Nat.testBit c b) hdma
  · rw [h]
    simp only [Outcome.machine]
    rw [(in_ep_done_ep _ ep _).2.1, hdma, Nat.testBit_and, testBit_not32, USB_EPCON_ENABLE,
      testBit_one_shiftLeft]
    have e1 : decide (b < 32) = true := by simp; omega
    have e2 : decide (31 = b) = false := by simp; omega
    rw [e1, e2]
    simp

/-- The transfer part of the OUT step changes no bit of `control`. -/
theorem update_out_ep_control (m : Machine) (okay : Bool) (ep : Nat) :
    ((synopsys_usb_update_out_ep m okay ep).machine.state.out_eps ep).control =
      (synopsys_usb_update_ep (m.state.out_eps ep)).control := by
  have hset : ((out_ep_updated m ep).state.out_eps ep).control =
      (synopsys_usb_update_ep (m.state.out_eps ep)).control := by rw [out_ep_updated_ep]
  rcases update_out_ep_cases m okay ep with ⟨-, h⟩ | ⟨-, -, h⟩ | ⟨-, -, -, h⟩ | ⟨-, -, -, h⟩
  · rw [h]; exact hset
  · rw [h]; exact hset
  · rw [h]; exact hset
  · rw [h]; exact hset

/-! ## Calls issued by the transfer steps -/

/-- The calls recorded when the IN step reaches the transport probe. -/
theorem in_ep_staged_calls (m : Machine) (ep : Nat) :
    (in_ep_staged m ep).calls =
      if (m.state.in_eps ep).dma_address ≠ 0 then
        .cpu_physical_memory_read (m.state.in_eps ep).dma_address (in_ep_txfs m ep)
          (in_ep_amount m ep) :: m.calls
      else m.calls := by
  unfold in_ep_staged
  rw [in_ep_dma_calls, in_ep_updated_ep, (update_ep_frame _).2.2.1]
  rfl

theorem in_ep_amount_le (m : Machine) (ep : Nat) : in_ep_amount m ep ≤ in_ep_txfz m ep :=
  Nat.min_le_right _ _

theorem out_ep_amount_le (m : Machine) (ep : Nat) : out_ep_amount m ep ≤ m.state.grxfsiz :=
  Nat.min_le_right _ _

theorem in_ep_done_env (m : Machine) (ep amt : Nat) :
    (synopsys_usb_in_ep_done m ep amt).calls = m.calls ∧
    (synopsys_usb_in_ep_done m ep amt).mem = m.mem := by
  unfold synopsys_usb_in_ep_done
  dsimp only
  exact ⟨(update_irq_env _).2, (update_irq_env _).1⟩

/-! ## Equality of states -/

theorem state_ext (a b : synopsys_usb_state)
    (h1 : a.ghwcfg1 = b.ghwcfg1) (h2 : a.ghwcfg2 = b.ghwcfg2) (h3 : a.ghwcfg3 = b.ghwcfg3)
    (h4 : a.ghwcfg4 = b.ghwcfg4) (h5 : a.grxfsiz = b.grxfsiz) (h6 : a.gnptxfsiz = b.gnptxfsiz)
    (h7 : a.grstctl = b.grstctl) (h8 : a.gintmsk = b.gintmsk) (h9 : a.gintsts = b.gintsts)
    (h10 : a.dptxfsiz = b.dptxfsiz) (h11 : a.dcfg = b.dcfg) (h12 : a.dsts = b.dsts)
    (h13 : a.daintmsk = b.daintmsk) (h14 : a.daintsts = b.daintsts)
    (h15 : a.in_eps = b.in_eps) (h16 : a.out_eps = b.out_eps) (h17 : a.fifos = b.fifos) :
    a = b := by
  cases a
  cases b
  simp only [synopsys_usb_state.mk.injEq]
  exact ⟨h1, h2, h3, h4, h5, h6, h7, h8, h9, h10, h11, h12, h13, h14, h15, h16, h17⟩

theorem machine_ext (a b : Machine) (h1 : a.state = b.state) (h2 : a.irq = b.irq)
    (h3 : a.mem = b.mem) (h4 : a.calls = b.calls) : a = b := by
  cases a
  cases b
  simp only [Machine.mk.injEq]
  exact ⟨h1, h2, h3, h4⟩

/-- Two machines that agree on the endpoint arrays, the masks, every register other than
DAINTSTS and GINTSTS, on the bits of GINTSTS other than 18 and 19 (below bit 32), on
guest memory and on the calls made are taken to the same machine by
`synopsys_usb_update_irq`. -/
theorem update_irq_congr (a b : Machine)
    (h1 : a.state.ghwcfg1 = b.state.ghwcfg1) (h2 : a.state.ghwcfg2 = b.state.ghwcfg2)
    (h3 : a.state.ghwcfg3 = b.state.ghwcfg3) (h4 : a.state.ghwcfg4 = b.state.ghwcfg4)
    (h5 : a.state.grxfsiz = b.state.grxfsiz) (h6 : a.state.gnptxfsiz = b.state.gnptxfsiz)
    (h7 : a.state.grstctl = b.state.grstctl) (h8 : a.state.gintmsk = b.state.gintmsk)
    (h9 : ∀ i, i < 32 → i ≠ 18 → i ≠ 19 →
      a.state.gintsts.testBit i = b.state.gintsts.testBit i)
    (h10 : a.state.dptxfsiz = b.state.dptxfsiz) (h11 : a.state.dcfg = b.state.dcfg)
    (h12 : a.state.dsts = b.state.dsts) (h13 : a.state.daintmsk = b.state.daintmsk)
    (h15 : a.state.in_eps = b.state.in_eps) (h16 : a.state.out_eps = b.state.out_eps)
    (h17 : a.state.fifos = b.state.fifos) (hm : a.mem = b.mem) (hc : a.calls = b.calls) :
    synopsys_usb_update_irq a = synopsys_usb_update_irq b := by
  obtain ⟨a1, a2, a3, a4, a5, a6, a7, a8, a9, a10, a11, a12, a13, a14, a15⟩ := update_irq_frame a
  obtain ⟨b1, b2, b3, b4, b5, b6, b7, b8, b9, b10, b11, b12, b13, b14, b15⟩ := update_irq_frame b
  have hg : (synopsys_usb_update_irq a).state.gintsts =
      (synopsys_usb_update_irq b).state.gintsts := by
    apply Nat.eq_of_testBit_eq
    intro i
    rw [Bool.eq_iff_iff, update_irq_gintsts, update_irq_gintsts]
    have hp : ∀ j, masked_pending a.state j ↔ masked_pending b.state j :=
      fun j => masked_pending_congr b.state a.state j h15 h16 h13
    simp only [hp]
    constructor
    · rintro (⟨k1, k2, k3, k4⟩ | k)
      · exact Or.inl ⟨by rw [← h9 i k2 k3 k4]; exact k1, k2, k3, k4⟩
      · exact Or.inr k
    · rintro (⟨k1, k2, k3, k4⟩ | k)
      · exact Or.inl ⟨by rw [h9 i k2 k3 k4]; exact k1, k2, k3, k4⟩
      · exact Or.inr k
  have hd : (synopsys_usb_update_irq a).state.daintsts =
      (synopsys_usb_update_irq b).state.daintsts := by
    apply Nat.eq_of_testBit_eq
    intro i
    rw [Bool.eq_iff_iff, update_irq_daintsts, update_irq_daintsts, h15, h16]
  have hs : (synopsys_usb_update_irq a).state = (synopsys_usb_update_irq b).state := by
    apply state_ext
    · rw [a12, b12, h1]
    · rw [a13, b13, h2]
    · rw [a14, b14, h3]
    · rw [a15, b15, h4]
    · rw [a6, b6, h5]
    · rw [a7, b7, h6]
    · rw [a5, b5, h7]
    · rw [a4, b4, h8]
    · exact hg
    · rw [a8, b8, h10]
    · rw [a10, b10, h11]
    · rw [a11, b11, h12]
    · rw [a3, b3, h13]
    · exact hd
    · rw [a1, b1, h15]
    · rw [a2, b2, h16]
    · rw [a9, b9, h17]
  apply machine_ext
  · exact hs
  · rw [update_irq_irq, update_irq_irq, hs]
  · rw [(update_irq_env a).1, (update_irq_env b).1, hm]
  · rw [(update_irq_env a).2, (update_irq_env b).2, hc]

/-! ## Deferred and in-line completion -/

theorem record_call_fields (m : Machine) (c : ext_call) :
    (record_call m c).state = m.state ∧ (record_call m c).irq = m.irq ∧
    (record_call m c).mem = m.mem ∧ (record_call m c).calls = c :: m.calls :=
  ⟨rfl, rfl, rfl, rfl⟩

/-- Recording a call commutes with the interrupt aggregation. -/
theorem update_irq_record_call (m : Machine) (c : ext_call) :
    synopsys_usb_update_irq (record_call m c) = record_call (synopsys_usb_update_irq m) c := by
  unfold synopsys_usb_update_irq record_call
  dsimp only

/-- Recording a call commutes with the IN completion handler. -/
theorem in_ep_done_record_call (m : Machine) (c : ext_call) (ep amt : Nat) :
    synopsys_usb_in_ep_done (record_call m c) ep amt =
      record_call (synopsys_usb_in_ep_done m ep amt) c := by
  unfold synopsys_usb_in_ep_done
  dsimp only
  rw [← update_irq_record_call]
  rfl

/-- A control write does not change what the IN step reads to size its transfer. -/
theorem in_control_written_amount (m : Machine) (ep v : Nat) :
    in_ep_txfs (in_control_written m ep v) ep = in_ep_txfs m ep ∧
    in_ep_txfz (in_control_written m ep v) ep = in_ep_txfz m ep ∧
    in_ep_amount (in_control_written m ep v) ep = in_ep_amount m ep := by
  obtain ⟨-, w2, w3, -, -, w6, w7⟩ := in_control_written_ep m ep v
  unfold in_ep_amount in_ep_txfs in_ep_txfz
  rw [w2, w3, w6, w7]
  exact ⟨rfl, rfl, rfl⟩

/-- With `SETNAK` and `DISABLE` clear, the common update step changes nothing. -/
theorem update_ep_idle (e : synopsys_usb_ep_state) (h27 : e.control.testBit 27 = false)
    (h30 : e.control.testBit 30 = false) : synopsys_usb_update_ep e = e := by
  have hs : ¬ (e.control &&& USB_EPCON_SETNAK ≠ 0) := by
    rw [USB_EPCON_SETNAK, and_one_shiftLeft_ne_zero, h27]; simp
  have hd : ¬ (e.control &&& USB_EPCON_DISABLE ≠ 0) := by
    rw [USB_EPCON_DISABLE, and_one_shiftLeft_ne_zero, h30]; simp
  unfold synopsys_usb_update_ep
  dsimp only
  rw [if_neg hs, if_neg hd]

/-- A control write does not change what the OUT step reads to size its transfer. -/
theorem out_control_written_amount (m : Machine) (ep v : Nat) :
    out_ep_amount (out_control_written m ep v) ep = out_ep_amount m ep := by
  obtain ⟨-, w2, -, -, w5, -⟩ := out_control_written_ep m ep v
  unfold out_ep_amount
  rw [w2, w5]

/-- The registers of the IN endpoint when the step reaches the transport probe. -/
theorem in_ep_staged_ep (m : Machine) (ep : Nat) :
    ((in_ep_staged m ep).state.in_eps ep).tx_size = (m.state.in_eps ep).tx_size ∧
    ((in_ep_staged m ep).state.in_eps ep).control =
      (synopsys_usb_update_ep (m.state.in_eps ep)).control ∧
    ((in_ep_staged m ep).state.in_eps ep).interrupt_status =
      (synopsys_usb_update_ep (m.state.in_eps ep)).interrupt_status := by
  unfold in_ep_staged
  obtain ⟨a1, a2, a3⟩ := in_ep_dma_ep (in_ep_updated m ep) ep (in_ep_txfs m ep)
    (in_ep_amount m ep)
  rw [a1, a2, a3, in_ep_updated_ep, (update_ep_frame _).1]
  exact ⟨rfl, rfl, rfl⟩

/-! ## The interrupt registers along a run -/

theorem outcome_eq_ok (o : Outcome) (h : o.fatal = false) : o = .ok o.machine := by
  cases o with
  | ok m => rfl
  | hw_error m => exact Bool.noConfusion h

theorem irq_step_same (m r : Machine) (h1 : r.state.gintmsk = m.state.gintmsk)
    (h2 : r.state.daintmsk = m.state.daintmsk) (h3 : r.state.gintsts = m.state.gintsts)
    (h4 : r.irq = m.irq) : irq_step m r :=
  ⟨h1, h2, Or.inl ⟨h3, h4⟩⟩

theorem irq_step_update_irq (m x : Machine) (h1 : x.state.gintmsk = m.state.gintmsk)
    (h2 : x.state.daintmsk = m.state.daintmsk) : irq_step m (synopsys_usb_update_irq x) :=
  ⟨((update_irq_frame x).2.2.2.1).trans h1, ((update_irq_frame x).2.2.1).trans h2,
    Or.inr ⟨x, rfl, h1, h2⟩⟩

/-- A step from a machine with the same interrupt registers is a step from this one. -/
theorem irq_step_from (m n r : Machine) (h1 : n.state.gintmsk = m.state.gintmsk)
    (h2 : n.state.daintmsk = m.state.daintmsk) (h3 : n.state.gintsts = m.state.gintsts)
    (h4 : n.irq = m.irq) (h : irq_step n r) : irq_step m r := by
  obtain ⟨s1, s2, s3⟩ := h
  refine ⟨s1.trans h1, s2.trans h2, ?_⟩
  rcases s3 with ⟨k1, k2⟩ | ⟨x, k1, k2, k3⟩
  · exact Or.inl ⟨k1.trans h3, k2.trans h4⟩
  · exact Or.inr ⟨x, k1, k2.trans h1, k3.trans h2⟩

theorem irq_step_in_done (m : Machine) (ep amt : Nat) :
    irq_step m (synopsys_usb_in_ep_done m ep amt) := by
  unfold synopsys_usb_in_ep_done
  dsimp only
  exact irq_step_update_irq m _ rfl rfl

theorem irq_step_out_done (m : Machine) (ep amt : Nat) :
    irq_step m (synopsys_usb_out_ep_done m ep amt) := by
  unfold synopsys_usb_out_ep_done
  dsimp only
  apply irq_step_update_irq
  · split_ifs <;> rfl
  · split_ifs <;> rfl

theorem in_ep_staged_irq (m : Machine) (ep : Nat) :
    (in_ep_staged m ep).state.gintmsk = m.state.gintmsk ∧
    (in_ep_staged m ep).state.daintmsk = m.state.daintmsk ∧
    (in_ep_staged m ep).state.gintsts = m.state.gintsts ∧
    (in_ep_staged m ep).irq = m.irq := by
  unfold in_ep_staged in_ep_dma
  dsimp only
  split_ifs <;> exact ⟨rfl, rfl, rfl, rfl⟩

theorem irq_step_update_in_ep (m : Machine) (okay : Bool) (ep : Nat) :
    irq_step m (synopsys_usb_update_in_ep m okay ep).machine := by
  obtain ⟨g1, g2, g3, g4⟩ := in_ep_staged_irq m ep
  rcases update_in_ep_cases m okay ep with ⟨-, h⟩ | ⟨-, -, h⟩ | ⟨-, -, -, -, h⟩ | ⟨-, -, -, -, h⟩
  · rw [h]; exact irq_step_same m _ rfl rfl rfl rfl
  · rw [h]; exact irq_step_same m _ rfl rfl rfl rfl
  · rw [h]; exact irq_step_same m _ g1 g2 g3 g4
  · rw [h]; exact irq_step_from m _ _ g1 g2 g3 g4 (irq_step_in_done _ ep _)

theorem irq_step_update_out_ep (m : Machine) (okay : Bool) (ep : Nat) :
    irq_step m (synopsys_usb_update_out_ep m okay ep).machine := by
  rcases update_out_ep_cases m okay ep with ⟨-, h⟩ | ⟨-, -, h⟩ | ⟨-, -, -, h⟩ | ⟨-, -, -, h⟩
  · rw [h]; exact irq_step_same m _ rfl rfl rfl rfl
  · rw [h]; exact irq_step_same m _ rfl rfl rfl rfl
  · rw [h]; exact irq_step_same m _ rfl rfl rfl rfl
  · rw [h]; exact irq_step_same m _ rfl rfl rfl rfl

theorem irq_step_in_ep_write (m : Machine) (okay : Bool) (ep off v : Nat) :
    irq_step m (synopsys_usb_in_ep_write m okay ep off v).machine := by
  unfold synopsys_usb_in_ep_write
  split_ifs
  · exact irq_step_same m _ rfl rfl rfl rfl
  · exact irq_step_from m _ _ rfl rfl rfl rfl (irq_step_update_in_ep _ okay ep)
  · exact irq_step_update_irq m _ rfl rfl
  · exact irq_step_same m _ rfl rfl rfl rfl
  · exact irq_step_same m _ rfl rfl rfl rfl
  · exact irq_step_same m _ rfl rfl rfl rfl
  · exact irq_step_same m _ rfl rfl rfl rfl

theorem irq_step_out_ep_write (m : Machine) (okay : Bool) (ep off v : Nat) :
    irq_step m (synopsys_usb_out_ep_write m okay ep off v).machine := by
  unfold synopsys_usb_out_ep_write
  split_ifs
  · exact irq_step_same m _ rfl rfl rfl rfl
  · exact irq_step_from m _ _ rfl rfl rfl rfl (irq_step_update_out_ep _ okay ep)
  · exact irq_step_update_irq m _ rfl rfl
  · exact irq_step_same m _ rfl rfl rfl rfl
  · exact irq_step_same m _ rfl rfl rfl rfl
  · exact irq_step_same m _ rfl rfl rfl rfl
  · exact irq_step_same m _ rfl rfl rfl rfl

/-- Every register write is a step that keeps the masks. -/
theorem irq_step_write (m : Machine) (okay : Bool) (a v : Nat) :
    irq_step m (synopsys_usb_write m okay a v).machine := by
  unfold synopsys_usb_write
  split_ifs
  · exact irq_step_same m _ rfl rfl rfl rfl
  · exact irq_step_same m _ rfl rfl rfl rfl
  · exact irq_step_same m _ rfl rfl rfl rfl
  · exact irq_step_in_ep_write m okay _ _ v
  · exact irq_step_out_ep_write m okay _ _ v
  · exact irq_step_same m _ rfl rfl rfl rfl

/-- With both masks 0, the aggregation signals nothing. -/
theorem update_irq_quiet (m : Machine) (h1 : m.state.gintmsk = 0) (h2 : m.state.daintmsk = 0) :
    irq_quiet (synopsys_usb_update_irq m) := by
  have h19 : (synopsys_usb_update_irq m).state.gintsts.testBit 19 = false := by
    rcases Bool.eq_false_or_eq_true ((synopsys_usb_update_irq m).state.gintsts.testBit 19)
      with h | h
    · rcases (update_irq_gintsts m 19).mp h with ⟨-, -, -, k⟩ | ⟨-, i, -, hp⟩
      · exact absurd rfl k
      · unfold masked_pending at hp
        rw [h2] at hp
        simp at hp
    · exact h
  refine ⟨((update_irq_frame m).2.2.2.1).trans h1, ((update_irq_frame m).2.2.1).trans h2,
    update_irq_inep_clear m, h19, ?_⟩
  rw [update_irq_irq, (update_irq_frame m).2.2.2.1, h1]
  simp

theorem irq_quiet_step (m r : Machine) (hq : irq_quiet m) (hs : irq_step m r) : irq_quiet r := by
  obtain ⟨q1, q2, q3, q4, q5⟩ := hq
  obtain ⟨s1, s2, s3⟩ := hs
  rcases s3 with ⟨k1, k2⟩ | ⟨x, k1, k2, k3⟩
  · exact ⟨s1.trans q1, s2.trans q2, by rw [k1]; exact q3, by rw [k1]; exact q4, k2.trans q5⟩
  · rw [k1]
    exact update_irq_quiet x (k2.trans q1) (k3.trans q2)

/-- Every reachable machine signals nothing. -/
theorem reachable_quiet (m : Machine) (h : Reachable m) : irq_quiet m := by
  induction h with
  | reset m0 =>
    unfold synopsys_usb_initial_reset
    exact update_irq_quiet _ rfl rfl
  | write m r okay a v _ hw ih =>
    have hs := irq_step_write m okay a v
    rw [hw] at hs
    exact irq_quiet_step m r ih hs
  | in_done m ep amt _ ih => exact irq_quiet_step m _ ih (irq_step_in_done m ep amt)
  | out_done m buf ep amt _ ih =>
    exact irq_quiet_step m _ ih
      (irq_step_from m _ _ rfl rfl rfl rfl (irq_step_out_done (tcp_usb_fill m buf) ep amt))

/-! ## The claims -/

/-- C1 (the code departs from the claim): at a state where only IN endpoint 0 has a
pending status and its DAINTMSK bit is set, `synopsys_usb_update_irq` leaves the IN
summary bit 18 of GINTSTS clear, where the claim has it set, and sets the OUT summary
bit 19 although no OUT endpoint is pending, where the claim has it clear. The IN branch
of the loop sets `GINTMSK_OEP`. -/
theorem update_irq_in_summary_diverges :
    (c1_machine.state.in_eps 0).interrupt_status ≠ 0 ∧
    c1_machine.state.daintmsk.testBit 0 = true ∧
    (synopsys_usb_update_irq c1_machine).state.gintsts.testBit 18 = false ∧
    (∀ i, i < 8 → (c1_machine.state.out_eps i).interrupt_status = 0) ∧
    (synopsys_usb_update_irq c1_machine).state.gintsts.testBit 19 = true := by
  refine ⟨by decide, by decide, by decide, ?_, by decide⟩
  intro i _
  rfl

/-- C2: for every state, after `synopsys_usb_update_irq` the interrupt line is raised
exactly when `gintsts & gintmsk` is nonzero on the recomputed `gintsts`, and lowered
exactly when it is zero; `gintmsk` is the value the call started with. -/
theorem update_irq_line_iff (m : Machine) :
    ((synopsys_usb_update_irq m).irq = true ↔
      (synopsys_usb_update_irq m).state.gintsts &&& (synopsys_usb_update_irq m).state.gintmsk ≠ 0) ∧
    ((synopsys_usb_update_irq m).irq = false ↔
      (synopsys_usb_update_irq m).state.gintsts &&& (synopsys_usb_update_irq m).state.gintmsk = 0) ∧
    (synopsys_usb_update_irq m).state.gintmsk = m.state.gintmsk := by
  refine ⟨?_, ?_, (update_irq_frame m).2.2.2.1⟩
  · rw [update_irq_irq, Nat.and_comm]; simp
  · rw [update_irq_irq, Nat.and_comm]; simp

/-- C3: for every state, after `synopsys_usb_update_irq` bit `b` of DAINTSTS is set
exactly when `b` is the number of an IN endpoint (0..7) with nonzero `interrupt_status`,
or `b = 16 + i` for an OUT endpoint `i` (0..7) with nonzero `interrupt_status`; every
other bit is zero, and the result does not depend on the value `d` DAINTSTS held before. -/
theorem update_irq_daintsts_spec (m : Machine) (b d : Nat) :
    ((synopsys_usb_update_irq m).state.daintsts.testBit b = true ↔
      (b < 8 ∧ (m.state.in_eps b).interrupt_status ≠ 0) ∨
      (16 ≤ b ∧ b < 24 ∧ (m.state.out_eps (b - 16)).interrupt_status ≠ 0)) ∧
    (synopsys_usb_update_irq { m with state := { m.state with daintsts := d } }).state.daintsts =
      (synopsys_usb_update_irq m).state.daintsts := by
  refine ⟨update_irq_daintsts m b, ?_⟩
  apply Nat.eq_of_testBit_eq
  intro i
  rw [Bool.eq_iff_iff, update_irq_daintsts, update_irq_daintsts]

/-- C4: for every endpoint `ep` in 0..7, in either direction, every prior state and every
written value `v`, a write to the `interrupt_status` register of the endpoint (sub-offset 0x08)
returns normally, leaves `interrupt_status` of that endpoint equal to `old & ~v` and every
other field of it as it was, and changes no register of any other endpoint, of the same
or of the other direction. -/
theorem ep_status_write_clears (m : Machine) (okay : Bool) (ep v : Nat) (hep : ep < 8) :
    (synopsys_usb_write m okay (USB_INREGS + 32 * ep + 0x08) v).fatal = false ∧
    (synopsys_usb_write m okay (USB_INREGS + 32 * ep + 0x08) v).machine.state.in_eps =
      (fun j => if j = ep then
          { (m.state.in_eps ep) with
            interrupt_status := (m.state.in_eps ep).interrupt_status &&& not32 v }
        else m.state.in_eps j) ∧
    (synopsys_usb_write m okay (USB_INREGS + 32 * ep + 0x08) v).machine.state.out_eps =
      m.state.out_eps ∧
    (synopsys_usb_write m okay (USB_OUTREGS + 32 * ep + 0x08) v).fatal = false ∧
    (synopsys_usb_write m okay (USB_OUTREGS + 32 * ep + 0x08) v).machine.state.out_eps =
      (fun j => if j = ep then
          { (m.state.out_eps ep) with
            interrupt_status := (m.state.out_eps ep).interrupt_status &&& not32 v }
        else m.state.out_eps j) ∧
    (synopsys_usb_write m okay (USB_OUTREGS + 32 * ep + 0x08) v).machine.state.in_eps =
      m.state.in_eps := by
  have h8 : ¬ ep ≥ USB_NUM_ENDPOINTS := by simp only [USB_NUM_ENDPOINTS]; omega
  rw [write_in_dispatch m okay ep 0x08 v (by omega) (by omega),
    write_out_dispatch m okay ep 0x08 v (by omega) (by omega)]
  unfold synopsys_usb_in_ep_write synopsys_usb_out_ep_write
  have h0 : ¬ ((0x08 : Nat) = 0x00) := by decide
  simp only [if_neg h8, if_neg h0, if_true, Outcome.fatal, Outcome.machine]
  refine ⟨trivial, ?_, ?_, trivial, ?_, ?_⟩
  · rw [(update_irq_frame _).1]; rfl
  · rw [(update_irq_frame _).2.1]; rfl
  · rw [(update_irq_frame _).2.1]; rfl
  · rw [(update_irq_frame _).1]; rfl

/-- Witness of C4: writing 0x41 to the status register of endpoint 3, which holds 0x43,
leaves 0x02 there, in both directions. -/
theorem ep_status_write_clears_witness :
    3 < 8 ∧
    (synopsys_usb_write c4_machine false (USB_INREGS + 32 * 3 + 0x08) 0x41).fatal = false ∧
    (synopsys_usb_write c4_machine false (USB_INREGS + 32 * 3 + 0x08) 0x41).machine.state.in_eps =
      (fun j => if j = 3 then
          { (c4_machine.state.in_eps 3) with
            interrupt_status := (c4_machine.state.in_eps 3).interrupt_status &&& not32 0x41 }
        else c4_machine.state.in_eps j) ∧
    (synopsys_usb_write c4_machine false (USB_INREGS + 32 * 3 + 0x08)
      0x41).machine.state.out_eps = c4_machine.state.out_eps ∧
    (synopsys_usb_write c4_machine false (USB_OUTREGS + 32 * 3 + 0x08) 0x41).fatal = false ∧
    (synopsys_usb_write c4_machine false (USB_OUTREGS + 32 * 3 + 0x08)
        0x41).machine.state.out_eps =
      (fun j => if j = 3 then
          { (c4_machine.state.out_eps 3) with
            interrupt_status := (c4_machine.state.out_eps 3).interrupt_status &&& not32 0x41 }
        else c4_machine.state.out_eps j) ∧
    (synopsys_usb_write c4_machine false (USB_OUTREGS + 32 * 3 + 0x08)
      0x41).machine.state.in_eps = c4_machine.state.in_eps ∧
    (c4_machine.state.in_eps 3).interrupt_status &&& not32 0x41 = 0x02 :=
  ⟨by decide, (ep_status_write_clears c4_machine false 3 0x41 (by decide)).1,
    (ep_status_write_clears c4_machine false 3 0x41 (by decide)).2.1,
    (ep_status_write_clears c4_machine false 3 0x41 (by decide)).2.2.1,
    (ep_status_write_clears c4_machine false 3 0x41 (by decide)).2.2.2.1,
    (ep_status_write_clears c4_machine false 3 0x41 (by decide)).2.2.2.2.1,
    (ep_status_write_clears c4_machine false 3 0x41 (by decide)).2.2.2.2.2,
    by decide⟩

/-- C5: for an IN endpoint `ep` in 0..7 whose control register is written with `ENABLE`
(bit 31) set and `DISABLE` (bit 30) clear, whose FIFO index is below the FIFO count and
whose FIFO window fits the FIFO buffer, with byte count `N`, FIFO capacity `F < N` and the
transport probe returning true (in-line completion): the write returns after running the
completion `synopsys_usb_in_ep_done` with exactly `F` bytes, on the machine the DMA block
left for a window of `F` bytes at the FIFO start; afterwards the byte-count field is
`N - F`, the bits of `tx_size` above the 17-bit field are those of before, `ENABLE` is
clear and the transfer-complete bit (0x1) is set in `interrupt_status`. -/
theorem in_ep_enable_clipped (m : Machine) (ep v : Nat)
    (hep : ep < 8)
    (hen : v.testBit 31 = true) (hdis : v.testBit 30 = false)
    (hfifo : (m.state.in_eps ep).fifo < USB_NUM_FIFOS)
    (hwin : synopsys_usb_tx_fifo_start m.state (m.state.in_eps ep).fifo +
      synopsys_usb_tx_fifo_size m.state (m.state.in_eps ep).fifo ≤ FIFOS_SIZE)
    (hF : synopsys_usb_tx_fifo_size m.state (m.state.in_eps ep).fifo <
      (m.state.in_eps ep).tx_size &&& DEPTSIZ_XFERSIZ_MASK)
    (htx : (m.state.in_eps ep).tx_size < 2 ^ 32) :
    synopsys_usb_write m true (USB_INREGS + 32 * ep + 0x00) v =
      .ok (synopsys_usb_in_ep_done
        (in_ep_dma (in_ep_updated (in_control_written m ep v) ep) ep
          (synopsys_usb_tx_fifo_start m.state (m.state.in_eps ep).fifo)
          (synopsys_usb_tx_fifo_size m.state (m.state.in_eps ep).fifo))
        ep (synopsys_usb_tx_fifo_size m.state (m.state.in_eps ep).fifo)) ∧
    ((synopsys_usb_write m true (USB_INREGS + 32 * ep + 0x00) v).machine.state.in_eps ep).tx_size
        &&& DEPTSIZ_XFERSIZ_MASK =
      ((m.state.in_eps ep).tx_size &&& DEPTSIZ_XFERSIZ_MASK) -
        synopsys_usb_tx_fifo_size m.state (m.state.in_eps ep).fifo ∧
    ((synopsys_usb_write m true (USB_INREGS + 32 * ep + 0x00) v).machine.state.in_eps ep).tx_size
        >>> 17 = (m.state.in_eps ep).tx_size >>> 17 ∧
    ((synopsys_usb_write m true (USB_INREGS + 32 * ep + 0x00) v).machine.state.in_eps
      ep).control.testBit 31 = false ∧
    ((synopsys_usb_write m true (USB_INREGS + 32 * ep + 0x00) v).machine.state.in_eps
      ep).interrupt_status.testBit 0 = true := by
  obtain ⟨w1, w2, w3, w4, w5, w6, w7⟩ := in_control_written_ep m ep v
  obtain ⟨f1, -, -, -⟩ := update_ep_frame ((in_control_written m ep v).state.in_eps ep)
  have k31 := (update_ep_keeps_enable ((in_control_written m ep v).state.in_eps ep)
    (by rw [w1]; exact hen) (by rw [w1]; exact hdis)).1
  have hN := xfersiz_lt (m.state.in_eps ep).tx_size
  have hrun := update_in_ep_enabled (in_control_written m ep v) true ep k31
    (by rw [w3]; exact hfifo) (by rw [w3, w6, w7]; exact hwin)
  rw [if_pos rfl, w2, w3, w6, w7, Nat.min_eq_right (Nat.le_of_lt hF)] at hrun
  rw [write_in_control m true ep v hep, hrun]
  simp only [Outcome.machine]
  obtain ⟨d1, d2, d3⟩ := in_ep_done_ep
    (in_ep_dma (in_ep_updated (in_control_written m ep v) ep) ep
      (synopsys_usb_tx_fifo_start m.state (m.state.in_eps ep).fifo)
      (synopsys_usb_tx_fifo_size m.state (m.state.in_eps ep).fifo))
    ep (synopsys_usb_tx_fifo_size m.state (m.state.in_eps ep).fifo)
  obtain ⟨a1, a2, a3⟩ := in_ep_dma_ep (in_ep_updated (in_control_written m ep v) ep) ep
    (synopsys_usb_tx_fifo_start m.state (m.state.in_eps ep).fifo)
    (synopsys_usb_tx_fifo_size m.state (m.state.in_eps ep).fifo)
  rw [in_ep_updated_ep] at a1 a2 a3
  rw [a1, f1, w2] at d1
  refine ⟨trivial, ?_, ?_, ?_, ?_⟩
  · rw [d1, tx_size_low, size_t_sub_of_le _ _ (Nat.le_of_lt hF) (by omega)]
    apply Nat.mod_eq_of_lt
    omega
  · rw [d1, tx_size_high _ _ htx]
  · rw [d2, Nat.testBit_and, testBit_not32, USB_EPCON_ENABLE, testBit_one_shiftLeft]
    simp
  · rw [d3, Nat.testBit_or]
    have c : (USB_EPINT_XferCompl).testBit 0 = true := by decide
    rw [c, Bool.or_true]


/-- Witness of C5: IN endpoint 0 with byte count 0x200 on the FIFO `(0x200, 0x1C0)`:
0x1C0 bytes are moved and 0x40 remain. -/
theorem in_ep_enable_clipped_witness :
    0 < 8 ∧ Nat.testBit 0x80000000 31 = true ∧ Nat.testBit 0x80000000 30 = false ∧
    (c5_machine.state.in_eps 0).fifo < USB_NUM_FIFOS ∧
    synopsys_usb_tx_fifo_start c5_machine.state (c5_machine.state.in_eps 0).fifo +
      synopsys_usb_tx_fifo_size c5_machine.state (c5_machine.state.in_eps 0).fifo
        ≤ FIFOS_SIZE ∧
    synopsys_usb_tx_fifo_size c5_machine.state (c5_machine.state.in_eps 0).fifo <
      (c5_machine.state.in_eps 0).tx_size &&& DEPTSIZ_XFERSIZ_MASK ∧
    (c5_machine.state.in_eps 0).tx_size < 2 ^ 32 ∧
    synopsys_usb_tx_fifo_size c5_machine.state (c5_machine.state.in_eps 0).fifo = 0x1C0 ∧
    synopsys_usb_write c5_machine true (USB_INREGS + 32 * 0 + 0x00) 0x80000000 =
      .ok (synopsys_usb_in_ep_done
        (in_ep_dma (in_ep_updated (in_control_written c5_machine 0 0x80000000) 0) 0
          (synopsys_usb_tx_fifo_start c5_machine.state (c5_machine.state.in_eps 0).fifo)
          (synopsys_usb_tx_fifo_size c5_machine.state (c5_machine.state.in_eps 0).fifo))
        0 (synopsys_usb_tx_fifo_size c5_machine.state (c5_machine.state.in_eps 0).fifo)) ∧
    ((synopsys_usb_write c5_machine true (USB_INREGS + 32 * 0 + 0x00)
      0x80000000).machine.state.in_eps 0).tx_size &&& DEPTSIZ_XFERSIZ_MASK = 0x200 - 0x1C0 ∧
    ((synopsys_usb_write c5_machine true (USB_INREGS + 32 * 0 + 0x00)
      0x80000000).machine.state.in_eps 0).tx_size >>> 17 =
        (c5_machine.state.in_eps 0).tx_size >>> 17 ∧
    ((synopsys_usb_write c5_machine true (USB_INREGS + 32 * 0 + 0x00)
      0x80000000).machine.state.in_eps 0).control.testBit 31 = false ∧
    ((synopsys_usb_write c5_machine true (USB_INREGS + 32 * 0 + 0x00)
      0x80000000).machine.state.in_eps 0).interrupt_status.testBit 0 = true :=
  ⟨by decide, by decide, by decide, by decide, by decide, by decide, by decide, by decide,
    in_ep_enable_clipped c5_machine 0 0x80000000 (by decide) (by decide) (by decide)
      (by decide) (by decide) (by decide) (by decide)⟩

/-- C6 (counterexample): in the scenario of the spec (receive FIFO 0x1C0, byte count
0x40, OUT endpoint 0) with the transport probe `tcp_usb_okay` returning true, the write
of `ENABLE` to the control register returns normally without issuing any receive: no
call is recorded, `ENABLE` stays set and no transfer-complete bit appears. -/
theorem out_ep_enable_no_recv_when_okay :
    Nat.testBit 0x80000000 31 = true ∧ Nat.testBit 0x80000000 30 = false ∧
    (c6_machine.state.out_eps 0).dma_address ≠ 0 ∧
    c6_machine.state.grxfsiz ≤ FIFOS_SIZE ∧
    (synopsys_usb_write c6_machine true (USB_OUTREGS + 32 * 0 + 0x00) 0x80000000).fatal
      = false ∧
    (synopsys_usb_write c6_machine true (USB_OUTREGS + 32 * 0 + 0x00) 0x80000000).machine.calls
      = [] ∧
    (synopsys_usb_write c6_machine true (USB_OUTREGS + 32 * 0 + 0x00) 0x80000000).machine.calls
      ≠ [ext_call.tcp_usb_recv 0 0 0x40] ∧
    ((synopsys_usb_write c6_machine true (USB_OUTREGS + 32 * 0 + 0x00)
      0x80000000).machine.state.out_eps 0).control.testBit 31 = true ∧
    ((synopsys_usb_write c6_machine true (USB_OUTREGS + 32 * 0 + 0x00)
      0x80000000).machine.state.out_eps 0).interrupt_status = 0 := by
  refine ⟨by decide, by decide, by decide, by decide, by decide, by decide, by decide,
    by decide, by decide⟩

/-- C6 (amended): for OUT endpoint `ep` in 0..7 with byte count `N`, nonzero
`dma_address` `A` and receive-FIFO size `R` within the FIFO buffer, and with the
transport probe `tcp_usb_okay` returning false: writing `control` with `ENABLE` set and
`DISABLE` clear returns normally and issues `tcp_usb_recv` of `min(N, R)` bytes into the
base of the FIFO buffer; when the transport then completes with `amt = min(N, R)` bytes,
guest memory at `A .. A+amt` holds the first `amt` bytes of the FIFO buffer,
`dma_address` is `A + amt` modulo 2^32, the byte count is `N - amt`, `ENABLE` is clear,
the transfer-complete bit is set, and the line is raised when DAINTMSK bit 16 + ep
and GINTMSK bit 19 are set. -/
theorem out_ep_receive_completes (m : Machine) (ep v : Nat) (buf : Nat → Nat)
    (hep : ep < 8)
    (hen : v.testBit 31 = true) (hdis : v.testBit 30 = false)
    (hA : (m.state.out_eps ep).dma_address ≠ 0)
    (hR : m.state.grxfsiz ≤ FIFOS_SIZE) :
    (synopsys_usb_write m false (USB_OUTREGS + 32 * ep + 0x00) v).fatal = false ∧
    (synopsys_usb_write m false (USB_OUTREGS + 32 * ep + 0x00) v).machine.calls =
      .tcp_usb_recv ep 0
        (min ((m.state.out_eps ep).tx_size &&& DEPTSIZ_XFERSIZ_MASK) m.state.grxfsiz) ::
        m.calls ∧
    (∀ j, j < min ((m.state.out_eps ep).tx_size &&& DEPTSIZ_XFERSIZ_MASK) m.state.grxfsiz →
      (out_write_then_done m false ep v buf
        (min ((m.state.out_eps ep).tx_size &&& DEPTSIZ_XFERSIZ_MASK) m.state.grxfsiz)).mem
          ((m.state.out_eps ep).dma_address + j) = buf j) ∧
    ((out_write_then_done m false ep v buf
      (min ((m.state.out_eps ep).tx_size &&& DEPTSIZ_XFERSIZ_MASK) m.state.grxfsiz)).state.out_eps
        ep).dma_address =
      ((m.state.out_eps ep).dma_address +
        min ((m.state.out_eps ep).tx_size &&& DEPTSIZ_XFERSIZ_MASK) m.state.grxfsiz) % 2 ^ 32 ∧
    ((out_write_then_done m false ep v buf
      (min ((m.state.out_eps ep).tx_size &&& DEPTSIZ_XFERSIZ_MASK) m.state.grxfsiz)).state.out_eps
        ep).tx_size &&& DEPTSIZ_XFERSIZ_MASK =
      ((m.state.out_eps ep).tx_size &&& DEPTSIZ_XFERSIZ_MASK) -
        min ((m.state.out_eps ep).tx_size &&& DEPTSIZ_XFERSIZ_MASK) m.state.grxfsiz ∧
    ((out_write_then_done m false ep v buf
      (min ((m.state.out_eps ep).tx_size &&& DEPTSIZ_XFERSIZ_MASK) m.state.grxfsiz)).state.out_eps
        ep).control.testBit 31 = false ∧
    ((out_write_then_done m false ep v buf
      (min ((m.state.out_eps ep).tx_size &&& DEPTSIZ_XFERSIZ_MASK) m.state.grxfsiz)).state.out_eps
        ep).interrupt_status.testBit 0 = true ∧
    (m.state.daintmsk.testBit (16 + ep) = true → m.state.gintmsk.testBit 19 = true →
      (out_write_then_done m false ep v buf
        (min ((m.state.out_eps ep).tx_size &&& DEPTSIZ_XFERSIZ_MASK) m.state.grxfsiz)).irq
          = true) := by
  obtain ⟨w1, w2, w3, w4, w5, w6, w7, w8, w9⟩ := out_control_written_ep m ep v
  obtain ⟨f1, -, f3, -⟩ := update_ep_frame ((out_control_written m ep v).state.out_eps ep)
  have k31 := (update_ep_keeps_enable ((out_control_written m ep v).state.out_eps ep)
    (by rw [w1]; exact hen) (by rw [w1]; exact hdis)).1
  have hN := xfersiz_lt (m.state.out_eps ep).tx_size
  have hrun := update_out_ep_enabled (out_control_written m ep v) false ep k31
  rw [if_neg Bool.false_ne_true, w2, w5, w8, if_neg (by omega)] at hrun
  have hw := write_out_control m false ep v hep
  rw [hrun] at hw
  have hd := out_ep_done_ep
    (tcp_usb_fill (synopsys_usb_write m false (USB_OUTREGS + 32 * ep + 0x00) v).machine buf)
    ep (min ((m.state.out_eps ep).tx_size &&& DEPTSIZ_XFERSIZ_MASK) m.state.grxfsiz)
  have hep' : (tcp_usb_fill (synopsys_usb_write m false (USB_OUTREGS + 32 * ep + 0x00)
      v).machine buf).state.out_eps ep =
      synopsys_usb_update_ep ((out_control_written m ep v).state.out_eps ep) := by
    rw [hw]
    simp [Outcome.machine, tcp_usb_fill, out_ep_updated, set_out_ep]
  have hmem : (tcp_usb_fill (synopsys_usb_write m false (USB_OUTREGS + 32 * ep + 0x00)
      v).machine buf).mem = m.mem := by
    rw [hw]; simp [Outcome.machine, tcp_usb_fill, out_ep_updated, w9]
  have hfifos : (tcp_usb_fill (synopsys_usb_write m false (USB_OUTREGS + 32 * ep + 0x00)
      v).machine buf).state.fifos = buf := rfl
  have hmsk : (tcp_usb_fill (synopsys_usb_write m false (USB_OUTREGS + 32 * ep + 0x00)
        v).machine buf).state.daintmsk = m.state.daintmsk ∧
      (tcp_usb_fill (synopsys_usb_write m false (USB_OUTREGS + 32 * ep + 0x00)
        v).machine buf).state.gintmsk = m.state.gintmsk := by
    rw [hw]
    simp [Outcome.machine, tcp_usb_fill, out_ep_updated, set_out_ep, w6, w7]
  rw [hep', f1, f3, w2, w4, hmem, hfifos, if_pos hA, if_pos hA] at hd
  obtain ⟨d1, d2, d3, d4, d5, -, -⟩ := hd
  refine ⟨?_, ?_, ?_, ?_, ?_, ?_, ?_, ?_⟩
  · rw [hw]; rfl
  · rw [hw]; rfl
  · intro j hj
    unfold out_write_then_done
    rw [d5]
    unfold cpu_physical_memory_write
    rw [if_pos ⟨by omega, by omega⟩, Nat.add_sub_cancel_left]
  · unfold out_write_then_done
    rw [d4]; rfl
  · unfold out_write_then_done
    rw [d1, tx_size_low, size_t_sub_of_le _ _ (Nat.min_le_left _ _) (by omega)]
    apply Nat.mod_eq_of_lt
    omega
  · unfold out_write_then_done
    rw [d2, Nat.testBit_and, testBit_not32, USB_EPCON_ENABLE, testBit_one_shiftLeft]
    simp
  · unfold out_write_then_done
    rw [d3, Nat.testBit_or]
    have c : (USB_EPINT_XferCompl).testBit 0 = true := by decide
    rw [c, Bool.or_true]
  · intro hd hg
    unfold out_write_then_done
    apply out_ep_done_irq _ ep _ hep
    · rw [hmsk.1, Nat.add_comm]; exact hd
    · rw [hmsk.2]; exact hg


/-- Witness of C6 (amended): the scenario of the spec, `R = 0x1C0`, `N = 0x40`, `ep = 0`,
with the probe returning false: a receive of 0x40 bytes is issued, and after the
completion the byte count is 0 and the line is raised. -/
theorem out_ep_receive_completes_witness :
    0 < 8 ∧ Nat.testBit 0x80000000 31 = true ∧ Nat.testBit 0x80000000 30 = false ∧
    (c6_machine.state.out_eps 0).dma_address ≠ 0 ∧
    c6_machine.state.grxfsiz ≤ FIFOS_SIZE ∧
    (synopsys_usb_write c6_machine false (USB_OUTREGS + 32 * 0 + 0x00) 0x80000000).fatal
      = false ∧
    (synopsys_usb_write c6_machine false (USB_OUTREGS + 32 * 0 + 0x00)
      0x80000000).machine.calls = [ext_call.tcp_usb_recv 0 0 0x40] ∧
    (out_write_then_done c6_machine false 0 0x80000000 c6_buf 0x40).mem (0x1000 + 0x3F)
      = c6_buf 0x3F ∧
    ((out_write_then_done c6_machine false 0 0x80000000 c6_buf 0x40).state.out_eps
      0).dma_address = 0x1040 ∧
    ((out_write_then_done c6_machine false 0 0x80000000 c6_buf 0x40).state.out_eps
      0).tx_size &&& DEPTSIZ_XFERSIZ_MASK = 0 ∧
    ((out_write_then_done c6_machine false 0 0x80000000 c6_buf 0x40).state.out_eps
      0).control.testBit 31 = false ∧
    ((out_write_then_done c6_machine false 0 0x80000000 c6_buf 0x40).state.out_eps
      0).interrupt_status.testBit 0 = true ∧
    (out_write_then_done c6_machine false 0 0x80000000 c6_buf 0x40).irq = true := by
  have h := out_ep_receive_completes c6_machine 0 0x80000000 c6_buf (by decide) (by decide)
    (by decide) (by decide) (by decide)
  exact ⟨by decide, by decide, by decide, by decide, by decide, h.1, h.2.1,
    h.2.2.1 0x3F (by decide), h.2.2.2.1, h.2.2.2.2.1, h.2.2.2.2.2.1, h.2.2.2.2.2.2.1,
    h.2.2.2.2.2.2.2 (by decide) (by decide)⟩

/-- C7: for every endpoint state whose `control` has `SETNAK` (bit 27) set, one run of the
common update step `synopsys_usb_update_ep` leaves NAK-status (bit 17) set in `control`,
the NAK-effective bit (0x40, bit 6) set in `interrupt_status`, and `SETNAK` clear in
`control`. -/
theorem update_ep_setnak (e : synopsys_usb_ep_state) (h : e.control.testBit 27 = true) :
    (synopsys_usb_update_ep e).control.testBit 17 = true ∧
    (synopsys_usb_update_ep e).interrupt_status.testBit 6 = true ∧
    (synopsys_usb_update_ep e).control.testBit 27 = false := by
  have hs : e.control &&& USB_EPCON_SETNAK ≠ 0 := by
    rw [USB_EPCON_SETNAK, and_one_shiftLeft_ne_zero]; exact h
  have h6 : (USB_EPINT_INEPNakEff).testBit 6 = true := by decide
  unfold synopsys_usb_update_ep
  simp only [hs, ne_eq, not_false_eq_true, if_true]
  split_ifs <;>
  simp only [Nat.testBit_and, Nat.testBit_or, testBit_not32, USB_EPCON_NAKSTS, USB_EPCON_SETNAK,
    USB_EPCON_DISABLE, USB_EPCON_ENABLE, testBit_one_shiftLeft, h6] <;>
  simp

/-- Witness of C7: an endpoint whose control register holds only `SETNAK`. -/
theorem update_ep_setnak_witness :
    c7_ep.control.testBit 27 = true ∧
    (synopsys_usb_update_ep c7_ep).control.testBit 17 = true ∧
    (synopsys_usb_update_ep c7_ep).interrupt_status.testBit 6 = true ∧
    (synopsys_usb_update_ep c7_ep).control.testBit 27 = false :=
  ⟨by decide, update_ep_setnak c7_ep (by decide)⟩

/-- C8: for every prior value `g` of the reset-control register and every value `v`
written at address 0x10, the write returns normally with a machine that differs from the
prior one at most in `grstctl`, which becomes `(g & ~1) | 0x80000000` when `v` has bit 0
set, 0 when `v = 0`, and stays `g` for every other `v`; the first of these values has the
soft-reset bit 0 clear and the AHB-idle bit 31 set. -/
theorem grstctl_write (m : Machine) (okay : Bool) (v : Nat) :
    synopsys_usb_write m okay 0x10 v =
      .ok { m with state := { m.state with
        grstctl := (if v.testBit 0 = true then (m.state.grstctl &&& not32 1) ||| 0x80000000
          else if v = 0 then 0 else m.state.grstctl) } } ∧
    ((m.state.grstctl &&& not32 1) ||| 0x80000000).testBit 0 = false ∧
    ((m.state.grstctl &&& not32 1) ||| 0x80000000).testBit 31 = true := by
  refine ⟨?_, ?_, ?_⟩
  · have hb : v &&& GRSTCTL_CORESOFTRESET ≠ 0 ↔ v.testBit 0 = true :=
      and_one_shiftLeft_ne_zero v 0
    unfold synopsys_usb_write
    simp only [GRSTCTL, if_true, hb]
    rcases Bool.eq_false_or_eq_true (v.testBit 0) with h1 | h1
    · rw [if_pos h1, if_pos h1]
      rfl
    · rw [h1, if_neg Bool.false_ne_true, if_neg Bool.false_ne_true]
      by_cases h2 : v = 0
      · rw [if_pos h2, if_pos h2, h2]
      · rw [if_neg h2, if_neg h2]
  · have c : Nat.testBit 0x80000000 0 = false := by decide
    rw [Nat.testBit_or, Nat.testBit_and, testBit_not32, c, Nat.testBit_one_zero]
    simp
  · have c : Nat.testBit 0x80000000 31 = true := by decide
    simp only [Nat.testBit_or, c, Bool.or_true]

/-- C9: for every write to address `base + 32*ep + off`, with `base` the IN block (0x900)
or the OUT block (0xB00), `off` a 5-bit sub-offset and the address inside the 0x200-byte
block: if `ep >= 8` and `off` is one of the five field offsets, or if `ep < 8` and `off`
is not one of 0x00, 0x08, 0x10, 0x14, 0x1C, the write stops in `hw_error` and the machine
at that moment is the prior one, no register changed. -/
theorem ep_write_decode_fatal (m : Machine) (okay : Bool) (base ep off v : Nat)
    (hb : base = USB_INREGS ∨ base = USB_OUTREGS) (hoff : off < 32)
    (hrange : 32 * ep + off < USB_EPREGS_SIZE)
    (hbad : (8 ≤ ep ∧ (off = 0x00 ∨ off = 0x08 ∨ off = 0x10 ∨ off = 0x14 ∨ off = 0x1C)) ∨
      (ep < 8 ∧ ¬ (off = 0x00 ∨ off = 0x08 ∨ off = 0x10 ∨ off = 0x14 ∨ off = 0x1C))) :
    synopsys_usb_write m okay (base + 32 * ep + off) v = .hw_error m := by
  simp only [USB_EPREGS_SIZE] at hrange
  have hle : 32 * ep + off ≤ 0x1FC := by
    rcases hbad with ⟨h8, h | h | h | h | h⟩ | ⟨h8, -⟩ <;> omega
  rcases hb with hb | hb
  · rw [hb, write_in_dispatch m okay ep off v hoff hle]
    unfold synopsys_usb_in_ep_write
    simp only [USB_NUM_ENDPOINTS]
    rcases hbad with ⟨h8, -⟩ | ⟨h8, hne⟩
    · rw [if_pos h8]
    · simp only [not_or] at hne
      obtain ⟨n1, n2, n3, n4, n5⟩ := hne
      rw [if_neg (by omega), if_neg n1, if_neg n2, if_neg n3, if_neg n4, if_neg n5]
  · rw [hb, write_out_dispatch m okay ep off v hoff hle]
    unfold synopsys_usb_out_ep_write
    simp only [USB_NUM_ENDPOINTS]
    rcases hbad with ⟨h8, -⟩ | ⟨h8, hne⟩
    · rw [if_pos h8]
    · simp only [not_or] at hne
      obtain ⟨n1, n2, n3, n4, n5⟩ := hne
      rw [if_neg (by omega), if_neg n1, if_neg n2, if_neg n3, if_neg n4, if_neg n5]

/-- Witness of C9: the IN control register of endpoint 9, at address 0xA20. -/
theorem ep_write_decode_fatal_witness :
    (USB_INREGS = USB_INREGS ∨ USB_INREGS = USB_OUTREGS) ∧ 0 < 32 ∧
    32 * 9 + 0 < USB_EPREGS_SIZE ∧
    ((8 ≤ 9 ∧ ((0 : Nat) = 0x00 ∨ (0 : Nat) = 0x08 ∨ (0 : Nat) = 0x10 ∨ (0 : Nat) = 0x14 ∨
        (0 : Nat) = 0x1C)) ∨
      (9 < 8 ∧ ¬ ((0 : Nat) = 0x00 ∨ (0 : Nat) = 0x08 ∨ (0 : Nat) = 0x10 ∨ (0 : Nat) = 0x14 ∨
        (0 : Nat) = 0x1C))) ∧
    USB_INREGS + 32 * 9 + 0 = 0xA20 ∧
    synopsys_usb_write machine_zero false (USB_INREGS + 32 * 9 + 0) 0x80000000 =
      .hw_error machine_zero :=
  ⟨by decide, by decide, by decide, by decide, by decide,
    ep_write_decode_fatal machine_zero false USB_INREGS 9 0 0x80000000 (by decide) (by decide)
      (by decide) (by decide)⟩

/-- C10: for every FIFO index `i` in 0..16 and every `s, n < 2^16`, when the register
index `i` maps to (`gnptxfsiz` for `i = 0`, `dptxfsiz[i-1]` otherwise) holds
`(s << 16) | n`, `synopsys_usb_tx_fifo_start` returns `s` and `synopsys_usb_tx_fifo_size`
returns `n`. -/
theorem tx_fifo_unpack (st : synopsys_usb_state) (i s n : Nat) (_hi : i ≤ 16)
    (_hs : s < 2 ^ 16) (hn : n < 2 ^ 16)
    (hreg : (if i = 0 then st.gnptxfsiz else st.dptxfsiz (i - 1)) = (s <<< 16) ||| n) :
    synopsys_usb_tx_fifo_start st i = s ∧ synopsys_usb_tx_fifo_size st i = n := by
  unfold synopsys_usb_tx_fifo_start synopsys_usb_tx_fifo_size
  by_cases h0 : i = 0
  · rw [if_pos h0] at hreg
    rw [if_pos h0, if_pos h0, hreg]
    exact pack_unpack s n hn
  · rw [if_neg h0] at hreg
    rw [if_neg h0, if_neg h0, hreg]
    exact pack_unpack s n hn

/-- Witness of C10: index 16, the last periodic FIFO, holding `(0x0F00 << 16) | 0x100`. -/
theorem tx_fifo_unpack_witness :
    16 ≤ 16 ∧ 0x0F00 < 2 ^ 16 ∧ 0x100 < 2 ^ 16 ∧
    (if 16 = 0 then c10_state.gnptxfsiz else c10_state.dptxfsiz (16 - 1)) =
      (0x0F00 <<< 16) ||| 0x100 ∧
    synopsys_usb_tx_fifo_start c10_state 16 = 0x0F00 ∧
    synopsys_usb_tx_fifo_size c10_state 16 = 0x100 :=
  ⟨by decide, by decide, by decide, by decide,
    tx_fifo_unpack c10_state 16 0x0F00 0x100 (by decide) (by decide) (by decide) (by decide)⟩

/-- C11: for every endpoint `ep` in 0..7, in either direction, a control write whose value
has `DISABLE` (bit 30) set, whether or not `ENABLE` (bit 31) is set too, returns normally,
sets the endpoint-disabled bit (0x2, bit 1) in `interrupt_status`, leaves `ENABLE` and
`DISABLE` clear in `control`, and starts no transfer: `tx_size`, `dma_address`, the FIFO
buffer and guest memory are unchanged and no call is issued, so neither `tcp_usb_send`
nor `tcp_usb_recv`. -/
theorem control_write_disable_wins (m : Machine) (okay : Bool) (ep v : Nat) (hep : ep < 8)
    (hdis : v.testBit 30 = true) :
    ((synopsys_usb_write m okay (USB_INREGS + 32 * ep + 0x00) v).fatal = false ∧
      ((synopsys_usb_write m okay (USB_INREGS + 32 * ep + 0x00) v).machine.state.in_eps
        ep).interrupt_status.testBit 1 = true ∧
      ((synopsys_usb_write m okay (USB_INREGS + 32 * ep + 0x00) v).machine.state.in_eps
        ep).control.testBit 31 = false ∧
      ((synopsys_usb_write m okay (USB_INREGS + 32 * ep + 0x00) v).machine.state.in_eps
        ep).control.testBit 30 = false ∧
      ((synopsys_usb_write m okay (USB_INREGS + 32 * ep + 0x00) v).machine.state.in_eps
        ep).tx_size = (m.state.in_eps ep).tx_size ∧
      ((synopsys_usb_write m okay (USB_INREGS + 32 * ep + 0x00) v).machine.state.in_eps
        ep).dma_address = (m.state.in_eps ep).dma_address ∧
      (synopsys_usb_write m okay (USB_INREGS + 32 * ep + 0x00) v).machine.state.fifos =
        m.state.fifos ∧
      (synopsys_usb_write m okay (USB_INREGS + 32 * ep + 0x00) v).machine.mem = m.mem ∧
      (synopsys_usb_write m okay (USB_INREGS + 32 * ep + 0x00) v).machine.calls = m.calls) ∧
    ((synopsys_usb_write m okay (USB_OUTREGS + 32 * ep + 0x00) v).fatal = false ∧
      ((synopsys_usb_write m okay (USB_OUTREGS + 32 * ep + 0x00) v).machine.state.out_eps
        ep).interrupt_status.testBit 1 = true ∧
      ((synopsys_usb_write m okay (USB_OUTREGS + 32 * ep + 0x00) v).machine.state.out_eps
        ep).control.testBit 31 = false ∧
      ((synopsys_usb_write m okay (USB_OUTREGS + 32 * ep + 0x00) v).machine.state.out_eps
        ep).control.testBit 30 = false ∧
      ((synopsys_usb_write m okay (USB_OUTREGS + 32 * ep + 0x00) v).machine.state.out_eps
        ep).tx_size = (m.state.out_eps ep).tx_size ∧
      ((synopsys_usb_write m okay (USB_OUTREGS + 32 * ep + 0x00) v).machine.state.out_eps
        ep).dma_address = (m.state.out_eps ep).dma_address ∧
      (synopsys_usb_write m okay (USB_OUTREGS + 32 * ep + 0x00) v).machine.state.fifos =
        m.state.fifos ∧
      (synopsys_usb_write m okay (USB_OUTREGS + 32 * ep + 0x00) v).machine.mem = m.mem ∧
      (synopsys_usb_write m okay (USB_OUTREGS + 32 * ep + 0x00) v).machine.calls = m.calls) := by
  constructor
  · obtain ⟨w1, w2, -, -, w5, -, -⟩ := in_control_written_ep m ep v
    obtain ⟨f1, -, f3, -⟩ := update_ep_frame ((in_control_written m ep v).state.in_eps ep)
    obtain ⟨k31, k30, k1⟩ := update_ep_disable ((in_control_written m ep v).state.in_eps ep)
      (by rw [w1]; exact hdis)
    rw [write_in_control m okay ep v hep, update_in_ep_not_enabled _ okay ep k31]
    simp only [Outcome.fatal, Outcome.machine, in_ep_updated_ep]
    exact ⟨trivial, k1, k31, k30, f1.trans w2, f3.trans w5, rfl, rfl, rfl⟩
  · obtain ⟨w1, w2, -, w4, -, -, -, -, -⟩ := out_control_written_ep m ep v
    obtain ⟨f1, -, f3, -⟩ := update_ep_frame ((out_control_written m ep v).state.out_eps ep)
    obtain ⟨k31, k30, k1⟩ := update_ep_disable ((out_control_written m ep v).state.out_eps ep)
      (by rw [w1]; exact hdis)
    rw [write_out_control m okay ep v hep, update_out_ep_not_enabled _ okay ep k31]
    simp only [Outcome.fatal, Outcome.machine, out_ep_updated_ep]
    exact ⟨trivial, k1, k31, k30, f1.trans w2, f3.trans w4, rfl, rfl, rfl⟩

/-- Witness of C11: `ENABLE | DISABLE` written to the control register of endpoint 2,
which is set up for a transfer of 0x80 bytes. -/
theorem control_write_disable_wins_witness :
    2 < 8 ∧ Nat.testBit 0xC0000000 30 = true ∧ Nat.testBit 0xC0000000 31 = true ∧
    (((synopsys_usb_write c11_machine false (USB_INREGS + 32 * 2 + 0x00) 0xC0000000).fatal = false ∧
      ((synopsys_usb_write c11_machine false (USB_INREGS + 32 * 2 + 0x00) 0xC0000000).machine.state.in_eps
        2).interrupt_status.testBit 1 = true ∧
      ((synopsys_usb_write c11_machine false (USB_INREGS + 32 * 2 + 0x00) 0xC0000000).machine.state.in_eps
        2).control.testBit 31 = false ∧
      ((synopsys_usb_write c11_machine false (USB_INREGS + 32 * 2 + 0x00) 0xC0000000).machine.state.in_eps
        2).control.testBit 30 = false ∧
      ((synopsys_usb_write c11_machine false (USB_INREGS + 32 * 2 + 0x00) 0xC0000000).machine.state.in_eps
        2).tx_size = (c11_machine.state.in_eps 2).tx_size ∧
      ((synopsys_usb_write c11_machine false (USB_INREGS + 32 * 2 + 0x00) 0xC0000000).machine.state.in_eps
        2).dma_address = (c11_machine.state.in_eps 2).dma_address ∧
      (synopsys_usb_write c11_machine false (USB_INREGS + 32 * 2 + 0x00) 0xC0000000).machine.state.fifos =
        c11_machine.state.fifos ∧
      (synopsys_usb_write c11_machine false (USB_INREGS + 32 * 2 + 0x00) 0xC0000000).machine.mem = c11_machine.mem ∧
      (synopsys_usb_write c11_machine false (USB_INREGS + 32 * 2 + 0x00) 0xC0000000).machine.calls = c11_machine.calls) ∧
    ((synopsys_usb_write c11_machine false (USB_OUTREGS + 32 * 2 + 0x00) 0xC0000000).fatal = false ∧
      ((synopsys_usb_write c11_machine false (USB_OUTREGS + 32 * 2 + 0x00) 0xC0000000).machine.state.out_eps
        2).interrupt_status.testBit 1 = true ∧
      ((synopsys_usb_write c11_machine false (USB_OUTREGS + 32 * 2 + 0x00) 0xC0000000).machine.state.out_eps
        2).control.testBit 31 = false ∧
      ((synopsys_usb_write c11_machine false (USB_OUTREGS + 32 * 2 + 0x00) 0xC0000000).machine.state.out_eps
        2).control.testBit 30 = false ∧
      ((synopsys_usb_write c11_machine false (USB_OUTREGS + 32 * 2 + 0x00) 0xC0000000).machine.state.out_eps
        2).tx_size = (c11_machine.state.out_eps 2).tx_size ∧
      ((synopsys_usb_write c11_machine false (USB_OUTREGS + 32 * 2 + 0x00) 0xC0000000).machine.state.out_eps
        2).dma_address = (c11_machine.state.out_eps 2).dma_address ∧
      (synopsys_usb_write c11_machine false (USB_OUTREGS + 32 * 2 + 0x00) 0xC0000000).machine.state.fifos =
        c11_machine.state.fifos ∧
      (synopsys_usb_write c11_machine false (USB_OUTREGS + 32 * 2 + 0x00) 0xC0000000).machine.mem = c11_machine.mem ∧
      (synopsys_usb_write c11_machine false (USB_OUTREGS + 32 * 2 + 0x00) 0xC0000000).machine.calls = c11_machine.calls)) :=
  ⟨by decide, by decide, by decide,
    control_write_disable_wins c11_machine false 2 0xC0000000 (by decide) (by decide)⟩

/-- C12 (the code departs from the claim): right after reset the aggregate registers are
current; a control write carrying only `SETNAK` to IN endpoint 0 returns normally and
sets the NAK-effective bit in `interrupt_status`, but DAINTSTS stays 0 where the
recomputation gives 1; the same happens for a control write carrying only `DISABLE` to
OUT endpoint 0 (DAINTSTS stays 0, the recomputation gives 0x10000). The common update
step changes `interrupt_status` and `synopsys_usb_update_irq` is not run after it. -/
theorem control_write_leaves_aggregates_stale :
    aggregates_current c12_machine ∧
    (synopsys_usb_write c12_machine false (USB_INREGS + 32 * 0 + 0x00) 0x08000000).fatal
      = false ∧
    ((synopsys_usb_write c12_machine false (USB_INREGS + 32 * 0 + 0x00)
      0x08000000).machine.state.in_eps 0).interrupt_status = 0x40 ∧
    (synopsys_usb_write c12_machine false (USB_INREGS + 32 * 0 + 0x00)
      0x08000000).machine.state.daintsts = 0 ∧
    (synopsys_usb_update_irq (synopsys_usb_write c12_machine false (USB_INREGS + 32 * 0 + 0x00)
      0x08000000).machine).state.daintsts = 1 ∧
    ¬ aggregates_current
      (synopsys_usb_write c12_machine false (USB_INREGS + 32 * 0 + 0x00) 0x08000000).machine ∧
    (synopsys_usb_write c12_machine false (USB_OUTREGS + 32 * 0 + 0x00) 0x40000000).fatal
      = false ∧
    (synopsys_usb_write c12_machine false (USB_OUTREGS + 32 * 0 + 0x00)
      0x40000000).machine.state.daintsts = 0 ∧
    (synopsys_usb_update_irq (synopsys_usb_write c12_machine false (USB_OUTREGS + 32 * 0 + 0x00)
      0x40000000).machine).state.daintsts = 0x10000 ∧
    ¬ aggregates_current
      (synopsys_usb_write c12_machine false (USB_OUTREGS + 32 * 0 + 0x00) 0x40000000).machine := by
  refine ⟨by decide, by decide, by decide, by decide, by decide, by decide, by decide,
    by decide, by decide, by decide⟩

/-- C13 (counterexample): IN endpoint 0 is enabled with a control value whose TXFNUM
field is 1, while its `fifo` field is 0. FIFO 1 is `(0x400, 0x100)`, so the claim has
0x100 bytes moved from the window at 0x400; the step hands `tcp_usb_send` 0x1C0 bytes
from the window at 0x200, which is FIFO 0. -/
theorem in_ep_step_ignores_txfnum :
    (0x80400000 >>> USB_EPCON_TXFNUM_SHIFT) &&& USB_EPCON_TXFNUM_MASK = 1 ∧
    Nat.testBit 0x80400000 31 = true ∧ Nat.testBit 0x80400000 30 = false ∧
    synopsys_usb_tx_fifo_start c13_machine.state 1 = 0x400 ∧
    synopsys_usb_tx_fifo_size c13_machine.state 1 = 0x100 ∧
    (c13_machine.state.in_eps 0).tx_size &&& DEPTSIZ_XFERSIZ_MASK = 0x200 ∧
    (synopsys_usb_write c13_machine false (USB_INREGS + 32 * 0 + 0x00) 0x80400000).fatal
      = false ∧
    (synopsys_usb_write c13_machine false (USB_INREGS + 32 * 0 + 0x00)
      0x80400000).machine.calls = [ext_call.tcp_usb_send 0 0x200 0x1C0] ∧
    (synopsys_usb_write c13_machine false (USB_INREGS + 32 * 0 + 0x00)
      0x80400000).machine.calls ≠ [ext_call.tcp_usb_send 0 0x400 0x100] ∧
    ((synopsys_usb_write c13_machine true (USB_INREGS + 32 * 0 + 0x00)
      0x80400000).machine.state.in_eps 0).tx_size &&& DEPTSIZ_XFERSIZ_MASK = 0x200 - 0x1C0 := by
  refine ⟨by decide, by decide, by decide, by decide, by decide, by decide, by decide,
    by decide, by decide, by decide⟩

/-- C13 (amended): an IN transfer step uses the FIFO selected by the `fifo` field of the
endpoint state, not by the TXFNUM bits of `control`: for every IN endpoint `ep` in 0..7
whose control register is written with `ENABLE` set and `DISABLE` clear, whose `fifo`
field `f` is below the FIFO count and whose FIFO window fits the buffer, the amount
moved is `min(byte-count, size(f))` and the FIFO window starts at `start(f)`: with the
probe true the completion runs in-line with that amount, with the probe false
`tcp_usb_send` gets that window, after the DMA block read that window when
`dma_address` is nonzero. -/
theorem in_ep_step_uses_fifo_field (m : Machine) (ep v : Nat)
    (hep : ep < 8)
    (hen : v.testBit 31 = true) (hdis : v.testBit 30 = false)
    (hfifo : (m.state.in_eps ep).fifo < USB_NUM_FIFOS)
    (hwin : synopsys_usb_tx_fifo_start m.state (m.state.in_eps ep).fifo +
      synopsys_usb_tx_fifo_size m.state (m.state.in_eps ep).fifo ≤ FIFOS_SIZE) :
    synopsys_usb_write m true (USB_INREGS + 32 * ep + 0x00) v =
      .ok (synopsys_usb_in_ep_done
        (in_ep_dma (in_ep_updated (in_control_written m ep v) ep) ep
          (synopsys_usb_tx_fifo_start m.state (m.state.in_eps ep).fifo)
          (min ((m.state.in_eps ep).tx_size &&& DEPTSIZ_XFERSIZ_MASK)
            (synopsys_usb_tx_fifo_size m.state (m.state.in_eps ep).fifo)))
        ep
        (min ((m.state.in_eps ep).tx_size &&& DEPTSIZ_XFERSIZ_MASK)
          (synopsys_usb_tx_fifo_size m.state (m.state.in_eps ep).fifo))) ∧
    (synopsys_usb_write m false (USB_INREGS + 32 * ep + 0x00) v).fatal = false ∧
    (synopsys_usb_write m false (USB_INREGS + 32 * ep + 0x00) v).machine.calls =
      .tcp_usb_send ep
        (synopsys_usb_tx_fifo_start m.state (m.state.in_eps ep).fifo)
        (min ((m.state.in_eps ep).tx_size &&& DEPTSIZ_XFERSIZ_MASK)
          (synopsys_usb_tx_fifo_size m.state (m.state.in_eps ep).fifo)) ::
      (if (m.state.in_eps ep).dma_address ≠ 0 then
        .cpu_physical_memory_read (m.state.in_eps ep).dma_address
          (synopsys_usb_tx_fifo_start m.state (m.state.in_eps ep).fifo)
          (min ((m.state.in_eps ep).tx_size &&& DEPTSIZ_XFERSIZ_MASK)
            (synopsys_usb_tx_fifo_size m.state (m.state.in_eps ep).fifo)) :: m.calls
      else m.calls) := by
  obtain ⟨w1, w2, w3, w4, w5, w6, w7⟩ := in_control_written_ep m ep v
  obtain ⟨-, -, f3, -⟩ := update_ep_frame ((in_control_written m ep v).state.in_eps ep)
  have k31 := (update_ep_keeps_enable ((in_control_written m ep v).state.in_eps ep)
    (by rw [w1]; exact hen) (by rw [w1]; exact hdis)).1
  have hrun : ∀ okay, _ := fun okay => update_in_ep_enabled (in_control_written m ep v) okay ep
    k31 (by rw [w3]; exact hfifo) (by rw [w3, w6, w7]; exact hwin)
  rw [w2, w3, w6, w7] at hrun
  rw [write_in_control m true ep v hep, write_in_control m false ep v hep, hrun true,
    hrun false, if_pos rfl, if_neg Bool.false_ne_true]
  refine ⟨rfl, rfl, ?_⟩
  simp only [Outcome.machine]
  rw [in_ep_dma_calls, in_ep_updated_ep, f3, w5]
  rfl

/-- Witness of C13 (amended): the control value with TXFNUM 1 written to IN endpoint 0,
whose `fifo` field is 0: the window handed to `tcp_usb_send` is that of FIFO 0. -/
theorem in_ep_step_uses_fifo_field_witness :
    0 < 8 ∧ Nat.testBit 0x80400000 31 = true ∧ Nat.testBit 0x80400000 30 = false ∧
    (c13_machine.state.in_eps 0).fifo < USB_NUM_FIFOS ∧
    synopsys_usb_tx_fifo_start c13_machine.state (c13_machine.state.in_eps 0).fifo +
      synopsys_usb_tx_fifo_size c13_machine.state (c13_machine.state.in_eps 0).fifo
        ≤ FIFOS_SIZE ∧
    synopsys_usb_write c13_machine true (USB_INREGS + 32 * 0 + 0x00) 0x80400000 =
      .ok (synopsys_usb_in_ep_done
        (in_ep_dma (in_ep_updated (in_control_written c13_machine 0 0x80400000) 0) 0
          0x200 0x1C0)
        0 0x1C0) ∧
    (synopsys_usb_write c13_machine false (USB_INREGS + 32 * 0 + 0x00) 0x80400000).fatal
      = false ∧
    (synopsys_usb_write c13_machine false (USB_INREGS + 32 * 0 + 0x00)
      0x80400000).machine.calls = [ext_call.tcp_usb_send 0 0x200 0x1C0] :=
  ⟨by decide, by decide, by decide, by decide, by decide,
    in_ep_step_uses_fifo_field c13_machine 0 0x80400000 (by decide) (by decide) (by decide)
      (by decide) (by decide)⟩

/-- C14 (counterexample): IN endpoint 0 has NAK-status clear; the guest writes the control
value 0x20000 (bit 17 alone, `SETNAK` clear) and NAK-status is set afterwards. The
other way round, after a `SETNAK` write has set NAK-status, a write of 0 clears it. -/
theorem control_write_overwrites_naksts :
    Nat.testBit 0x20000 27 = false ∧
    (machine_zero.state.in_eps 0).control.testBit 17 = false ∧
    (synopsys_usb_write machine_zero false (USB_INREGS + 32 * 0 + 0x00) 0x20000).fatal
      = false ∧
    ((synopsys_usb_write machine_zero false (USB_INREGS + 32 * 0 + 0x00)
      0x20000).machine.state.in_eps 0).control.testBit 17 = true ∧
    ((synopsys_usb_write machine_zero false (USB_OUTREGS + 32 * 0 + 0x00)
      0x08000000).machine.state.out_eps 0).control.testBit 17 = true ∧
    ((synopsys_usb_write
      (synopsys_usb_write machine_zero false (USB_OUTREGS + 32 * 0 + 0x00) 0x08000000).machine
      false (USB_OUTREGS + 32 * 0 + 0x00) 0).machine.state.out_eps 0).control.testBit 17
        = false := by
  refine ⟨by decide, by decide, by decide, by decide, by decide, by decide⟩

/-- C14 (amended): the control register is stored as written: for every endpoint `ep` in
0..7, in either direction, and every control write whose value `v` has `SETNAK` clear,
the NAK-status bit (bit 17) of `control` after the write, whether it returns or stops in
`hw_error`, equals bit 17 of `v`. -/
theorem control_write_naksts_from_value (m : Machine) (okay : Bool) (ep v : Nat)
    (hep : ep < 8) (hnak : v.testBit 27 = false) :
    ((synopsys_usb_write m okay (USB_INREGS + 32 * ep + 0x00) v).machine.state.in_eps
      ep).control.testBit 17 = v.testBit 17 ∧
    ((synopsys_usb_write m okay (USB_OUTREGS + 32 * ep + 0x00) v).machine.state.out_eps
      ep).control.testBit 17 = v.testBit 17 := by
  constructor
  · obtain ⟨w1, -⟩ := in_control_written_ep m ep v
    rw [write_in_control m okay ep v hep, update_in_ep_control_low _ okay ep 17 (by omega),
      update_ep_naksts_kept _ (by rw [w1]; exact hnak), w1]
  · obtain ⟨w1, -⟩ := out_control_written_ep m ep v
    rw [write_out_control m okay ep v hep, update_out_ep_control _ okay ep,
      update_ep_naksts_kept _ (by rw [w1]; exact hnak), w1]

/-- Witness of C14 (amended): endpoint 0 with NAK-status clear, value 0x20000. -/
theorem control_write_naksts_from_value_witness :
    0 < 8 ∧ Nat.testBit 0x20000 27 = false ∧
    ((synopsys_usb_write machine_zero false (USB_INREGS + 32 * 0 + 0x00)
      0x20000).machine.state.in_eps 0).control.testBit 17 = Nat.testBit 0x20000 17 ∧
    ((synopsys_usb_write machine_zero false (USB_OUTREGS + 32 * 0 + 0x00)
      0x20000).machine.state.out_eps 0).control.testBit 17 = Nat.testBit 0x20000 17 :=
  ⟨by decide, by decide,
    control_write_naksts_from_value machine_zero false 0 0x20000 (by decide) (by decide)⟩

/-- C15 (counterexample): with byte count 0 and a completion reporting 1 byte, the
byte-count field of `tx_size` is 0x1FFFF afterwards, in both handlers: the subtraction
wraps around and is masked to 17 bits. -/
theorem ep_done_byte_count_wraps :
    (machine_zero.state.in_eps 0).tx_size &&& DEPTSIZ_XFERSIZ_MASK = 0 ∧
    ((synopsys_usb_in_ep_done machine_zero 0 1).state.in_eps 0).tx_size
      &&& DEPTSIZ_XFERSIZ_MASK = 0x1FFFF ∧
    ¬ (((synopsys_usb_in_ep_done machine_zero 0 1).state.in_eps 0).tx_size
        &&& DEPTSIZ_XFERSIZ_MASK ≤
      (machine_zero.state.in_eps 0).tx_size &&& DEPTSIZ_XFERSIZ_MASK) ∧
    (machine_zero.state.out_eps 0).tx_size &&& DEPTSIZ_XFERSIZ_MASK = 0 ∧
    ((synopsys_usb_out_ep_done machine_zero 0 1).state.out_eps 0).tx_size
      &&& DEPTSIZ_XFERSIZ_MASK = 0x1FFFF ∧
    ¬ (((synopsys_usb_out_ep_done machine_zero 0 1).state.out_eps 0).tx_size
        &&& DEPTSIZ_XFERSIZ_MASK ≤
      (machine_zero.state.out_eps 0).tx_size &&& DEPTSIZ_XFERSIZ_MASK) := by
  refine ⟨by decide, by decide, by decide, by decide, by decide, by decide⟩

/-- C15 (amended): for every endpoint state and every amount `amt` reported to a
completion handler (`synopsys_usb_in_ep_done` or `synopsys_usb_out_ep_done`) that is at
most the byte-count field of `tx_size` before the completion, the byte-count field after
the completion is the one before minus `amt`, hence less than or equal to it. -/
theorem ep_done_byte_count_decreases (m : Machine) (ep amt : Nat) :
    (amt ≤ (m.state.in_eps ep).tx_size &&& DEPTSIZ_XFERSIZ_MASK →
      ((synopsys_usb_in_ep_done m ep amt).state.in_eps ep).tx_size &&& DEPTSIZ_XFERSIZ_MASK =
        ((m.state.in_eps ep).tx_size &&& DEPTSIZ_XFERSIZ_MASK) - amt ∧
      ((synopsys_usb_in_ep_done m ep amt).state.in_eps ep).tx_size &&& DEPTSIZ_XFERSIZ_MASK ≤
        (m.state.in_eps ep).tx_size &&& DEPTSIZ_XFERSIZ_MASK) ∧
    (amt ≤ (m.state.out_eps ep).tx_size &&& DEPTSIZ_XFERSIZ_MASK →
      ((synopsys_usb_out_ep_done m ep amt).state.out_eps ep).tx_size &&& DEPTSIZ_XFERSIZ_MASK =
        ((m.state.out_eps ep).tx_size &&& DEPTSIZ_XFERSIZ_MASK) - amt ∧
      ((synopsys_usb_out_ep_done m ep amt).state.out_eps ep).tx_size &&& DEPTSIZ_XFERSIZ_MASK ≤
        (m.state.out_eps ep).tx_size &&& DEPTSIZ_XFERSIZ_MASK) := by
  constructor
  · intro h
    have hN := xfersiz_lt (m.state.in_eps ep).tx_size
    have e : ((synopsys_usb_in_ep_done m ep amt).state.in_eps ep).tx_size
        &&& DEPTSIZ_XFERSIZ_MASK =
        ((m.state.in_eps ep).tx_size &&& DEPTSIZ_XFERSIZ_MASK) - amt := by
      rw [(in_ep_done_ep m ep amt).1, tx_size_low, size_t_sub_of_le _ _ h (by omega)]
      apply Nat.mod_eq_of_lt
      omega
    exact ⟨e, by rw [e]; omega⟩
  · intro h
    have hN := xfersiz_lt (m.state.out_eps ep).tx_size
    have e : ((synopsys_usb_out_ep_done m ep amt).state.out_eps ep).tx_size
        &&& DEPTSIZ_XFERSIZ_MASK =
        ((m.state.out_eps ep).tx_size &&& DEPTSIZ_XFERSIZ_MASK) - amt := by
      rw [(out_ep_done_ep m ep amt).1, tx_size_low, size_t_sub_of_le _ _ h (by omega)]
      apply Nat.mod_eq_of_lt
      omega
    exact ⟨e, by rw [e]; omega⟩

/-- Witness of C15 (amended): byte count 0x40, completion with 0x30 bytes, 0x10 left. -/
theorem ep_done_byte_count_decreases_witness :
    0x30 ≤ (c15_machine.state.in_eps 1).tx_size &&& DEPTSIZ_XFERSIZ_MASK ∧
    0x30 ≤ (c15_machine.state.out_eps 1).tx_size &&& DEPTSIZ_XFERSIZ_MASK ∧
    ((synopsys_usb_in_ep_done c15_machine 1 0x30).state.in_eps 1).tx_size
      &&& DEPTSIZ_XFERSIZ_MASK = 0x40 - 0x30 ∧
    ((synopsys_usb_in_ep_done c15_machine 1 0x30).state.in_eps 1).tx_size
      &&& DEPTSIZ_XFERSIZ_MASK ≤ (c15_machine.state.in_eps 1).tx_size &&& DEPTSIZ_XFERSIZ_MASK ∧
    ((synopsys_usb_out_ep_done c15_machine 1 0x30).state.out_eps 1).tx_size
      &&& DEPTSIZ_XFERSIZ_MASK = 0x40 - 0x30 ∧
    ((synopsys_usb_out_ep_done c15_machine 1 0x30).state.out_eps 1).tx_size
      &&& DEPTSIZ_XFERSIZ_MASK ≤
        (c15_machine.state.out_eps 1).tx_size &&& DEPTSIZ_XFERSIZ_MASK :=
  ⟨by decide, by decide,
    ((ep_done_byte_count_decreases c15_machine 1 0x30).1 (by decide)).1,
    ((ep_done_byte_count_decreases c15_machine 1 0x30).1 (by decide)).2,
    ((ep_done_byte_count_decreases c15_machine 1 0x30).2 (by decide)).1,
    ((ep_done_byte_count_decreases c15_machine 1 0x30).2 (by decide)).2⟩

/-- C16: whenever the IN transfer step `synopsys_usb_update_in_ep` does not stop in
`hw_error`, its accesses are in bounds: if it reaches the FIFO registers (`ENABLE`
survived the common update step), the index `fifo - 1` into the 16-entry table
`dptxfsiz`, used for `fifo != 0`, is below 16 and the window `[txfs, txfs + amtDone)`
ends inside the 0x1100-byte FIFO buffer; every call the step adds (the guest memory read
into that window, the `tcp_usb_send` of it) stays inside the buffer. Likewise every call
a non-fatal OUT step adds is a `tcp_usb_recv` into the buffer base of at most 0x1100
bytes. -/
theorem transfer_steps_in_bounds (m : Machine) (okay : Bool) (ep : Nat) :
    ((synopsys_usb_update_in_ep m okay ep).fatal = false →
      ((synopsys_usb_update_ep (m.state.in_eps ep)).control.testBit 31 = true →
        ((m.state.in_eps ep).fifo ≠ 0 → (m.state.in_eps ep).fifo - 1 < 16) ∧
        in_ep_txfs m ep + in_ep_amount m ep ≤ 0x1100) ∧
      (∀ c, c ∈ (synopsys_usb_update_in_ep m okay ep).machine.calls →
        c ∈ m.calls ∨
        ((c = .cpu_physical_memory_read (m.state.in_eps ep).dma_address (in_ep_txfs m ep)
            (in_ep_amount m ep) ∨
          c = .tcp_usb_send ep (in_ep_txfs m ep) (in_ep_amount m ep)) ∧
        call_in_bounds c))) ∧
    ((synopsys_usb_update_out_ep m okay ep).fatal = false →
      ∀ c, c ∈ (synopsys_usb_update_out_ep m okay ep).machine.calls →
        c ∈ m.calls ∨
        (c = .tcp_usb_recv ep 0 (out_ep_amount m ep) ∧ out_ep_amount m ep ≤ 0x1100 ∧
          call_in_bounds c)) := by
  have hsz : FIFOS_SIZE = 0x1100 := by decide
  have h16 : USB_NUM_FIFOS = 16 := rfl
  constructor
  · intro hnf
    have hamt := in_ep_amount_le m ep
    have hstaged : ∀ c, c ∈ (in_ep_staged m ep).calls →
        in_ep_txfs m ep + in_ep_txfz m ep ≤ FIFOS_SIZE →
        c ∈ m.calls ∨
        ((c = .cpu_physical_memory_read (m.state.in_eps ep).dma_address (in_ep_txfs m ep)
            (in_ep_amount m ep) ∨
          c = .tcp_usb_send ep (in_ep_txfs m ep) (in_ep_amount m ep)) ∧
        call_in_bounds c) := by
      intro c hc hwin
      rw [in_ep_staged_calls] at hc
      split_ifs at hc
      · rcases List.mem_cons.mp hc with h | h
        · right
          refine ⟨Or.inl h, ?_⟩
          rw [h]
          show in_ep_txfs m ep + in_ep_amount m ep ≤ FIFOS_SIZE
          omega
        · exact Or.inl h
      · exact Or.inl hc
    rcases update_in_ep_cases m okay ep with ⟨hE, h⟩ | ⟨-, -, h⟩ | ⟨-, hf, hwin, -, h⟩ |
      ⟨-, hf, hwin, -, h⟩
    · rw [h]
      refine ⟨fun hE' => ?_, fun c hc => Or.inl hc⟩
      rw [hE] at hE'
      exact Bool.noConfusion hE'
    · rw [h] at hnf
      exact Bool.noConfusion hnf
    · rw [h]
      refine ⟨fun _ => ⟨fun _ => by omega, by omega⟩, fun c hc => ?_⟩
      rcases List.mem_cons.mp hc with hc | hc
      · right
        refine ⟨Or.inr hc, ?_⟩
        rw [hc]
        show in_ep_txfs m ep + in_ep_amount m ep ≤ FIFOS_SIZE
        omega
      · exact hstaged c hc hwin
    · rw [h]
      refine ⟨fun _ => ⟨fun _ => by omega, by omega⟩, fun c hc => ?_⟩
      simp only [Outcome.machine] at hc
      rw [(in_ep_done_env _ ep _).1] at hc
      exact hstaged c hc hwin
  · intro hnf c hc
    have hamt := out_ep_amount_le m ep
    rcases update_out_ep_cases m okay ep with ⟨-, h⟩ | ⟨-, -, h⟩ | ⟨-, -, -, h⟩ | ⟨-, -, hR, h⟩
    · rw [h] at hc; exact Or.inl hc
    · rw [h] at hc; exact Or.inl hc
    · rw [h] at hnf
      exact Bool.noConfusion hnf
    · rw [h] at hc
      rcases List.mem_cons.mp hc with hc | hc
      · right
        refine ⟨hc, by omega, ?_⟩
        rw [hc]
        show 0 + out_ep_amount m ep ≤ FIFOS_SIZE
        omega
      · exact Or.inl hc

/-- Witness of C16: endpoint 0 enabled with byte count 0x200 and a DMA address, probe
false: the IN step sends 0x1C0 bytes from the window at 0x200, the OUT step asks for
0x1C0 bytes. -/
theorem transfer_steps_in_bounds_witness :
    (synopsys_usb_update_in_ep c16_machine false 0).fatal = false ∧
    (synopsys_usb_update_ep (c16_machine.state.in_eps 0)).control.testBit 31 = true ∧
    ext_call.tcp_usb_send 0 0x200 0x1C0 ∈
      (synopsys_usb_update_in_ep c16_machine false 0).machine.calls ∧
    (synopsys_usb_update_out_ep c16_machine false 0).fatal = false ∧
    ext_call.tcp_usb_recv 0 0 0x1C0 ∈
      (synopsys_usb_update_out_ep c16_machine false 0).machine.calls ∧
    (((c16_machine.state.in_eps 0).fifo ≠ 0 → (c16_machine.state.in_eps 0).fifo - 1 < 16) ∧
      in_ep_txfs c16_machine 0 + in_ep_amount c16_machine 0 ≤ 0x1100) ∧
    (ext_call.tcp_usb_send 0 0x200 0x1C0 ∈ c16_machine.calls ∨
      ((ext_call.tcp_usb_send 0 0x200 0x1C0 =
          .cpu_physical_memory_read (c16_machine.state.in_eps 0).dma_address
            (in_ep_txfs c16_machine 0) (in_ep_amount c16_machine 0) ∨
        ext_call.tcp_usb_send 0 0x200 0x1C0 =
          .tcp_usb_send 0 (in_ep_txfs c16_machine 0) (in_ep_amount c16_machine 0)) ∧
      call_in_bounds (ext_call.tcp_usb_send 0 0x200 0x1C0))) ∧
    (ext_call.tcp_usb_recv 0 0 0x1C0 ∈ c16_machine.calls ∨
      (ext_call.tcp_usb_recv 0 0 0x1C0 = .tcp_usb_recv 0 0 (out_ep_amount c16_machine 0) ∧
        out_ep_amount c16_machine 0 ≤ 0x1100 ∧
        call_in_bounds (ext_call.tcp_usb_recv 0 0 0x1C0))) :=
  ⟨by decide, by decide, by decide, by decide, by decide,
    ((transfer_steps_in_bounds c16_machine false 0).1 (by decide)).1 (by decide),
    ((transfer_steps_in_bounds c16_machine false 0).1 (by decide)).2 _ (by decide),
    (transfer_steps_in_bounds c16_machine false 0).2 (by decide) _ (by decide)⟩

/-- C17: `synopsys_usb_update_irq` is idempotent and overwrites its aggregates: applying it
twice gives the same machine, line level included, as applying it once; its result is
the same whatever DAINTSTS and bits 18 and 19 of GINTSTS held before the call (replaced
here by `d` and by the bits of `x`); and the bits of GINTSTS other than 18 and 19 are
left as they were. -/
theorem update_irq_idempotent (m : Machine) (d x : Nat) :
    synopsys_usb_update_irq (synopsys_usb_update_irq m) = synopsys_usb_update_irq m ∧
    synopsys_usb_update_irq (with_aggregates m d x) = synopsys_usb_update_irq m ∧
    (synopsys_usb_update_irq m).state.gintsts &&& not32 (GINTMSK_OEP ||| GINTMSK_INEP) =
      m.state.gintsts &&& not32 (GINTMSK_OEP ||| GINTMSK_INEP) := by
  obtain ⟨a1, a2, a3, a4, a5, a6, a7, a8, a9, a10, a11, a12, a13, a14, a15⟩ := update_irq_frame m
  refine ⟨?_, ?_, ?_⟩
  · apply update_irq_congr
    · exact a12
    · exact a13
    · exact a14
    · exact a15
    · exact a6
    · exact a7
    · exact a5
    · exact a4
    · intro i h32 h18 h19
      rw [Bool.eq_iff_iff, update_irq_gintsts]
      constructor
      · rintro (⟨k1, -⟩ | ⟨k, -⟩)
        · exact k1
        · exact absurd k h19
      · intro k
        exact Or.inl ⟨k, h32, h18, h19⟩
    · exact a8
    · exact a10
    · exact a11
    · exact a3
    · exact a1
    · exact a2
    · exact a9
    · exact (update_irq_env m).1
    · exact (update_irq_env m).2
  · apply update_irq_congr <;> try rfl
    intro i h32 h18 h19
    show ((m.state.gintsts &&& not32 (GINTMSK_OEP ||| GINTMSK_INEP))
        ||| (x &&& (GINTMSK_OEP ||| GINTMSK_INEP))).testBit i = m.state.gintsts.testBit i
    have e1 : decide (18 = i) = false := by simp; omega
    have e2 : decide (19 = i) = false := by simp; omega
    have e3 : decide (i < 32) = true := by simp; omega
    simp only [Nat.testBit_or, Nat.testBit_and, testBit_not32, GINTMSK_OEP, GINTMSK_INEP,
      testBit_one_shiftLeft, e1, e2, e3]
    simp
  · apply Nat.eq_of_testBit_eq
    intro i
    rw [Nat.testBit_and, Nat.testBit_and, Bool.eq_iff_iff]
    simp only [Bool.and_eq_true, update_irq_gintsts, testBit_not32, Nat.testBit_or,
      GINTMSK_OEP, GINTMSK_INEP, testBit_one_shiftLeft, decide_eq_true_eq, Bool.not_eq_true',
      Bool.or_eq_false_iff, decide_eq_false_iff_not]
    constructor
    · rintro ⟨⟨k1, k2, k3, k4⟩ | ⟨k, -⟩, k5, k6, k7⟩
      · exact ⟨k1, k5, k6, k7⟩
      · exact absurd k.symm k6
    · rintro ⟨k1, k5, k6, k7⟩
      exact ⟨Or.inl ⟨k1, k5, fun e => k7 e.symm, fun e => k6 e.symm⟩, k5, k6, k7⟩

/-- C18: for every IN endpoint `ep` in 0..7 enabled by a control write (`ENABLE` set,
`DISABLE` clear), the write stops in `hw_error` under the probe value true exactly when
it does under false, and when it does not, the registers, the interrupt line and guest
memory are the same after the in-line completion (probe true) as after the deferred
path (probe false): the write records `tcp_usb_send` for `min(byte-count, FIFO size)`
bytes and `synopsys_usb_in_ep_done` then runs, with no write in between, with that
amount. -/
theorem in_ep_deferred_matches_inline (m : Machine) (ep v : Nat) (hep : ep < 8)
    (hen : v.testBit 31 = true) (hdis : v.testBit 30 = false) :
    (synopsys_usb_write m true (USB_INREGS + 32 * ep + 0x00) v).fatal =
      (synopsys_usb_write m false (USB_INREGS + 32 * ep + 0x00) v).fatal ∧
    ((synopsys_usb_write m false (USB_INREGS + 32 * ep + 0x00) v).fatal = false →
      (synopsys_usb_write m false (USB_INREGS + 32 * ep + 0x00) v).machine.calls.head? =
        some (.tcp_usb_send ep (in_ep_txfs m ep) (in_ep_amount m ep)) ∧
      (synopsys_usb_in_ep_done
        (synopsys_usb_write m false (USB_INREGS + 32 * ep + 0x00) v).machine ep
        (in_ep_amount m ep)).state =
        (synopsys_usb_write m true (USB_INREGS + 32 * ep + 0x00) v).machine.state ∧
      (synopsys_usb_in_ep_done
        (synopsys_usb_write m false (USB_INREGS + 32 * ep + 0x00) v).machine ep
        (in_ep_amount m ep)).irq =
        (synopsys_usb_write m true (USB_INREGS + 32 * ep + 0x00) v).machine.irq ∧
      (synopsys_usb_in_ep_done
        (synopsys_usb_write m false (USB_INREGS + 32 * ep + 0x00) v).machine ep
        (in_ep_amount m ep)).mem =
        (synopsys_usb_write m true (USB_INREGS + 32 * ep + 0x00) v).machine.mem) := by
  obtain ⟨w1, -⟩ := in_control_written_ep m ep v
  obtain ⟨a1, a2, a3⟩ := in_control_written_amount m ep v
  have k31 := (update_ep_keeps_enable ((in_control_written m ep v).state.in_eps ep)
    (by rw [w1]; exact hen) (by rw [w1]; exact hdis)).1
  rw [write_in_control m true ep v hep, write_in_control m false ep v hep]
  rcases update_in_ep_cases (in_control_written m ep v) true ep with
    ⟨hE, -⟩ | ⟨-, hg, ht⟩ | ⟨-, -, -, ho, -⟩ | ⟨-, hf, hwin, -, ht⟩
  · rw [k31] at hE
    exact Bool.noConfusion hE
  · have hf := update_in_ep_guard_fails (in_control_written m ep v) false ep k31 hg
    rw [ht, hf]
    refine ⟨rfl, fun h => ?_⟩
    exact Bool.noConfusion h
  · exact Bool.noConfusion ho
  · have hf := update_in_ep_enabled (in_control_written m ep v) false ep k31 hf hwin
    rw [if_neg Bool.false_ne_true] at hf
    have hf' : synopsys_usb_update_in_ep (in_control_written m ep v) false ep =
        .ok (record_call (in_ep_staged (in_control_written m ep v) ep)
          (.tcp_usb_send ep (in_ep_txfs m ep) (in_ep_amount m ep))) := by
      rw [hf, ← a1, ← a3]
      rfl
    rw [ht, hf', a3]
    simp only [Outcome.fatal, Outcome.machine, true_and, forall_const]
    rw [in_ep_done_record_call, (record_call_fields _ _).1, (record_call_fields _ _).2.1,
      (record_call_fields _ _).2.2.1, (record_call_fields _ _).2.2.2]
    exact ⟨rfl, rfl, rfl, rfl⟩

/-- Witness of C18: IN endpoint 4 enabled with byte count 0x100 on the FIFO
`(0x200, 0x1C0)`: the deferred path records a send of 0x100 bytes and ends in the same
state as the in-line one. -/
theorem in_ep_deferred_matches_inline_witness :
    4 < 8 ∧ Nat.testBit 0x80000000 31 = true ∧ Nat.testBit 0x80000000 30 = false ∧
    (synopsys_usb_write c18_machine false (USB_INREGS + 32 * 4 + 0x00) 0x80000000).fatal
      = false ∧
    (synopsys_usb_write c18_machine true (USB_INREGS + 32 * 4 + 0x00) 0x80000000).fatal =
      (synopsys_usb_write c18_machine false (USB_INREGS + 32 * 4 + 0x00) 0x80000000).fatal ∧
    (synopsys_usb_write c18_machine false (USB_INREGS + 32 * 4 + 0x00)
      0x80000000).machine.calls.head? = some (.tcp_usb_send 4 0x200 0x100) ∧
    (synopsys_usb_in_ep_done
      (synopsys_usb_write c18_machine false (USB_INREGS + 32 * 4 + 0x00) 0x80000000).machine 4
      (in_ep_amount c18_machine 4)).state =
      (synopsys_usb_write c18_machine true (USB_INREGS + 32 * 4 + 0x00)
        0x80000000).machine.state ∧
    (synopsys_usb_in_ep_done
      (synopsys_usb_write c18_machine false (USB_INREGS + 32 * 4 + 0x00) 0x80000000).machine 4
      (in_ep_amount c18_machine 4)).irq =
      (synopsys_usb_write c18_machine true (USB_INREGS + 32 * 4 + 0x00)
        0x80000000).machine.irq ∧
    (synopsys_usb_in_ep_done
      (synopsys_usb_write c18_machine false (USB_INREGS + 32 * 4 + 0x00) 0x80000000).machine 4
      (in_ep_amount c18_machine 4)).mem =
      (synopsys_usb_write c18_machine true (USB_INREGS + 32 * 4 + 0x00)
        0x80000000).machine.mem :=
  ⟨by decide, by decide, by decide, by decide,
    (in_ep_deferred_matches_inline c18_machine 4 0x80000000 (by decide) (by decide)
      (by decide)).1,
    (in_ep_deferred_matches_inline c18_machine 4 0x80000000 (by decide) (by decide)
      (by decide)).2 (by decide)⟩

/-- C19: the transport probe `tcp_usb_okay` is used with opposite polarity in the two
directions. For an endpoint `ep` in 0..7 enabled by a control write (`ENABLE` set,
`DISABLE` clear) whose guards pass: when the probe returns true, the IN step completes
in-line (`synopsys_usb_in_ep_done` runs, `ENABLE` is cleared, transfer-complete is set)
and adds no `tcp_usb_send`, only the guest memory read when `dma_address` is nonzero,
while the OUT step adds no call at all and leaves `ENABLE` set with `tx_size`,
`dma_address` and `interrupt_status` as the common update step left them; when the probe
returns false, the IN step records `tcp_usb_send` and the OUT step records
`tcp_usb_recv`, both leaving `ENABLE` set and `tx_size` untouched for a later
completion. -/
theorem probe_polarity (m : Machine) (ep v : Nat) (hep : ep < 8)
    (hen : v.testBit 31 = true) (hdis : v.testBit 30 = false)
    (hfifo : (m.state.in_eps ep).fifo < USB_NUM_FIFOS)
    (hwin : in_ep_txfs m ep + in_ep_txfz m ep ≤ FIFOS_SIZE)
    (hR : m.state.grxfsiz ≤ FIFOS_SIZE) :
    (synopsys_usb_write m true (USB_INREGS + 32 * ep + 0x00) v =
        .ok (synopsys_usb_in_ep_done (in_ep_staged (in_control_written m ep v) ep) ep
          (in_ep_amount m ep)) ∧
      (synopsys_usb_write m true (USB_INREGS + 32 * ep + 0x00) v).machine.calls =
        (if (m.state.in_eps ep).dma_address ≠ 0 then
          .cpu_physical_memory_read (m.state.in_eps ep).dma_address (in_ep_txfs m ep)
            (in_ep_amount m ep) :: m.calls
        else m.calls) ∧
      ((synopsys_usb_write m true (USB_INREGS + 32 * ep + 0x00) v).machine.state.in_eps
        ep).control.testBit 31 = false ∧
      ((synopsys_usb_write m true (USB_INREGS + 32 * ep + 0x00) v).machine.state.in_eps
        ep).interrupt_status.testBit 0 = true) ∧
    ((synopsys_usb_write m true (USB_OUTREGS + 32 * ep + 0x00) v).fatal = false ∧
      (synopsys_usb_write m true (USB_OUTREGS + 32 * ep + 0x00) v).machine.calls = m.calls ∧
      ((synopsys_usb_write m true (USB_OUTREGS + 32 * ep + 0x00) v).machine.state.out_eps
        ep).control.testBit 31 = true ∧
      ((synopsys_usb_write m true (USB_OUTREGS + 32 * ep + 0x00) v).machine.state.out_eps
        ep).tx_size = (m.state.out_eps ep).tx_size ∧
      ((synopsys_usb_write m true (USB_OUTREGS + 32 * ep + 0x00) v).machine.state.out_eps
        ep).dma_address = (m.state.out_eps ep).dma_address ∧
      ((synopsys_usb_write m true (USB_OUTREGS + 32 * ep + 0x00) v).machine.state.out_eps
        ep).interrupt_status =
        (synopsys_usb_update_ep
          ((out_control_written m ep v).state.out_eps ep)).interrupt_status ∧
      (v.testBit 27 = false →
        ((synopsys_usb_write m true (USB_OUTREGS + 32 * ep + 0x00) v).machine.state.out_eps
          ep).interrupt_status = (m.state.out_eps ep).interrupt_status)) ∧
    ((synopsys_usb_write m false (USB_INREGS + 32 * ep + 0x00) v).fatal = false ∧
      (synopsys_usb_write m false (USB_INREGS + 32 * ep + 0x00) v).machine.calls =
        .tcp_usb_send ep (in_ep_txfs m ep) (in_ep_amount m ep) ::
          (if (m.state.in_eps ep).dma_address ≠ 0 then
            .cpu_physical_memory_read (m.state.in_eps ep).dma_address (in_ep_txfs m ep)
              (in_ep_amount m ep) :: m.calls
          else m.calls) ∧
      ((synopsys_usb_write m false (USB_INREGS + 32 * ep + 0x00) v).machine.state.in_eps
        ep).control.testBit 31 = true ∧
      ((synopsys_usb_write m false (USB_INREGS + 32 * ep + 0x00) v).machine.state.in_eps
        ep).tx_size = (m.state.in_eps ep).tx_size) ∧
    ((synopsys_usb_write m false (USB_OUTREGS + 32 * ep + 0x00) v).fatal = false ∧
      (synopsys_usb_write m false (USB_OUTREGS + 32 * ep + 0x00) v).machine.calls =
        .tcp_usb_recv ep 0 (out_ep_amount m ep) :: m.calls ∧
      ((synopsys_usb_write m false (USB_OUTREGS + 32 * ep + 0x00) v).machine.state.out_eps
        ep).control.testBit 31 = true ∧
      ((synopsys_usb_write m false (USB_OUTREGS + 32 * ep + 0x00) v).machine.state.out_eps
        ep).tx_size = (m.state.out_eps ep).tx_size) := by
  obtain ⟨w1, w2, w3, w4, w5, w6, w7⟩ := in_control_written_ep m ep v
  obtain ⟨a1, a2, a3⟩ := in_control_written_amount m ep v
  obtain ⟨o1, o2, o3, o4, o5, -⟩ := out_control_written_ep m ep v
  have oa := out_control_written_amount m ep v
  have k31 := (update_ep_keeps_enable ((in_control_written m ep v).state.in_eps ep)
    (by rw [w1]; exact hen) (by rw [w1]; exact hdis)).1
  have j31 := (update_ep_keeps_enable ((out_control_written m ep v).state.out_eps ep)
    (by rw [o1]; exact hen) (by rw [o1]; exact hdis)).1
  obtain ⟨s1, s2, s3⟩ := in_ep_staged_ep (in_control_written m ep v) ep
  have scalls := in_ep_staged_calls (in_control_written m ep v) ep
  rw [w5, a1, a3] at scalls
  have hin : ∀ okay, _ := fun okay => update_in_ep_enabled (in_control_written m ep v) okay ep
    k31 (by rw [w3]; exact hfifo) (by rw [w3, w6, w7]; exact hwin)
  have hin_t : synopsys_usb_update_in_ep (in_control_written m ep v) true ep =
      .ok (synopsys_usb_in_ep_done (in_ep_staged (in_control_written m ep v) ep) ep
        (in_ep_amount m ep)) := by
    rw [hin true, if_pos rfl, ← a3]; rfl
  have hin_f : synopsys_usb_update_in_ep (in_control_written m ep v) false ep =
      .ok (record_call (in_ep_staged (in_control_written m ep v) ep)
        (.tcp_usb_send ep (in_ep_txfs m ep) (in_ep_amount m ep))) := by
    rw [hin false, if_neg Bool.false_ne_true, ← a1, ← a3]; rfl
  have hout : ∀ okay, _ := fun okay => update_out_ep_enabled (out_control_written m ep v) okay
    ep j31
  have hout_t : synopsys_usb_update_out_ep (out_control_written m ep v) true ep =
      .ok (out_ep_updated (out_control_written m ep v) ep) := by
    rw [hout true, if_pos rfl]
  have hout_f : synopsys_usb_update_out_ep (out_control_written m ep v) false ep =
      .ok (record_call (out_ep_updated (out_control_written m ep v) ep)
        (.tcp_usb_recv ep 0 (out_ep_amount m ep))) := by
    rw [hout false, if_neg Bool.false_ne_true, o5, if_neg (by omega), ← oa]; rfl
  obtain ⟨f1, -, f3, -⟩ := update_ep_frame ((out_control_written m ep v).state.out_eps ep)
  rw [write_in_control m true ep v hep, write_in_control m false ep v hep,
    write_out_control m true ep v hep, write_out_control m false ep v hep,
    hin_t, hin_f, hout_t, hout_f]
  simp only [Outcome.fatal, Outcome.machine, true_and]
  rw [(in_ep_done_env _ ep _).1, (in_ep_done_ep _ ep _).2.1, (in_ep_done_ep _ ep _).2.2,
    (record_call_fields _ _).1, (record_call_fields _ _).1, (record_call_fields _ _).2.2.2,
    (record_call_fields _ _).2.2.2, out_ep_updated_ep, s1, s2, scalls, w2, f1, f3, o2, o4]
  refine ⟨⟨rfl, ?_, ?_⟩, ⟨rfl, j31, rfl, rfl, rfl, ?_⟩, ⟨rfl, k31, rfl⟩, ⟨?_, j31, rfl⟩⟩
  · rw [Nat.testBit_and, testBit_not32, USB_EPCON_ENABLE, testBit_one_shiftLeft]
    simp
  · rw [Nat.testBit_or]
    have c : (USB_EPINT_XferCompl).testBit 0 = true := by decide
    rw [c, Bool.or_true]
  · intro h27
    rw [update_ep_idle _ (by rw [o1]; exact h27) (by rw [o1]; exact hdis), o3]
  · rfl

/-- Witness of C19: endpoint 5 enabled with byte count 0x300 and a DMA address on the
FIFO registers of the reference device. -/
theorem probe_polarity_witness :
    5 < 8 ∧ Nat.testBit 0x80000000 31 = true ∧ Nat.testBit 0x80000000 30 = false ∧
    (c19_machine.state.in_eps 5).fifo < USB_NUM_FIFOS ∧
    in_ep_txfs c19_machine 5 + in_ep_txfz c19_machine 5 ≤ FIFOS_SIZE ∧
    c19_machine.state.grxfsiz ≤ FIFOS_SIZE ∧
    ((synopsys_usb_write c19_machine true (USB_INREGS + 32 * 5 + 0x00) 0x80000000 =
        .ok (synopsys_usb_in_ep_done (in_ep_staged (in_control_written c19_machine 5 0x80000000) 5) 5
          (in_ep_amount c19_machine 5)) ∧
      (synopsys_usb_write c19_machine true (USB_INREGS + 32 * 5 + 0x00) 0x80000000).machine.calls =
        (if (c19_machine.state.in_eps 5).dma_address ≠ 0 then
          .cpu_physical_memory_read (c19_machine.state.in_eps 5).dma_address (in_ep_txfs c19_machine 5)
            (in_ep_amount c19_machine 5) :: c19_machine.calls
        else c19_machine.calls) ∧
      ((synopsys_usb_write c19_machine true (USB_INREGS + 32 * 5 + 0x00) 0x80000000).machine.state.in_eps
        5).control.testBit 31 = false ∧
      ((synopsys_usb_write c19_machine true (USB_INREGS + 32 * 5 + 0x00) 0x80000000).machine.state.in_eps
        5).interrupt_status.testBit 0 = true) ∧
    ((synopsys_usb_write c19_machine true (USB_OUTREGS + 32 * 5 + 0x00) 0x80000000).fatal = false ∧
      (synopsys_usb_write c19_machine true (USB_OUTREGS + 32 * 5 + 0x00) 0x80000000).machine.calls = c19_machine.calls ∧
      ((synopsys_usb_write c19_machine true (USB_OUTREGS + 32 * 5 + 0x00) 0x80000000).machine.state.out_eps
        5).control.testBit 31 = true ∧
      ((synopsys_usb_write c19_machine true (USB_OUTREGS + 32 * 5 + 0x00) 0x80000000).machine.state.out_eps
        5).tx_size = (c19_machine.state.out_eps 5).tx_size ∧
      ((synopsys_usb_write c19_machine true (USB_OUTREGS + 32 * 5 + 0x00) 0x80000000).machine.state.out_eps
        5).dma_address = (c19_machine.state.out_eps 5).dma_address ∧
      ((synopsys_usb_write c19_machine true (USB_OUTREGS + 32 * 5 + 0x00) 0x80000000).machine.state.out_eps
        5).interrupt_status =
        (synopsys_usb_update_ep
          ((out_control_written c19_machine 5 0x80000000).state.out_eps 5)).interrupt_status ∧
      (Nat.testBit 0x80000000 27 = false →
        ((synopsys_usb_write c19_machine true (USB_OUTREGS + 32 * 5 + 0x00) 0x80000000).machine.state.out_eps
          5).interrupt_status = (c19_machine.state.out_eps 5).interrupt_status)) ∧
    ((synopsys_usb_write c19_machine false (USB_INREGS + 32 * 5 + 0x00) 0x80000000).fatal = false ∧
      (synopsys_usb_write c19_machine false (USB_INREGS + 32 * 5 + 0x00) 0x80000000).machine.calls =
        .tcp_usb_send 5 (in_ep_txfs c19_machine 5) (in_ep_amount c19_machine 5) ::
          (if (c19_machine.state.in_eps 5).dma_address ≠ 0 then
            .cpu_physical_memory_read (c19_machine.state.in_eps 5).dma_address (in_ep_txfs c19_machine 5)
              (in_ep_amount c19_machine 5) :: c19_machine.calls
          else c19_machine.calls) ∧
      ((synopsys_usb_write c19_machine false (USB_INREGS + 32 * 5 + 0x00) 0x80000000).machine.state.in_eps
        5).control.testBit 31 = true ∧
      ((synopsys_usb_write c19_machine false (USB_INREGS + 32 * 5 + 0x00) 0x80000000).machine.state.in_eps
        5).tx_size = (c19_machine.state.in_eps 5).tx_size) ∧
    ((synopsys_usb_write c19_machine false (USB_OUTREGS + 32 * 5 + 0x00) 0x80000000).fatal = false ∧
      (synopsys_usb_write c19_machine false (USB_OUTREGS + 32 * 5 + 0x00) 0x80000000).machine.calls =
        .tcp_usb_recv 5 0 (out_ep_amount c19_machine 5) :: c19_machine.calls ∧
      ((synopsys_usb_write c19_machine false (USB_OUTREGS + 32 * 5 + 0x00) 0x80000000).machine.state.out_eps
        5).control.testBit 31 = true ∧
      ((synopsys_usb_write c19_machine false (USB_OUTREGS + 32 * 5 + 0x00) 0x80000000).machine.state.out_eps
        5).tx_size = (c19_machine.state.out_eps 5).tx_size)) :=
  ⟨by decide, by decide, by decide, by decide, by decide, by decide,
    probe_polarity c19_machine 5 0x80000000 (by decide) (by decide) (by decide) (by decide)
      (by decide) (by decide)⟩

/-- C20: no register write and no transfer completion changes `gintmsk` or `daintmsk`;
hence in every machine reachable from `synopsys_usb_initial_reset`, which sets both to
0, by register writes and transfer completions, `gintmsk = 0` and `daintmsk = 0`, the IN
and OUT summary bits of GINTSTS (18 and 19) are clear and stay clear when
`synopsys_usb_update_irq` recomputes them, and the interrupt line is low and
`synopsys_usb_update_irq` leaves it low. -/
theorem masks_stay_zero (m : Machine) (okay : Bool) (a v ep amt : Nat) :
    ((synopsys_usb_write m okay a v).machine.state.gintmsk = m.state.gintmsk ∧
      (synopsys_usb_write m okay a v).machine.state.daintmsk = m.state.daintmsk) ∧
    ((synopsys_usb_in_ep_done m ep amt).state.gintmsk = m.state.gintmsk ∧
      (synopsys_usb_in_ep_done m ep amt).state.daintmsk = m.state.daintmsk) ∧
    ((synopsys_usb_out_ep_done m ep amt).state.gintmsk = m.state.gintmsk ∧
      (synopsys_usb_out_ep_done m ep amt).state.daintmsk = m.state.daintmsk) ∧
    ((synopsys_usb_initial_reset m).state.gintmsk = 0 ∧
      (synopsys_usb_initial_reset m).state.daintmsk = 0) ∧
    (Reachable m →
      m.state.gintmsk = 0 ∧ m.state.daintmsk = 0 ∧
      m.state.gintsts.testBit 18 = false ∧ m.state.gintsts.testBit 19 = false ∧
      m.irq = false ∧
      (synopsys_usb_update_irq m).state.gintsts.testBit 18 = false ∧
      (synopsys_usb_update_irq m).state.gintsts.testBit 19 = false ∧
      (synopsys_usb_update_irq m).irq = false) := by
  refine ⟨⟨(irq_step_write m okay a v).1, (irq_step_write m okay a v).2.1⟩,
    ⟨(irq_step_in_done m ep amt).1, (irq_step_in_done m ep amt).2.1⟩,
    ⟨(irq_step_out_done m ep amt).1, (irq_step_out_done m ep amt).2.1⟩, ?_, ?_⟩
  · have hq : irq_quiet (synopsys_usb_initial_reset m) := reachable_quiet _ (Reachable.reset m)
    exact ⟨hq.1, hq.2.1⟩
  · intro hr
    obtain ⟨q1, q2, q3, q4, q5⟩ := reachable_quiet m hr
    obtain ⟨-, -, u3, u4, u5⟩ := update_irq_quiet m q1 q2
    exact ⟨q1, q2, q3, q4, q5, u3, u4, u5⟩

/-- Witness of C20: after reset and an `ENABLE` write to IN endpoint 0 completed in-line,
the endpoint has a pending status and DAINTSTS shows it, and still nothing is
signalled. -/
theorem masks_stay_zero_witness :
    Reachable c20_machine ∧
    (c20_machine.state.in_eps 0).interrupt_status ≠ 0 ∧
    c20_machine.state.daintsts = 1 ∧
    c20_machine.state.gintmsk = 0 ∧ c20_machine.state.daintmsk = 0 ∧
    c20_machine.state.gintsts.testBit 18 = false ∧
    c20_machine.state.gintsts.testBit 19 = false ∧
    c20_machine.irq = false ∧
    (synopsys_usb_update_irq c20_machine).state.gintsts.testBit 18 = false ∧
    (synopsys_usb_update_irq c20_machine).state.gintsts.testBit 19 = false ∧
    (synopsys_usb_update_irq c20_machine).irq = false := by
  have hr : Reachable c20_machine :=
    Reachable.write _ _ true (USB_INREGS + 0x00) 0x80000000 (Reachable.reset machine_zero)
      (outcome_eq_ok _ (by decide))
  exact ⟨hr, by decide, by decide, (masks_stay_zero c20_machine false 0 0 0 0).2.2.2.2 hr⟩

end UsbSynopsys
